import Mathlib

/-!
# The HTTP server socket of boost.http (`include/boost/http/socket-inl.hpp`)

A shallow embedding of `basic_socket`: the connection state is a record, every
public operation is a function from the state before the call to the state
after it together with what the operation started (a handler posted through
`invoke_handler`, or an `asio::async_write` with its completion lambda).
Strings and byte vectors are lists of `char`.
-/

namespace BoostHttp

/-! ## Strings, numbers and their text form -/

/-- A `std::string` or a byte container: a sequence of `char`. -/
abbrev Str := List Char

/-- The character written for one digit by `std::to_string` (digits `0`-`9`)
and by a stream in `std::hex` mode (digits `0`-`9`, then lowercase `a`-`f`). -/
def digit_char (d : Nat) : Char :=
  if d < 10 then Char.ofNat (48 + d) else Char.ofNat (87 + d)

/-- Positional rendering of `n` in base `base`, most significant digit first,
without sign, padding or radix mark; `fuel` bounds the number of digits. -/
def to_digits_core (base : Nat) : Nat → Nat → Str → Str
  | 0, _, acc => acc
  | fuel + 1, n, acc =>
    if n < base then digit_char n :: acc
    else to_digits_core base fuel (n / base) (digit_char (n % base) :: acc)

/-- The library function `std::to_string` on an unsigned integer: decimal text. -/
def to_string (n : Nat) : Str := to_digits_core 10 (n + 1) n []

/-- The digits of `n` in base 16, lowercase, most significant first: what the
conversion `%x` produces, the first stage of number output on a stream in
`std::hex` mode (default flags: no `showbase`, no `uppercase`, no width). -/
def hex_digits (n : Nat) : Str := to_digits_core 16 (n + 1) n []

/-- The part of a `std::locale` that number output reads, the facet
`std::numpunct<char>`: `grouping()`, the sizes of the digit groups counted
from the right, and `thousands_sep()`, the character put between two groups.
The default value is the classic locale, which groups nothing. -/
structure locale where
  grouping : List Nat := []
  thousands_sep : Char := ','
deriving DecidableEq, Repr

/-- The grouping stage of `std::num_put` on the digits in reverse order, least
significant first. The first element of `grouping` is the size of the
rightmost group; when the list is used up the size `last` of the group before
repeats; a size of 0 or of `CHAR_MAX` and above ends the grouping. `fuel`
bounds the number of groups. -/
def insert_separators (sep : Char) : Nat → List Nat → Nat → Str → Str
  | 0, _, _, digits => digits
  | fuel + 1, grouping, last, digits =>
    let size := grouping.headD last
    if size = 0 ∨ 127 ≤ size then digits
    else if digits.length ≤ size then digits
    else
      digits.take size
        ++ sep :: insert_separators sep fuel grouping.tail size (digits.drop size)

/-- The second stage of number output for an integer: the digits with the
separators of the locale between the groups. -/
def group_digits (loc : locale) (digits : Str) : Str :=
  (insert_separators loc.thousands_sep digits.length loc.grouping 0 digits.reverse).reverse

/-- The text produced by `ostr << std::hex << n` on a `std::ostringstream`
constructed without arguments, which takes on the global locale `loc` of the
process: the hexadecimal digits, grouped as this locale says. -/
def to_hex (loc : locale) (n : Nat) : Str := group_digits loc (hex_digits n)

/-- Value of a digit character (`0`-`9`, `a`-`f`), used to read a number back. -/
def digit_value (c : Char) : Nat :=
  if 48 ≤ c.toNat ∧ c.toNat ≤ 57 then c.toNat - 48
  else if 97 ≤ c.toNat ∧ c.toNat ≤ 102 then c.toNat - 87
  else 0

/-- Reads a digit string in base `base`, most significant digit first. -/
def read_number (base : Nat) (s : Str) : Nat :=
  s.foldl (fun a c => a * base + digit_value c) 0

/-- Whether `c` is one of the decimal digit characters. -/
def is_decimal_digit (c : Char) : Bool := decide (48 ≤ c.toNat ∧ c.toNat ≤ 57)

/-- Whether `c` is a decimal digit or one of the lowercase letters `a`-`f`. -/
def is_lower_hex_digit (c : Char) : Bool :=
  decide (48 ≤ c.toNat ∧ c.toNat ≤ 57) || decide (97 ≤ c.toNat ∧ c.toNat ≤ 102)

/-- The buffer made by `string_literal_buffer("\r\n")`. -/
def crlf : Str := "\r\n".toList

/-- The buffer made by `string_literal_buffer(": ")`. -/
def sep : Str := ": ".toList

/-- The function `std::vector::push_back` on the vector of buffers. -/
def push_back (buffers : List Str) (b : Str) : List Str := buffers ++ [b]

/-- The library function `boost::iequals`: equality of two strings up to the
case of ASCII letters. -/
def iequals (a b : Str) : Bool := a.map Char.toLower == b.map Char.toLower

/-! ## Messages -/

/-- Modelled from the spec: the header container is supplied by the application
(the `Message` template parameter) and is not among the sources. It is a
multimap with case-insensitive keys; the list holds its entries in the order in
which iteration returns them. -/
abbrev Headers := List (Str × Str)

/-- Modelled from the spec: `find(name)` of the header multimap, by
case-insensitive key; `none` stands for `end()`. -/
def Headers.find (h : Headers) (name : Str) : Option (Str × Str) :=
  List.find? (fun kv => iequals kv.1 name) h

/-- Modelled from the spec: `equal_range(name)` of the header multimap, the
entries whose key is `name` up to case, in iteration order. -/
def Headers.equal_range (h : Headers) (name : Str) : List (Str × Str) :=
  List.filter (fun kv => iequals kv.1 name) h

/-- Modelled from the spec: the `Message` concept, with the three capabilities
`headers()`, `body()` and `trailers()`. -/
structure Message where
  headers : Headers
  body : Str
  trailers : Headers
deriving DecidableEq

/-- Splits a header value at every comma. -/
def split_on_comma : Str → List Str
  | [] => [[]]
  | c :: cs =>
    if c = ',' then [] :: split_on_comma cs
    else
      match split_on_comma cs with
      | [] => [[c]]
      | x :: xs => (c :: x) :: xs

/-- Whether `c` is a space or a horizontal tab. -/
def is_sp_ht (c : Char) : Bool := c == ' ' || c == '\t'

/-- Removes spaces and horizontal tabs from the right end. -/
def trim_right (s : Str) : Str := (s.reverse.dropWhile is_sp_ht).reverse

/-- Removes spaces and horizontal tabs from both ends of a list element. -/
def trim_element (s : Str) : Str := trim_right (s.dropWhile is_sp_ht)

/-- Modelled from the spec: `header_value_any_of` is declared outside the given
source. It applies the predicate to the tokens of a comma-separated list (the
elements without surrounding blanks, empty elements skipped) and reports
whether some token satisfies it. -/
def header_value_any_of (header_value : Str) (p : Str → Bool) : Bool :=
  (split_on_comma header_value).any
    (fun e => !(trim_element e).isEmpty && p (trim_element e))

/-- The loop of `detail::has_connection_close` over the range of `connection`
entries, returning at the first value that lists the token `close`. -/
def detail.has_connection_close_loop : List (Str × Str) → Bool
  | [] => false
  | kv :: rest =>
    if header_value_any_of kv.2 (fun v => iequals v "close".toList) then true
    else detail.has_connection_close_loop rest

/-- The function `detail::has_connection_close`. -/
def detail.has_connection_close (headers : Headers) : Bool :=
  detail.has_connection_close_loop (headers.equal_range "connection".toList)

/-! ## Connection state -/

/-- The enumeration `http::read_state`. -/
inductive read_state
  | empty
  | message_ready
  | body_ready
deriving DecidableEq, Repr

/-- Modelled from the spec: the enumeration `http::write_state` is declared
outside the given source; these are the states of the table of section 4.1. -/
inductive write_state
  | empty
  | continue_issued
  | metadata_issued
  | message_issued
  | chunked_body
  | trailers_issued
  | finished
deriving DecidableEq, Repr

/-- Modelled from the spec: `writer_helper::write_message`, column
`write_message` of the table of section 4.1. `none` is the call returning
`false`, which leaves the state as it was. -/
def writer_helper.write_message : write_state → Option write_state
  | .empty => some .message_issued
  | .continue_issued => some .message_issued
  | _ => none

/-- Modelled from the spec: `writer_helper::write_continue`, column
`write_continue` of the table of section 4.1. -/
def writer_helper.write_continue : write_state → Option write_state
  | .empty => some .continue_issued
  | _ => none

/-- Modelled from the spec: `writer_helper::write_metadata`, column
`write_metadata` of the table of section 4.1. -/
def writer_helper.write_metadata : write_state → Option write_state
  | .empty => some .metadata_issued
  | .continue_issued => some .metadata_issued
  | _ => none

/-- Modelled from the spec: `writer_helper::write`, column `write (chunk)` of
the table of section 4.1. -/
def writer_helper.write : write_state → Option write_state
  | .metadata_issued => some .chunked_body
  | .chunked_body => some .chunked_body
  | _ => none

/-- Modelled from the spec: `writer_helper::write_trailers`, column
`write_trailers` of the table of section 4.1. -/
def writer_helper.write_trailers : write_state → Option write_state
  | .metadata_issued => some .trailers_issued
  | .chunked_body => some .trailers_issued
  | _ => none

/-- Modelled from the spec: `writer_helper::end`, column `end` of the table of
section 4.1. -/
def writer_helper.end_ : write_state → Option write_state
  | .metadata_issued => some .finished
  | .chunked_body => some .finished
  | _ => none

/-- Modelled from the spec: the flag constants are declared outside the given
source. The bitset `flags` is represented by its six member bits: `flags & X`
reads the field, `flags |= X` sets it, `flags &= ~X` clears it and `flags = 0`
clears all six. -/
structure Flags where
  HTTP_1_1 : Bool := false
  READY : Bool := false
  DATA : Bool := false
  END : Bool := false
  KEEP_ALIVE : Bool := false
  UPGRADE : Bool := false
deriving DecidableEq, Repr

/-- The transport under the socket (`channel`): whether it is open, how many
times `close()` was called on it, and the bytes written to it so far. -/
structure Channel where
  is_open : Bool := true
  close_calls : Nat := 0
  output : Str := []
deriving DecidableEq

/-- The call `channel.close()`. -/
def Channel.close (c : Channel) : Channel :=
  { c with is_open := false, close_calls := c.close_calls + 1 }

/-- A composed write of a buffer sequence on the transport: the buffers are
sent in order. -/
def Channel.write (c : Channel) (buffers : List Str) : Channel :=
  { c with output := c.output ++ buffers.flatten }

/-- The values of `parser.http_errno` the socket tells apart: no error, the
error raised when the headers-complete callback returns non-zero, the error
raised when the message-complete callback returns non-zero, and every other
error of the parser. -/
inductive parser_error
  | ok
  | cb_headers_complete
  | cb_message_complete
  | other (code : Nat)
deriving DecidableEq, Repr

/-- Modelled from the spec: the incremental parser (the struct `http_parser`)
is an external collaborator and is not among the sources. The record holds
what the socket reads from it:
the HTTP version, the method index, the upgrade flag, the error field, the
answers of the queries `should_keep_alive` and `body_is_final`, and the
internal position of the parser as an opaque number. -/
structure http_parser_struct where
  http_major : Nat := 0
  http_minor : Nat := 0
  method : Nat := 0
  upgrade : Bool := false
  http_errno : parser_error := .ok
  should_keep_alive : Bool := false
  body_is_final : Bool := false
  state : Nat := 0
deriving DecidableEq, Repr

/-- Modelled from the spec: `detail::init` reinitializes the parser; every
field goes back to its initial value and the error field to no error. -/
def detail.init (_p : http_parser_struct) : http_parser_struct := {}

/-- The members of `basic_socket` that the operations read or change, and
with them, as `global_locale`, the one piece of process state that an
operation reads: the global locale (`std::locale()`), which the
`std::ostringstream` of `async_write` takes on when it is constructed. A
program that never calls `std::locale::global` has the classic locale. -/
structure basic_socket where
  channel : Channel := {}
  is_open_ : Bool := false
  istate : read_state := .empty
  writer_helper : write_state := .empty
  flags : Flags := {}
  connect_request : Bool := false
  use_trailers : Bool := false
  last_header : Str × Str := ([], [])
  content_length_buffer : Str := []
  used_size : Nat := 0
  buffer : Str := [Char.ofNat 0]
  parser : http_parser_struct := {}
  global_locale : locale := {}
deriving DecidableEq

/-- The codes a handler can receive: success, the four `http_errc` values, or
an error of the transport. -/
inductive error_code
  | success
  | out_of_order
  | native_stream_unsupported
  | parsing_error
  | buffer_exhausted
  | transport (code : Nat)
deriving DecidableEq, Repr

/-- The two completion lambdas the write operations pass to
`asio::async_write`. -/
inductive completion
  | handler_only
  | keep_alive_then_handler
deriving DecidableEq, Repr

/-- What a write operation started before it returned. -/
inductive started
  | posted (ec : error_code)
  | async_write (buffers : List Str) (k : completion)
deriving DecidableEq

/-- The bytes an operation handed to the transport. -/
def started.bytes : started → Str
  | .posted _ => []
  | .async_write buffers _ => buffers.flatten

/-- Whether the operation was refused: its handler was posted with
`http_errc::out_of_order`. -/
def started.out_of_order : started → Bool
  | .posted .out_of_order => true
  | _ => false

/-- The completion lambda handed to `asio::async_write`, when the operation
started a transport write. -/
def started.completion : started → Option completion
  | .posted _ => none
  | .async_write _ k => some k

/-- The function `basic_socket::is_open`. -/
def basic_socket.is_open (s : basic_socket) : Bool :=
  s.channel.is_open && s.is_open_

/-- The function `basic_socket::write_response_native_stream`. -/
def basic_socket.write_response_native_stream (s : basic_socket) : Bool :=
  s.flags.HTTP_1_1

/-- The function `basic_socket::open`. -/
def basic_socket.open (s : basic_socket) : basic_socket :=
  { s with is_open_ := true }

/-- The body of a completion lambda of `asio::async_write`, run when the
transport write has finished (with or without error), up to the call of the
user handler. -/
def on_write_complete (s : basic_socket) : completion → basic_socket
  | .handler_only => s
  | .keep_alive_then_handler =>
    let s := { s with is_open_ := s.flags.KEEP_ALIVE }
    if !s.is_open_ then { s with channel := s.channel.close } else s

/-- The four buffers `key`, `sep`, `value`, `crlf` pushed for every entry by
the loop over a header container. -/
def push_headers (buffers : List Str) (headers : Headers) : List Str :=
  headers.foldl
    (fun bufs header =>
      push_back (push_back (push_back (push_back bufs header.1) sep) header.2) crlf)
    buffers

/-! ## The write operations -/

/-- The function `basic_socket::async_write_response`. -/
def async_write_response (s : basic_socket) (status_code : Nat)
    (reason_phrase : Str) (message : Message) : basic_socket × started :=
  match writer_helper.write_message s.writer_helper with
  | none => (s, .posted .out_of_order)
  | some next =>
    let s := { s with writer_helper := next }
    let implicit_content_length : Bool :=
      (message.headers.find "content-length".toList).isSome
        || (status_code / 100 == 1) || (status_code == 204)
        || (s.connect_request && (status_code / 100 == 2))
    let has_connection_close := detail.has_connection_close message.headers
    let s :=
      if has_connection_close then
        { s with flags := { s.flags with KEEP_ALIVE := false } }
      else s
    let use_connection_close_buf := (s.flags.KEEP_ALIVE == false) && !has_connection_close
    let content_length_buffer := to_string status_code ++ [' ']
    let content_length_delim := content_length_buffer.length
    let content_length_buffer := content_length_buffer ++ to_string message.body.length
    let s := { s with content_length_buffer := content_length_buffer }
    -- `nbuffer_pieces` only sizes `buffers.reserve`; it does not reach the output
    let buffers : List Str := []
    let buffers :=
      push_back buffers
        (if s.flags.HTTP_1_1 then "HTTP/1.1 ".toList else "HTTP/1.0 ".toList)
    let buffers := push_back buffers (s.content_length_buffer.take content_length_delim)
    let buffers := push_back buffers reason_phrase
    let buffers := push_back buffers crlf
    let buffers :=
      if use_connection_close_buf then push_back buffers "connection: close\r\n".toList
      else buffers
    let buffers := push_headers buffers message.headers
    let buffers :=
      if !implicit_content_length then
        let buffers := push_back buffers "content-length: ".toList
        let buffers :=
          push_back buffers
            ((s.content_length_buffer.drop content_length_delim).take
              (s.content_length_buffer.length - content_length_delim))
        push_back buffers crlf
      else buffers
    let buffers := push_back buffers crlf
    let buffers :=
      if !implicit_content_length then push_back buffers message.body else buffers
    (s, .async_write buffers .keep_alive_then_handler)

/-- The function `basic_socket::async_write_response_continue`. -/
def async_write_response_continue (s : basic_socket) : basic_socket × started :=
  match writer_helper.write_continue s.writer_helper with
  | none => (s, .posted .out_of_order)
  | some next =>
    let s := { s with writer_helper := next }
    (s, .async_write [("HTTP/1.1 100" ++ " Continue\r\n\r\n").toList] .handler_only)

/-- The function `basic_socket::async_write_response_metadata`. -/
def async_write_response_metadata (s : basic_socket) (status_code : Nat)
    (reason_phrase : Str) (message : Message) : basic_socket × started :=
  let prev := s.writer_helper
  match writer_helper.write_metadata s.writer_helper with
  | none => (s, .posted .out_of_order)
  | some next =>
    let s := { s with writer_helper := next }
    if s.flags.HTTP_1_1 == false then
      ({ s with writer_helper := prev }, .posted .native_stream_unsupported)
    else
      let has_connection_close := detail.has_connection_close message.headers
      let s :=
        if has_connection_close then
          { s with flags := { s.flags with KEEP_ALIVE := false } }
        else s
      let use_connection_close_buf :=
        (s.flags.KEEP_ALIVE == false) && !has_connection_close
      let s := { s with content_length_buffer := to_string status_code ++ [' '] }
      let buffers : List Str := []
      let buffers :=
        push_back buffers
          (if s.flags.HTTP_1_1 then "HTTP/1.1 ".toList else "HTTP/1.0 ".toList)
      let buffers := push_back buffers s.content_length_buffer
      let buffers := push_back buffers reason_phrase
      let buffers := push_back buffers crlf
      let buffers :=
        if use_connection_close_buf then push_back buffers "connection: close\r\n".toList
        else buffers
      let buffers := push_headers buffers message.headers
      let buffers :=
        push_back buffers ("transfer-encoding: chunked\r\n" ++ "\r\n").toList
      (s, .async_write buffers .handler_only)

/-- The function `basic_socket::async_write` (one chunk of a chunked body). -/
def async_write (s : basic_socket) (message : Message) : basic_socket × started :=
  match writer_helper.write s.writer_helper with
  | none => (s, .posted .out_of_order)
  | some next =>
    let s := { s with writer_helper := next }
    if message.body.length == 0 then (s, .posted .success)
    else
      let s :=
        { s with content_length_buffer := to_hex s.global_locale message.body.length }
      let buffers : List Str := [s.content_length_buffer, crlf, message.body, crlf]
      (s, .async_write buffers .handler_only)

/-- The function `basic_socket::async_write_trailers`. -/
def async_write_trailers (s : basic_socket) (message : Message) :
    basic_socket × started :=
  match writer_helper.write_trailers s.writer_helper with
  | none => (s, .posted .out_of_order)
  | some next =>
    let s := { s with writer_helper := next }
    let last_chunk := "0\r\n".toList
    let buffers : List Str := []
    let buffers := push_back buffers last_chunk
    let buffers := push_headers buffers message.trailers
    let buffers := push_back buffers crlf
    (s, .async_write buffers .keep_alive_then_handler)

/-- The function `basic_socket::async_write_end_of_message`. -/
def async_write_end_of_message (s : basic_socket) : basic_socket × started :=
  match writer_helper.end_ s.writer_helper with
  | none => (s, .posted .out_of_order)
  | some next =>
    let s := { s with writer_helper := next }
    let last_chunk := "0\r\n\r\n".toList
    (s, .async_write [last_chunk] .keep_alive_then_handler)

/-- The transport write started by an operation followed by its completion
lambda: the state when the user handler is called. An operation that only
posted its handler leaves the state as it is. -/
def run_to_completion (r : basic_socket × started) : basic_socket :=
  match r.2 with
  | .posted _ => r.1
  | .async_write buffers k =>
    on_write_complete { r.1 with channel := r.1.channel.write buffers } k

/-! ## The parser callbacks -/

/-- The caller-owned destinations of a read, `message`, `method` and `path`
(reached through `current_message`, `current_method` and `current_path`),
together with the socket. -/
structure connection where
  socket : basic_socket := {}
  message : Message := { headers := [], body := [], trailers := [] }
  method : Str := []
  path : Str := []
deriving DecidableEq

/-- Modelled from the spec: `insert(pair)` of the header multimap. The order
within a key is kept; the entry is placed after the entries already there. -/
def Headers.insert (h : Headers) (kv : Str × Str) : Headers := h ++ [kv]

/-- Modelled from the spec: `erase(first, second)` of the header multimap on
the range returned by `equal_range(name)`. -/
def Headers.erase_equal_range (h : Headers) (name : Str) : Headers :=
  List.filter (fun kv => !iequals kv.1 name) h

/-- The function `basic_socket::clear_message`. -/
def clear_message (_message : Message) : Message :=
  { headers := [], body := [], trailers := [] }

/-- The function `basic_socket::clear_buffer`. -/
def clear_buffer (s : basic_socket) : basic_socket :=
  { s with
    istate := .empty,
    writer_helper := .empty,
    used_size := 0,
    parser := detail.init s.parser }

/-- The callback `basic_socket::on_message_begin`. -/
def on_message_begin (c : connection) (_p : http_parser_struct) : connection × Int :=
  ({ c with
      socket := { c.socket with flags := {}, use_trailers := false },
      message := clear_message c.message }, 0)

/-- The callback `basic_socket::on_url`. -/
def on_url (c : connection) (_p : http_parser_struct) (data : Str) : connection × Int :=
  ({ c with path := c.path ++ data }, 0)

/-- The callback `basic_socket::on_header_field`. -/
def on_header_field (c : connection) (parser : http_parser_struct) (data : Str) :
    connection × Int :=
  let field := c.socket.last_header.1
  let value := c.socket.last_header.2
  if value.length ≠ 0 then
    let value := trim_right value
    let message :=
      if (parser.http_minor ≠ 0 || parser.http_major > 1)
          || (field ≠ "expect".toList && field ≠ "upgrade".toList) then
        if c.socket.use_trailers then
          { c.message with trailers := c.message.trailers.insert (field, value) }
        else
          { c.message with headers := c.message.headers.insert (field, value) }
      else c.message
    let value : Str := []
    let field := data
    let field := field.map Char.toLower
    ({ c with socket := { c.socket with last_header := (field, value) },
              message := message }, 0)
  else
    let offset := field.length
    let field := field ++ data
    let field := field.take offset ++ (field.drop offset).map Char.toLower
    ({ c with socket := { c.socket with last_header := (field, value) } }, 0)

/-- The callback `basic_socket::on_header_value`. -/
def on_header_value (c : connection) (_p : http_parser_struct) (data : Str) :
    connection × Int :=
  ({ c with
      socket :=
        { c.socket with
          last_header := (c.socket.last_header.1, c.socket.last_header.2 ++ data) } }, 0)

/-- The table `methods` of `on_headers_complete`. -/
def methods : List Str :=
  ["DELETE".toList, "GET".toList, "HEAD".toList, "POST".toList, "PUT".toList,
   "CONNECT".toList, "OPTIONS".toList, "TRACE".toList, "COPY".toList, "LOCK".toList,
   "MKCOL".toList, "MOVE".toList, "PROPFIND".toList, "PROPPATCH".toList,
   "SEARCH".toList, "UNLOCK".toList, "BIND".toList, "REBIND".toList, "UNBIND".toList,
   "ACL".toList, "REPORT".toList, "MKACTIVITY".toList, "CHECKOUT".toList,
   "MERGE".toList, "M-SEARCH".toList, "NOTIFY".toList, "SUBSCRIBE".toList,
   "UNSUBSCRIBE".toList, "PATCH".toList, "PURGE".toList, "MKCALENDAR".toList,
   "LINK".toList, "UNLINK".toList]

/-- The block of `on_headers_complete` on the `expect` headers: when
`equal_range("expect")` holds more than one entry, the whole range is erased. -/
def erase_repeated_expect (headers : Headers) : Headers :=
  if (headers.equal_range "expect".toList).length > 1 then
    headers.erase_equal_range "expect".toList
  else headers

/-- The callback `basic_socket::on_headers_complete`. The parser only reports
method indices inside the table; an index outside it, which the source would
read out of bounds, appends nothing here. -/
def on_headers_complete (c : connection) (parser : http_parser_struct) : connection × Int :=
  let m := methods.getD parser.method []
  let c :=
    { c with
      method := c.method ++ m,
      socket := { c.socket with connect_request := (parser.method == 5) } }
  if parser.http_major = 1 then
    let flags :=
      if parser.http_minor ≠ 0 then { c.socket.flags with HTTP_1_1 := true }
      else c.socket.flags
    let last_header := c.socket.last_header
    let headers :=
      if last_header.1.length ≠ 0
          && (flags.HTTP_1_1
              || (last_header.1 ≠ "expect".toList && last_header.1 ≠ "upgrade".toList)) then
        c.message.headers.insert (last_header.1, trim_right last_header.2)
      else c.message.headers
    let last_header : Str × Str := ([], [])
    let use_trailers := true
    let istate := read_state.message_ready
    let flags := { flags with READY := true }
    let writer_helper := write_state.empty
    let headers := erase_repeated_expect headers
    let flags :=
      if parser.should_keep_alive then { flags with KEEP_ALIVE := true } else flags
    ({ c with
        socket :=
          { c.socket with
            flags := flags,
            last_header := last_header,
            use_trailers := use_trailers,
            istate := istate,
            writer_helper := writer_helper },
        message := { c.message with headers := headers } }, 0)
  else
    (c, -1)

/-- The callback `basic_socket::on_body`. -/
def on_body (c : connection) (parser : http_parser_struct) (data : Str) : connection × Int :=
  let message := { c.message with body := c.message.body ++ data }
  let socket := { c.socket with flags := { c.socket.flags with DATA := true } }
  let socket :=
    if parser.body_is_final then { socket with istate := .body_ready } else socket
  ({ c with socket := socket, message := message }, 0)

/-- The callback `basic_socket::on_message_complete`. -/
def on_message_complete (c : connection) (parser : http_parser_struct) : connection × Int :=
  let last_header := c.socket.last_header
  let message :=
    if last_header.1.length ≠ 0 then
      { c.message with
        trailers := c.message.trailers.insert (last_header.1, trim_right last_header.2) }
    else c.message
  let flags := { c.socket.flags with END := true }
  let flags := if parser.upgrade then { flags with UPGRADE := true } else flags
  ({ c with
      socket :=
        { c.socket with
          last_header := ([], []),
          istate := .empty,
          use_trailers := false,
          flags := flags },
      message := message }, -1)

/-! ## The parser as seen by the socket -/

/-- The events the parser reports through the callbacks of
`basic_socket::settings`. -/
inductive parser_event
  | message_begin
  | url (data : Str)
  | header_field (data : Str)
  | header_value (data : Str)
  | headers_complete
  | body (data : Str)
  | message_complete
deriving DecidableEq, Repr

/-- One callback invocation during `detail::execute`: the parser fields as the
callback sees them, the event, and the number of consumed bytes that
`detail::execute` returns if this callback stops the parse. -/
structure callback_step where
  parser : http_parser_struct
  event : parser_event
  nparsed : Nat
deriving DecidableEq, Repr

/-- Modelled from the spec: what one call of `detail::execute` does on given
bytes, as far as the callbacks let it run: the callbacks in order, and the
parser and the number of consumed bytes at the end when no callback stopped
the parse (the error field then reports a grammar error, if any). -/
structure parse_run where
  steps : List callback_step := []
  parser : http_parser_struct := {}
  nparsed : Nat := 0
deriving DecidableEq, Repr

/-- Modelled from the spec: the behaviour of the external parser, a function
from its state and the bytes it is fed to the run it makes on them. -/
abbrev parser_model := http_parser_struct → Str → parse_run

/-- The callback that `basic_socket::settings` installs for an event. -/
def call_back (c : connection) (parser : http_parser_struct) : parser_event → connection × Int
  | .message_begin => on_message_begin c parser
  | .url data => on_url c parser data
  | .header_field data => on_header_field c parser data
  | .header_value data => on_header_value c parser data
  | .headers_complete => on_headers_complete c parser
  | .body data => on_body c parser data
  | .message_complete => on_message_complete c parser

/-- Modelled from the spec: the error the parser raises when the callback of
an event returns non-zero. -/
def callback_error : parser_event → parser_error
  | .headers_complete => .cb_headers_complete
  | .message_complete => .cb_message_complete
  | .message_begin => .other 1
  | .url _ => .other 2
  | .header_field _ => .other 3
  | .header_value _ => .other 4
  | .body _ => .other 5

/-- Modelled from the spec: the callback protocol of the parser. The callbacks
run in order; the first one that returns non-zero stops the parse, sets the
error field and fixes the number of consumed bytes. -/
def run_callbacks (c : connection) :
    List callback_step → http_parser_struct → Nat → connection × Nat
  | [], parser, nparsed =>
    ({ c with socket := { c.socket with parser := parser } }, nparsed)
  | step :: rest, parser, nparsed =>
    let r := call_back c step.parser step.event
    if r.2 ≠ 0 then
      ({ r.1 with
          socket :=
            { r.1.socket with
              parser := { step.parser with http_errno := callback_error step.event } } },
        step.nparsed)
    else run_callbacks r.1 rest parser nparsed

/-- The call `detail::execute(parser, settings, buffer, used_size)`: the parser
is fed the first `used_size` bytes of the input buffer. -/
def detail.execute (P : parser_model) (c : connection) : connection × Nat :=
  let run := P c.socket.parser (c.socket.buffer.take c.socket.used_size)
  run_callbacks c run.steps run.parser run.nparsed

/-! ## The read driver -/

/-- The template parameter `target` of the read driver, one of the flag
constants `READY`, `DATA`, `END`. -/
inductive target
  | READY
  | DATA
  | END
deriving DecidableEq, Repr

/-- What the read driver did before it returned: posted the handler through
`invoke_handler`, called the handler, issued `channel.async_read_some` on the
region of the input buffer that starts at `offset`, or issued the
`asio::async_write` of the version error, whose completion lambda calls the
handler with `parsing_error`. -/
inductive read_started
  | posted (ec : error_code)
  | handler (ec : error_code)
  | async_read_some (offset : Nat)
  | async_write (buffers : List Str)
deriving DecidableEq

/-- The literal `error_message` of `on_async_read_message`. -/
def error_message : Str :=
  ("HTTP/1.1 505 HTTP Version Not" ++ " Supported\r\n" ++ "Content-Length: 48\r\n"
    ++ "Connection: close\r\n" ++ "\r\n" ++ "This server only supports HTTP/1.0 and"
    ++ " HTTP/1.1\n").toList

/-- The block `std::copy_n(b + nparsed, used_size - nparsed, b)` followed by
`used_size -= nparsed`: the bytes from `nparsed` up to `used_size` move to the
start of the buffer, the bytes behind them stay. -/
def compact (s : basic_socket) (nparsed : Nat) : basic_socket :=
  { s with
    buffer :=
      (s.buffer.drop nparsed).take (s.used_size - nparsed)
        ++ s.buffer.drop (s.used_size - nparsed),
    used_size := s.used_size - nparsed }

/-- The last part of `on_async_read_message`, after the compaction: the check
of the target milestone, and otherwise the exhaustion check and the next
transport read. -/
def milestone_check (t : target) (c : connection) : connection × read_started :=
  let flags := c.socket.flags
  if t = .READY && flags.READY then
    ({ c with socket := { c.socket with flags := { flags with READY := false } } },
      .handler .success)
  else if t = .DATA && (flags.DATA || flags.END) then
    ({ c with
        socket := { c.socket with flags := { flags with READY := false, DATA := false } } },
      .handler .success)
  else if t = .END && flags.END then
    ({ c with
        socket :=
          { c.socket with
            flags := { flags with READY := false, DATA := false, END := false } } },
      .handler .success)
  else if c.socket.used_size = c.socket.buffer.length then
    (c, .handler .buffer_exhausted)
  else
    (c, .async_read_some c.socket.used_size)

/-- The function `basic_socket::on_async_read_message`. -/
def on_async_read_message (P : parser_model) (t : target) (c : connection)
    (ec : error_code) (bytes_transferred : Nat) : connection × read_started :=
  if ec ≠ .success then
    ({ c with socket := clear_buffer c.socket }, .handler ec)
  else
    let c :=
      { c with socket := { c.socket with used_size := c.socket.used_size + bytes_transferred } }
    let r := detail.execute P c
    let c := r.1
    let nparsed := r.2
    match c.socket.parser.http_errno with
    | .ok =>
      milestone_check t { c with socket := compact c.socket nparsed }
    | .cb_headers_complete =>
      let c := { c with socket := clear_buffer c.socket }
      let c := { c with message := clear_message c.message }
      (c, .async_write [error_message])
    | .cb_message_complete =>
      let c := { c with socket := { c.socket with parser := detail.init c.socket.parser } }
      milestone_check t { c with socket := compact c.socket nparsed }
    | .other _ =>
      ({ c with socket := clear_buffer c.socket }, .handler .parsing_error)

/-- The function `basic_socket::schedule_on_async_read_message`. -/
def schedule_on_async_read_message (P : parser_model) (t : target) (c : connection) :
    connection × read_started :=
  if c.socket.used_size ≠ 0 then on_async_read_message P t c .success 0
  else (c, .async_read_some c.socket.used_size)

/-- The function `basic_socket::async_read_request`. -/
def async_read_request (P : parser_model) (c : connection) : connection × read_started :=
  if c.socket.istate ≠ .empty then (c, .posted .out_of_order)
  else
    let c :=
      { c with
        method := [],
        path := [],
        socket := { c.socket with writer_helper := .finished } }
    schedule_on_async_read_message P .READY c

/-- The function `basic_socket::async_read_some`. -/
def async_read_some (P : parser_model) (c : connection) : connection × read_started :=
  if c.socket.istate ≠ .message_ready then (c, .posted .out_of_order)
  else schedule_on_async_read_message P .DATA c

/-- The function `basic_socket::async_read_trailers`. -/
def async_read_trailers (P : parser_model) (c : connection) : connection × read_started :=
  if c.socket.istate ≠ .body_ready then (c, .posted .out_of_order)
  else schedule_on_async_read_message P .END c

/-- The transport completing a read of `data` into the region it was offered,
the input buffer from `used_size` on. -/
def deposit (s : basic_socket) (data : Str) : basic_socket :=
  { s with
    buffer :=
      s.buffer.take s.used_size ++ data ++ s.buffer.drop (s.used_size + data.length) }

/-- The completion of a transport read issued by the read driver: on success
the received bytes are in the buffer and `on_async_read_message` gets their
number, on error it gets the error. -/
def on_read_complete (P : parser_model) (t : target) (c : connection)
    (ec : error_code) (data : Str) : connection × read_started :=
  if ec ≠ .success then on_async_read_message P t c ec 0
  else on_async_read_message P t { c with socket := deposit c.socket data } .success data.length

/-- The completion lambda of the write of the version error: it ignores the
result of the write and calls the handler with `parsing_error`. -/
def on_error_message_written (c : connection) (_ignored_ec : error_code) :
    connection × error_code :=
  (c, .parsing_error)

/-! ## What the claims are measured against -/

/-- The header block of a container as text: every entry as
`name ": " value CRLF`, in container order. -/
def header_lines (headers : Headers) : Str :=
  (headers.map (fun kv => kv.1 ++ ": ".toList ++ kv.2 ++ "\r\n".toList)).flatten

/-- The version text at the start of a status line. -/
def version_text (http_1_1 : Bool) : Str :=
  if http_1_1 then "HTTP/1.1 ".toList else "HTTP/1.0 ".toList

/-- A sample connection after a completed headers parse of an HTTP/1.0
request: no flag set, write state `empty`, transport open. -/
def sample_http_1_0 : basic_socket := { is_open_ := true }

/-- A sample connection after a completed headers parse of an HTTP/1.1
request with keep-alive. -/
def sample_http_1_1 : basic_socket :=
  { is_open_ := true, flags := { HTTP_1_1 := true, KEEP_ALIVE := true } }

/-- A sample message: one header, a five-byte body, one trailer. -/
def sample_message : Message :=
  { headers := [("x".toList, "y".toList)],
    body := "hello".toList,
    trailers := [("x-checksum".toList, "42".toList)] }

/-- Whether the flags show that the target milestone of a read is reached. -/
def milestone_reached (t : target) (f : Flags) : Bool :=
  match t with
  | .READY => f.READY
  | .DATA => f.DATA || f.END
  | .END => f.END

/-- The connection after the callbacks of the given steps have run, one after
the other, whatever they return. -/
def play (c : connection) (steps : List callback_step) : connection :=
  steps.foldl (fun c step => (call_back c step.parser step.event).1) c

/-- The first part of `on_async_read_message` on a successful transport read:
`used_size += bytes_transferred`, then `detail::execute` on the buffered
bytes. The result is the connection after the callbacks and `nparsed`. -/
def parse_step (P : parser_model) (c : connection) (bytes_transferred : Nat) :
    connection × Nat :=
  detail.execute P
    { c with socket := { c.socket with used_size := c.socket.used_size + bytes_transferred } }

/-- The block of `on_async_read_message` that compacts the input buffer. -/
def compacted (c : connection) (nparsed : Nat) : connection :=
  { c with socket := compact c.socket nparsed }

/-- Whether the callback of a step returns zero, so that the parse goes on:
every callback but message-complete, and headers-complete only for major
version 1. -/
def callback_step.continues (step : callback_step) : Bool :=
  match step.event with
  | .message_complete => false
  | .headers_complete => step.parser.http_major == 1
  | _ => true

/-- The result of a transport read: the bytes received, or an error code of
the transport. -/
inductive transport_result
  | received (data : Str)
  | error (code : Nat)
deriving DecidableEq, Repr

/-- A read operation followed through the completions of its transport
reads, given in order: while a transport read is pending the next completion
is handed to the driver; once the operation has ended, nothing more happens. -/
def drive (P : parser_model) (t : target) (r : connection × read_started) :
    List transport_result → connection × read_started
  | [] => r
  | x :: rest =>
    match r.2 with
    | .async_read_some _ =>
      match x with
      | .received data => drive P t (on_read_complete P t r.1 .success data) rest
      | .error code => drive P t (on_read_complete P t r.1 (.transport code) []) rest
    | _ => r

/-- Whether `c` is an uppercase ASCII letter. -/
def is_upper (c : Char) : Bool := decide (65 ≤ c.toNat ∧ c.toNat ≤ 90)

/-- The callbacks of a header block delivered without fragmentation: for each
header one header-field event with the whole name and one header-value event
with the whole value. -/
def header_block (parser : http_parser_struct) (headers : List (Str × Str)) : List callback_step :=
  headers.flatMap
    (fun kv => [⟨parser, .header_field kv.1, 0⟩, ⟨parser, .header_value kv.2, 0⟩])

/-- The suppression rule of the callbacks for a request of major version 1:
a pending header is stored unless the minor version is 0 and its name is
`expect` or `upgrade`. -/
def passes_suppression (parser : http_parser_struct) (name : Str) : Bool :=
  decide (parser.http_minor ≠ 0)
    || (decide (name ≠ "expect".toList) && decide (name ≠ "upgrade".toList))

/-- The callbacks of one header whose name and value the parser delivers in
fragments: a header-field event for each name fragment, then a header-value
event for each value fragment. -/
def fragment_steps (p : http_parser_struct) (name_fragments value_fragments : List Str) :
    List callback_step :=
  name_fragments.map (fun f => ⟨p, .header_field f, 0⟩)
    ++ value_fragments.map (fun v => ⟨p, .header_value v, 0⟩)

/-- The callbacks of a header block in which every header is delivered in
fragments. -/
def fragmented_block (p : http_parser_struct) (headers : List (List Str × List Str)) :
    List callback_step :=
  headers.flatMap (fun h => fragment_steps p h.1 h.2)

/-- The header that a list of name fragments and a list of value fragments
spell out. -/
def assembled (h : List Str × List Str) : Str × Str := (h.1.flatten, h.2.flatten)

/-- A header as the socket stores it: the name in lowercase, the value without
trailing blanks. -/
def stored_form (kv : Str × Str) : Str × Str :=
  (kv.1.map Char.toLower, trim_right kv.2)

/-- The events that carry a piece of the current message: URL, header and
body fragments. -/
def parser_event.within_message : parser_event → Bool
  | .url _ => true
  | .header_field _ => true
  | .header_value _ => true
  | .body _ => true
  | _ => false

/-- The events whose callback always returns zero. -/
def parser_event.never_stops : parser_event → Bool
  | .headers_complete => false
  | .message_complete => false
  | _ => true

/-- A sample connection as constructed and opened: empty input buffer of 64
bytes, nothing read yet. -/
def sample_connection : connection :=
  { socket := { is_open_ := true, buffer := List.replicate 64 'z' } }

/-- The parser fields during a sample `GET` request of the given version. -/
def sample_parser_struct (major minor : Nat) : http_parser_struct :=
  { http_major := major, http_minor := minor, method := 1, should_keep_alive := true,
    state := 1 }

/-- A sample parser that reads every input as one complete `GET /x` request
of the given version with the headers `Host: h` and `Expect: 100-continue`,
and consumes all the bytes it is fed. -/
def sample_request_model (major minor : Nat) : parser_model :=
  fun _ bytes =>
    { steps :=
        [⟨sample_parser_struct major minor, .message_begin, 0⟩,
         ⟨sample_parser_struct major minor, .url "/x".toList, 0⟩,
         ⟨sample_parser_struct major minor, .header_field "Host".toList, 0⟩,
         ⟨sample_parser_struct major minor, .header_value "h  ".toList, 0⟩,
         ⟨sample_parser_struct major minor, .header_field "Expect".toList, 0⟩,
         ⟨sample_parser_struct major minor, .header_value "100-continue".toList, 0⟩,
         ⟨sample_parser_struct major minor, .headers_complete, bytes.length⟩,
         ⟨sample_parser_struct major minor, .message_complete, bytes.length⟩],
      parser := sample_parser_struct major minor,
      nparsed := bytes.length }

/-- A sample parser that reads the first 19 bytes of every input as one
complete HTTP/1.1 request without headers and body, and is stopped there by
the message-complete callback. -/
def sample_pipeline_model : parser_model :=
  fun _ _ =>
    { steps :=
        [⟨sample_parser_struct 1 1, .message_begin, 0⟩,
         ⟨sample_parser_struct 1 1, .headers_complete, 19⟩,
         ⟨sample_parser_struct 1 1, .message_complete, 19⟩],
      parser := sample_parser_struct 1 1,
      nparsed := 19 }

/-- A sample connection whose first transport read has just delivered two
requests of 19 bytes each. -/
def sample_pipelined_connection : connection :=
  { sample_connection with
    socket :=
      deposit sample_connection.socket
        "GET /a HTTP/1.1\r\n\r\nGET /b HTTP/1.1\r\n\r\n".toList }

/-- A sample parser that finds a grammar error at the first byte of every
input. -/
def sample_error_model : parser_model :=
  fun p _ => { steps := [], parser := { p with http_errno := .other 7 }, nparsed := 0 }

/-- A sample parser that consumes nothing and reports nothing, as on the
start of a header block that is still incomplete. -/
def sample_idle_model : parser_model :=
  fun p _ => { steps := [], parser := p, nparsed := 0 }

/-- The events between message-begin and headers-complete: URL fragments and
the fragments of header names and values. -/
def parser_event.in_preamble : parser_event → Bool
  | .url _ => true
  | .header_field _ => true
  | .header_value _ => true
  | _ => false

/-- The body of the canned version error, the text after the blank line. -/
def error_message_body : Str := "This server only supports HTTP/1.0 and HTTP/1.1\n".toList

/-- The callbacks of a URL that the parser delivers in fragments: one URL
event for each fragment. -/
def url_steps (p : http_parser_struct) (fragments : List Str) : List callback_step :=
  fragments.map (fun f => ⟨p, .url f, 0⟩)

/-- The callbacks of a body delivered in pieces: one body event for each
piece, each with the answer of `body_is_final` at that point. -/
def body_steps (p : http_parser_struct) (pieces : List (Str × Bool)) : List callback_step :=
  pieces.map (fun x => ⟨{ p with body_is_final := x.2 }, .body x.1, 0⟩)

/-- The callbacks of one whole request, in the order in which the parser
reports them: message-begin, the URL events, the events of the header block,
headers-complete, the body events, the events of the trailer block,
message-complete. -/
def request_steps (p : http_parser_struct) (url headers : List callback_step)
    (body : List (Str × Bool)) (trailers : List callback_step) (k : Nat) :
    List callback_step :=
  (⟨p, .message_begin, 0⟩ :: (url ++ headers))
    ++ ⟨p, .headers_complete, k⟩
      :: ((body_steps p body ++ trailers) ++ [⟨p, .message_complete, k⟩])

/-- A sequence of chunk writes (`async_write`), each one called when the
handler of the one before has been called: the state at the end, and what each
operation started, in order. -/
def write_chunks (s : basic_socket) : List Message → basic_socket × List started
  | [] => (s, [])
  | m :: rest =>
    let r := async_write s m
    let t := write_chunks (run_to_completion r) rest
    (t.1, r.2 :: t.2)

/-- A chunked body streamed in full: the chunk writes, then
`async_write_end_of_message`. -/
def write_chunked_body (s : basic_socket) (messages : List Message) :
    basic_socket × List started :=
  let r := write_chunks s messages
  let e := async_write_end_of_message r.1
  (run_to_completion e, r.2 ++ [e.2])

/-- The bytes that a sequence of operations handed to the transport, in
order. -/
def written (ops : List started) : Str := (ops.map started.bytes).flatten

/-- The bodies of the chunk writes that are not empty. -/
def nonempty_bodies (messages : List Message) : List Str :=
  (messages.map Message.body).filter (fun b => !b.isEmpty)

/-- One chunk of the chunked transfer coding: the size in hexadecimal, CRLF,
the data, CRLF. -/
def chunk_frame (b : Str) : Str := hex_digits b.length ++ crlf ++ b ++ crlf

/-- A chunked body: the chunks in order, then the zero-size chunk and the
empty trailer part. -/
def chunked_stream (bodies : List Str) : Str :=
  (bodies.map chunk_frame).flatten ++ "0\r\n\r\n".toList

/-- Removes a CRLF from the front; `none` when the text does not start with
one. -/
def strip_crlf (s : Str) : Option Str :=
  if s.take 2 = crlf then some (s.drop 2) else none

/-- A decoder of the chunked transfer coding without chunk extensions and
without trailers: a size line of hexadecimal digits and CRLF, then as many
bytes of data as the size line says and CRLF, and so on up to the chunk of
size zero, which must be followed by CRLF and the end of the input. The result
is the data of the chunks, concatenated; `none` when the input is not of this
form, or holds more chunks than `fuel`. -/
def decode_chunked : Nat → Str → Option Str
  | 0, _ => none
  | fuel + 1, input =>
    let digits := input.takeWhile is_lower_hex_digit
    if digits = [] then none
    else
      match strip_crlf (input.dropWhile is_lower_hex_digit) with
      | none => none
      | some rest =>
        let size := read_number 16 digits
        if size = 0 then (if rest = crlf then some [] else none)
        else if rest.length < size then none
        else
          match strip_crlf (rest.drop size) with
          | none => none
          | some tail => (decode_chunked fuel tail).map (fun data => rest.take size ++ data)

/-- The decoder on a whole input: an input has fewer chunks than bytes. -/
def decode_chunked_stream (input : Str) : Option Str :=
  decode_chunked (input.length + 1) input

/-- The assumption on the parser that it consumes no more bytes than it is
fed, whether the parse runs to the end of the bytes or a callback stops it. -/
def parser_bounded (P : parser_model) : Prop :=
  ∀ (p : http_parser_struct) (bytes : Str),
    (P p bytes).nparsed ≤ bytes.length
      ∧ ∀ step ∈ (P p bytes).steps, step.nparsed ≤ bytes.length

/-- The invariant of the read driver for an input buffer of the given
capacity, on the state a driver step leaves and on what the step started: the
buffer has this capacity, `used_size` is within it, and a transport read is
issued on the region that starts at `used_size`, which is not empty. -/
def read_invariant (capacity : Nat) (r : connection × read_started) : Prop :=
  r.1.socket.buffer.length = capacity
    ∧ r.1.socket.used_size ≤ capacity
    ∧ ∀ offset, r.2 = .async_read_some offset →
        offset = r.1.socket.used_size ∧ offset < capacity

/-- The assumption on the transport during a drive: every transport read
returns at most as many bytes as the region it was offered holds, the input
buffer from `offset` to its end. -/
def fits (P : parser_model) (t : target) (r : connection × read_started) :
    List transport_result → Bool
  | [] => true
  | x :: rest =>
    match r.2 with
    | .async_read_some offset =>
      match x with
      | .received data =>
        decide (data.length ≤ r.1.socket.buffer.length - offset)
          && fits P t (on_read_complete P t r.1 .success data) rest
      | .error code => fits P t (on_read_complete P t r.1 (.transport code) []) rest
    | _ => true

/-- A sample locale that groups digits in threes with a comma, as the locale
`en_US` does. -/
def sample_grouping_locale : locale := { grouping := [3], thousands_sep := ',' }

/-- A sample body of 4096 bytes, the smallest size with four hexadecimal
digits. -/
def sample_large_body : Str := List.replicate 4096 'a'

/-- A sample parser given by a table: for each listed input the run that the
parser makes on it; on any other input it consumes nothing and reports
nothing. -/
def sample_scripted_model (script : List (Str × parse_run)) : parser_model :=
  fun p bytes =>
    match script.find? (fun entry => entry.1 == bytes) with
    | some entry => entry.2
    | none => { steps := [], parser := p, nparsed := 0 }

/-- The connection after a request read on the sample connection that fails
half-way: the transport delivers `first`, the parser consumes it without
reaching the end of the headers, and the next transport read ends with an
error, which the handler gets. -/
def interrupted_read (P : parser_model) (first : Str) : connection :=
  (drive P .READY (async_read_request P sample_connection)
    [.received first, .error 125]).1

/-- Two request reads on the sample connection: the first fails half-way as in
`interrupted_read`; the second, called after the handler of the first got the
error, receives `second` from the transport. -/
def reread (P : parser_model) (first second : Str) : connection × read_started :=
  drive P .READY (async_read_request P (interrupted_read P first)) [.received second]

/-- A sample parser for a read interrupted inside a header name: the bytes up
to `X-Pad` of an HTTP/1.0 request, and then a whole HTTP/1.0 request with the
header `Host: h`. -/
def sample_stale_name_model : parser_model :=
  sample_scripted_model
    [("GET / HTTP/1.0\r\nX-Pad".toList,
      { steps :=
          [⟨sample_parser_struct 1 0, .message_begin, 0⟩,
           ⟨sample_parser_struct 1 0, .url "/".toList, 0⟩,
           ⟨sample_parser_struct 1 0, .header_field "X-Pad".toList, 0⟩],
        parser := sample_parser_struct 1 0,
        nparsed := 21 }),
     ("GET / HTTP/1.0\r\nHost: h\r\n\r\n".toList,
      { steps :=
          [⟨sample_parser_struct 1 0, .message_begin, 0⟩,
           ⟨sample_parser_struct 1 0, .url "/".toList, 0⟩,
           ⟨sample_parser_struct 1 0, .header_field "Host".toList, 0⟩,
           ⟨sample_parser_struct 1 0, .header_value "h".toList, 0⟩,
           ⟨sample_parser_struct 1 0, .headers_complete, 27⟩,
           ⟨sample_parser_struct 1 0, .message_complete, 27⟩],
        parser := sample_parser_struct 1 0,
        nparsed := 27 })]

/-- A sample parser for a read interrupted after the value of an `Expect`
header: the bytes of an HTTP/1.1 request up to there, and then a whole
HTTP/1.1 request whose only header is `Expect: 100-continue`. -/
def sample_stale_expect_model : parser_model :=
  sample_scripted_model
    [("GET / HTTP/1.1\r\nExpect: 100-continue".toList,
      { steps :=
          [⟨sample_parser_struct 1 1, .message_begin, 0⟩,
           ⟨sample_parser_struct 1 1, .url "/".toList, 0⟩,
           ⟨sample_parser_struct 1 1, .header_field "Expect".toList, 0⟩,
           ⟨sample_parser_struct 1 1, .header_value "100-continue".toList, 0⟩],
        parser := sample_parser_struct 1 1,
        nparsed := 36 }),
     ("GET / HTTP/1.1\r\nExpect: 100-continue\r\n\r\n".toList,
      { steps :=
          [⟨sample_parser_struct 1 1, .message_begin, 0⟩,
           ⟨sample_parser_struct 1 1, .url "/".toList, 0⟩,
           ⟨sample_parser_struct 1 1, .header_field "Expect".toList, 0⟩,
           ⟨sample_parser_struct 1 1, .header_value "100-continue".toList, 0⟩,
           ⟨sample_parser_struct 1 1, .headers_complete, 40⟩,
           ⟨sample_parser_struct 1 1, .message_complete, 40⟩],
        parser := sample_parser_struct 1 1,
        nparsed := 40 })]

/-- A sample parser for a read interrupted after the value of a `Cookie`
header: the bytes of an HTTP/1.1 request up to there, and then a whole
HTTP/1.1 request with the header `A` without value and the header `B: x`. -/
def sample_stale_value_model : parser_model :=
  sample_scripted_model
    [("GET / HTTP/1.1\r\nCookie: secret".toList,
      { steps :=
          [⟨sample_parser_struct 1 1, .message_begin, 0⟩,
           ⟨sample_parser_struct 1 1, .url "/".toList, 0⟩,
           ⟨sample_parser_struct 1 1, .header_field "Cookie".toList, 0⟩,
           ⟨sample_parser_struct 1 1, .header_value "secret".toList, 0⟩],
        parser := sample_parser_struct 1 1,
        nparsed := 30 }),
     ("GET / HTTP/1.1\r\nA:\r\nB: x\r\n\r\n".toList,
      { steps :=
          [⟨sample_parser_struct 1 1, .message_begin, 0⟩,
           ⟨sample_parser_struct 1 1, .url "/".toList, 0⟩,
           ⟨sample_parser_struct 1 1, .header_field "A".toList, 0⟩,
           ⟨sample_parser_struct 1 1, .header_field "B".toList, 0⟩,
           ⟨sample_parser_struct 1 1, .header_value "x".toList, 0⟩,
           ⟨sample_parser_struct 1 1, .headers_complete, 28⟩,
           ⟨sample_parser_struct 1 1, .message_complete, 28⟩],
        parser := sample_parser_struct 1 1,
        nparsed := 28 })]

/-! ## Auxiliary facts: lists of buffers -/

theorem flatten_push_back (buffers : List Str) (b : Str) :
    (push_back buffers b).flatten = buffers.flatten ++ b := by
  simp [push_back]

theorem flatten_push_headers (headers : Headers) (buffers : List Str) :
    (push_headers buffers headers).flatten = buffers.flatten ++ header_lines headers := by
  induction headers generalizing buffers with
  | nil => simp [push_headers, header_lines]
  | cons kv rest ih =>
    have h := ih (push_back (push_back (push_back (push_back buffers kv.1) sep) kv.2) crlf)
    simp only [push_headers, List.foldl_cons] at h ⊢
    rw [h]
    simp [flatten_push_back, header_lines, sep, crlf, List.append_assoc]

/-! ## Auxiliary facts: numbers as text -/

theorem to_digits_core_acc (base : Nat) (fuel : Nat) :
    ∀ (n : Nat) (acc : Str),
      to_digits_core base fuel n acc = to_digits_core base fuel n [] ++ acc := by
  induction fuel with
  | zero => intro n acc; simp [to_digits_core]
  | succ f ih =>
    intro n acc
    simp only [to_digits_core]
    split
    · simp
    · rw [ih (n / base) (digit_char (n % base) :: acc), ih (n / base) [digit_char (n % base)]]
      simp

theorem digit_value_digit_char : ∀ d, d < 16 → digit_value (digit_char d) = d := by
  decide

theorem is_decimal_digit_digit_char : ∀ d, d < 10 → is_decimal_digit (digit_char d) = true := by
  decide

theorem is_lower_hex_digit_digit_char :
    ∀ d, d < 16 → is_lower_hex_digit (digit_char d) = true := by
  decide

theorem digit_char_ne_zero : ∀ d, d < 16 → 0 < d → digit_char d ≠ '0' := by
  decide

theorem read_number_snoc (base : Nat) (s : Str) (c : Char) :
    read_number base (s ++ [c]) = read_number base s * base + digit_value c := by
  simp [read_number, List.foldl_append]

theorem read_number_to_digits_core (base : Nat) (h2 : 2 ≤ base) (h16 : base ≤ 16)
    (fuel : Nat) : ∀ n, n < fuel → read_number base (to_digits_core base fuel n []) = n := by
  induction fuel with
  | zero => intro n h; omega
  | succ f ih =>
    intro n hn
    simp only [to_digits_core]
    split
    · rename_i hlt
      simp [read_number, digit_value_digit_char n (by omega)]
    · rename_i hge
      have hdiv : n / base < f := by
        have : n / base < n := Nat.div_lt_self (by omega) (by omega)
        omega
      rw [to_digits_core_acc, read_number_snoc, ih _ hdiv,
        digit_value_digit_char _ (by have := Nat.mod_lt n (show 0 < base by omega); omega)]
      exact Nat.div_add_mod' n base

theorem to_digits_core_all (base : Nat) (hb : 0 < base) (fuel : Nat) :
    ∀ n, ∀ c ∈ to_digits_core base fuel n [], ∃ d, d < base ∧ c = digit_char d := by
  induction fuel with
  | zero => intro n c hc; simp [to_digits_core] at hc
  | succ f ih =>
    intro n c hc
    simp only [to_digits_core] at hc
    split at hc
    · rename_i hlt
      simp only [List.mem_singleton] at hc
      exact ⟨n, hlt, hc⟩
    · rw [to_digits_core_acc] at hc
      rcases List.mem_append.mp hc with h | h
      · exact ih _ c h
      · simp only [List.mem_singleton] at h
        exact ⟨n % base, Nat.mod_lt n hb, h⟩

theorem to_digits_core_leading (base : Nat) (h2 : 2 ≤ base) (fuel : Nat) :
    ∀ n, 0 < n → n < fuel →
      ∃ d rest, 0 < d ∧ d < base ∧ to_digits_core base fuel n [] = digit_char d :: rest := by
  induction fuel with
  | zero => intro n _ h; omega
  | succ f ih =>
    intro n hpos hn
    simp only [to_digits_core]
    split
    · rename_i hlt
      exact ⟨n, [], hpos, hlt, rfl⟩
    · rename_i hge
      have hdiv : n / base < f := by
        have : n / base < n := Nat.div_lt_self (by omega) (by omega)
        omega
      have hdpos : 0 < n / base := Nat.div_pos (by omega) (by omega)
      obtain ⟨d, rest, hd0, hdb, heq⟩ := ih (n / base) hdpos hdiv
      refine ⟨d, rest ++ [digit_char (n % base)], hd0, hdb, ?_⟩
      rw [to_digits_core_acc, heq]
      simp

theorem read_number_to_string (n : Nat) : read_number 10 (to_string n) = n :=
  read_number_to_digits_core 10 (by omega) (by omega) (n + 1) n (by omega)

theorem read_number_hex_digits (n : Nat) : read_number 16 (hex_digits n) = n :=
  read_number_to_digits_core 16 (by omega) (by omega) (n + 1) n (by omega)

theorem to_string_all_decimal (n : Nat) : ∀ c ∈ to_string n, is_decimal_digit c = true := by
  intro c hc
  obtain ⟨d, hd, rfl⟩ := to_digits_core_all 10 (by omega) (n + 1) n c hc
  exact is_decimal_digit_digit_char d hd

theorem hex_digits_all_lower_hex (n : Nat) : ∀ c ∈ hex_digits n, is_lower_hex_digit c = true := by
  intro c hc
  obtain ⟨d, hd, rfl⟩ := to_digits_core_all 16 (by omega) (n + 1) n c hc
  exact is_lower_hex_digit_digit_char d hd

theorem hex_digits_head_ne_zero (n : Nat) (hn : 0 < n) :
    ∃ c rest, hex_digits n = c :: rest ∧ c ≠ '0' := by
  obtain ⟨d, rest, hd0, hdb, heq⟩ := to_digits_core_leading 16 (by omega) (n + 1) n hn (by omega)
  exact ⟨digit_char d, rest, heq, digit_char_ne_zero d hdb hd0⟩

theorem insert_separators_ungrouped (sep : Char) (fuel : Nat) (digits : Str) :
    insert_separators sep fuel [] 0 digits = digits := by
  cases fuel <;> simp [insert_separators]

theorem to_hex_ungrouped (loc : locale) (h : loc.grouping = []) (n : Nat) :
    to_hex loc n = hex_digits n := by
  simp [to_hex, group_digits, h, insert_separators_ungrouped]

theorem to_string_length_three (n : Nat) (hlo : 100 ≤ n) (hhi : n ≤ 999) :
    (to_string n).length = 3 := by
  obtain ⟨m, rfl⟩ : ∃ m, n = m + 2 := ⟨n - 2, by omega⟩
  have h1 : ¬ (m + 2 < 10) := by omega
  have h2 : ¬ ((m + 2) / 10 < 10) := by omega
  have h3 : (m + 2) / 10 / 10 < 10 := by omega
  simp [to_string, to_digits_core, h1, h2, h3]

/-! ## Auxiliary facts: the serializer of `async_write_response` -/

theorem scratch_front (a b : Str) : (a ++ b).take a.length = a := by
  simp

theorem scratch_back (a b : Str) :
    ((a ++ b).drop a.length).take ((a ++ b).length - a.length) = b := by
  simp

theorem async_write_response_bytes_general (s : basic_socket) (status_code : Nat)
    (reason_phrase : Str) (message : Message) (next : write_state)
    (h : writer_helper.write_message s.writer_helper = some next) :
    (async_write_response s status_code reason_phrase message).2.bytes
      = version_text s.flags.HTTP_1_1 ++ to_string status_code ++ [' '] ++ reason_phrase
          ++ crlf
          ++ (if s.flags.KEEP_ALIVE = false ∧ detail.has_connection_close message.headers = false
                then "connection: close\r\n".toList else [])
          ++ header_lines message.headers
          ++ (if ((message.headers.find "content-length".toList).isSome
                    || (status_code / 100 == 1) || (status_code == 204)
                    || (s.connect_request && (status_code / 100 == 2))) = true
                then crlf
                else "content-length: ".toList ++ to_string message.body.length ++ crlf
                  ++ crlf ++ message.body) := by
  simp only [async_write_response, h, scratch_front, scratch_back]
  generalize hi : ((message.headers.find "content-length".toList).isSome
                    || (status_code / 100 == 1) || (status_code == 204)
                    || (s.connect_request && (status_code / 100 == 2))) = implicit
  cases hk : s.flags.KEEP_ALIVE <;> cases hc : detail.has_connection_close message.headers <;>
    cases implicit <;> cases hv : s.flags.HTTP_1_1 <;>
    simp [hk, hc, hv, started.bytes, flatten_push_back, flatten_push_headers, version_text,
      List.append_assoc]

theorem async_write_response_state (s : basic_socket) (status_code : Nat)
    (reason_phrase : Str) (message : Message) (next : write_state)
    (h : writer_helper.write_message s.writer_helper = some next) :
    (async_write_response s status_code reason_phrase message).1
      = { s with
          writer_helper := next,
          flags :=
            { s.flags with
              KEEP_ALIVE :=
                s.flags.KEEP_ALIVE && !detail.has_connection_close message.headers },
          content_length_buffer :=
            to_string status_code ++ [' '] ++ to_string message.body.length } := by
  simp only [async_write_response, h]
  cases hc : detail.has_connection_close message.headers <;> simp

theorem implicit_content_length_false (connect_request : Bool) (status_code : Nat)
    (message : Message)
    (hcl : message.headers.find "content-length".toList = none)
    (h1xx : ¬ (100 ≤ status_code ∧ status_code ≤ 199))
    (h204 : status_code ≠ 204)
    (hconnect : ¬ (connect_request = true ∧ 200 ≤ status_code ∧ status_code ≤ 299)) :
    ((message.headers.find "content-length".toList).isSome
        || (status_code / 100 == 1) || (status_code == 204)
        || (connect_request && (status_code / 100 == 2))) = false := by
  have e1 : ¬ (status_code / 100 = 1) := by omega
  have e2 : connect_request = true → ¬ (status_code / 100 = 2) := by
    intro hc h2
    exact hconnect ⟨hc, by omega, by omega⟩
  cases connect_request <;> simp_all

theorem implicit_content_length_true (connect_request : Bool) (status_code : Nat)
    (message : Message)
    (h : (message.headers.find "content-length".toList).isSome = true
          ∨ (100 ≤ status_code ∧ status_code ≤ 199)
          ∨ status_code = 204
          ∨ (connect_request = true ∧ 200 ≤ status_code ∧ status_code ≤ 299)) :
    ((message.headers.find "content-length".toList).isSome
        || (status_code / 100 == 1) || (status_code == 204)
        || (connect_request && (status_code / 100 == 2))) = true := by
  rcases h with h | h | h | ⟨hc, h⟩
  · rw [h]; rfl
  · have : status_code / 100 = 1 := by omega
    simp [this]
  · simp [h]
  · have : status_code / 100 = 2 := by omega
    simp [this, hc]

/-! ## Auxiliary facts: `has_connection_close` -/

theorem iequals_close_not_empty (t : Str) (h : iequals t "close".toList = true) :
    t.isEmpty = false := by
  cases t with
  | nil => simp [iequals] at h
  | cons c cs => rfl

theorem header_value_any_of_close (v : Str) :
    header_value_any_of v (fun t => iequals t "close".toList) = true
      ↔ ∃ e ∈ split_on_comma v, iequals (trim_element e) "close".toList = true := by
  unfold header_value_any_of
  rw [List.any_eq_true]
  constructor
  · rintro ⟨e, he, hp⟩
    simp only [Bool.and_eq_true] at hp
    exact ⟨e, he, hp.2⟩
  · rintro ⟨e, he, hp⟩
    refine ⟨e, he, ?_⟩
    simp only [Bool.and_eq_true]
    exact ⟨by rw [iequals_close_not_empty _ hp]; rfl, hp⟩

theorem has_connection_close_loop_iff (range : List (Str × Str)) :
    detail.has_connection_close_loop range = true
      ↔ ∃ kv ∈ range,
          header_value_any_of kv.2 (fun t => iequals t "close".toList) = true := by
  induction range with
  | nil => simp [detail.has_connection_close_loop]
  | cons kv rest ih =>
    simp only [detail.has_connection_close_loop, List.mem_cons]
    split
    · rename_i h
      simp only [true_iff]
      exact ⟨kv, Or.inl rfl, h⟩
    · rename_i h
      rw [ih]
      constructor
      · rintro ⟨x, hx, hp⟩
        exact ⟨x, Or.inr hx, hp⟩
      · rintro ⟨x, hx | hx, hp⟩
        · subst hx; exact absurd hp h
        · exact ⟨x, hx, hp⟩

theorem has_connection_close_iff (headers : Headers) :
    detail.has_connection_close headers = true
      ↔ ∃ kv ∈ headers, iequals kv.1 "connection".toList = true
          ∧ ∃ e ∈ split_on_comma kv.2, iequals (trim_element e) "close".toList = true := by
  unfold detail.has_connection_close Headers.equal_range
  rw [has_connection_close_loop_iff]
  constructor
  · rintro ⟨kv, hmem, hp⟩
    rw [List.mem_filter] at hmem
    exact ⟨kv, hmem.1, hmem.2, (header_value_any_of_close kv.2).mp hp⟩
  · rintro ⟨kv, hmem, hk, hp⟩
    exact ⟨kv, List.mem_filter.mpr ⟨hmem, hk⟩, (header_value_any_of_close kv.2).mpr hp⟩

/-! ## Claims on `async_write_response` -/

/-- C1, as stated, fails: on an accepted response with status code 7 and no
implicit content length the status line carries the one-character code `7`, so
the written bytes cannot be read as a version text followed by a code of three
characters, a space and the reason phrase. -/
theorem async_write_response_status_code_not_three_digits :
    (writer_helper.write_message sample_http_1_0.writer_helper).isSome = true
      ∧ sample_message.headers.find "content-length".toList = none
      ∧ (async_write_response sample_http_1_0 7 "OK".toList sample_message).2.bytes
          = ("HTTP/1.0 7 OK\r\nconnection: close\r\nx: y\r\n"
              ++ "content-length: 5\r\n\r\nhello").toList
      ∧ ¬ ∃ code rest : Str, code.length = 3
          ∧ (async_write_response sample_http_1_0 7 "OK".toList sample_message).2.bytes
              = "HTTP/1.0 ".toList ++ code ++ " ".toList ++ "OK".toList ++ "\r\n".toList
                  ++ rest := by
  refine ⟨by decide, by decide, by decide, ?_⟩
  rintro ⟨code, rest, hlen, heq⟩
  have hb : (async_write_response sample_http_1_0 7 "OK".toList sample_message).2.bytes
      = ("HTTP/1.0 7 OK\r\nconnection: close\r\nx: y\r\n"
          ++ "content-length: 5\r\n\r\nhello").toList := by decide
  rw [hb] at heq
  obtain ⟨a, b, c, rfl⟩ := List.length_eq_three.mp hlen
  simp at heq

/-- C1, amended: for an accepted `async_write_response` without implicit
content length (no content-length header in the message, status not 1xx, not
204, not a 2xx answer to CONNECT) the bytes written are the version text, the
status code in decimal without padding (three digits exactly for codes from
100 to 999), a space, the reason phrase, CRLF, the synthetic connection-close
line if it applies, every message header as `name ": " value CRLF` in
container order, `content-length: ` with the decimal body size and CRLF, CRLF,
and the body; the number in the synthetic header reads back as the number of
body bytes. -/
theorem async_write_response_bytes (s : basic_socket) (status_code : Nat)
    (reason_phrase : Str) (message : Message)
    (haccept : (writer_helper.write_message s.writer_helper).isSome = true)
    (hcl : message.headers.find "content-length".toList = none)
    (h1xx : ¬ (100 ≤ status_code ∧ status_code ≤ 199))
    (h204 : status_code ≠ 204)
    (hconnect : ¬ (s.connect_request = true ∧ 200 ≤ status_code ∧ status_code ≤ 299)) :
    (async_write_response s status_code reason_phrase message).2.bytes
        = (if s.flags.HTTP_1_1 = true then "HTTP/1.1 ".toList else "HTTP/1.0 ".toList)
            ++ to_string status_code ++ " ".toList ++ reason_phrase ++ "\r\n".toList
            ++ (if s.flags.KEEP_ALIVE = false
                    ∧ detail.has_connection_close message.headers = false
                  then "connection: close\r\n".toList else [])
            ++ header_lines message.headers
            ++ "content-length: ".toList ++ to_string message.body.length ++ "\r\n".toList
            ++ "\r\n".toList
            ++ message.body
      ∧ read_number 10 (to_string status_code) = status_code
      ∧ (∀ c ∈ to_string status_code, is_decimal_digit c = true)
      ∧ (100 ≤ status_code → status_code ≤ 999 → (to_string status_code).length = 3)
      ∧ read_number 10 (to_string message.body.length) = message.body.length
      ∧ (∀ c ∈ to_string message.body.length, is_decimal_digit c = true) := by
  obtain ⟨next, hnext⟩ := Option.isSome_iff_exists.mp haccept
  refine ⟨?_, read_number_to_string _, to_string_all_decimal _, to_string_length_three _,
    read_number_to_string _, to_string_all_decimal _⟩
  rw [async_write_response_bytes_general s status_code reason_phrase message next hnext,
    implicit_content_length_false s.connect_request status_code message hcl h1xx h204 hconnect]
  cases s.flags.HTTP_1_1 <;> simp [version_text, crlf, List.append_assoc]

/-- C1, amended, at a concrete input: a 200 response on an HTTP/1.0 connection
with one header and a five-byte body. -/
theorem async_write_response_bytes_witness :
    (async_write_response sample_http_1_0 200 "OK".toList sample_message).2.bytes
        = ("HTTP/1.0 200 OK\r\nconnection: close\r\nx: y\r\n"
            ++ "content-length: 5\r\n\r\nhello").toList
      ∧ read_number 10 (to_string sample_message.body.length) = 5 := by
  have h := async_write_response_bytes sample_http_1_0 200 "OK".toList sample_message
    (by decide) (by decide) (by decide) (by decide) (by decide)
  refine ⟨?_, ?_⟩
  · rw [h.1]; decide
  · rw [h.2.2.2.2.1]; decide

/-- C2: an accepted `async_write_response` whose status code is 1xx or 204, or
whose message has a content-length header, or which answers a CONNECT request
with a 2xx status, writes the status line, the synthetic connection-close line
if it applies, the message headers and the CRLF that ends the header block,
and nothing after it: no synthetic content-length header and no body byte,
whatever the body of the message is. -/
theorem async_write_response_implicit_content_length (s : basic_socket)
    (status_code : Nat) (reason_phrase : Str) (message : Message)
    (haccept : (writer_helper.write_message s.writer_helper).isSome = true)
    (himplicit : (message.headers.find "content-length".toList).isSome = true
      ∨ (100 ≤ status_code ∧ status_code ≤ 199)
      ∨ status_code = 204
      ∨ (s.connect_request = true ∧ 200 ≤ status_code ∧ status_code ≤ 299)) :
    (async_write_response s status_code reason_phrase message).2.bytes
        = (if s.flags.HTTP_1_1 = true then "HTTP/1.1 ".toList else "HTTP/1.0 ".toList)
            ++ to_string status_code ++ " ".toList ++ reason_phrase ++ "\r\n".toList
            ++ (if s.flags.KEEP_ALIVE = false
                    ∧ detail.has_connection_close message.headers = false
                  then "connection: close\r\n".toList else [])
            ++ header_lines message.headers
            ++ "\r\n".toList
      ∧ ∀ body : Str,
          (async_write_response s status_code reason_phrase
              { message with body := body }).2.bytes
            = (async_write_response s status_code reason_phrase message).2.bytes := by
  obtain ⟨next, hnext⟩ := Option.isSome_iff_exists.mp haccept
  have key : ∀ body : Str,
      (async_write_response s status_code reason_phrase { message with body := body }).2.bytes
        = (if s.flags.HTTP_1_1 = true then "HTTP/1.1 ".toList else "HTTP/1.0 ".toList)
            ++ to_string status_code ++ " ".toList ++ reason_phrase ++ "\r\n".toList
            ++ (if s.flags.KEEP_ALIVE = false
                    ∧ detail.has_connection_close message.headers = false
                  then "connection: close\r\n".toList else [])
            ++ header_lines message.headers
            ++ "\r\n".toList := by
    intro body
    rw [async_write_response_bytes_general s status_code reason_phrase _ next hnext,
      implicit_content_length_true s.connect_request status_code
        { message with body := body } himplicit]
    cases s.flags.HTTP_1_1 <;> simp [version_text, crlf, List.append_assoc]
  refine ⟨key message.body, ?_⟩
  intro body
  rw [key body, key message.body]

/-- C2 at concrete inputs: a 204 response and a 200 answer to CONNECT, both
with a non-empty body in the message, end with the CRLF of the header block. -/
theorem async_write_response_implicit_content_length_witness :
    (async_write_response sample_http_1_1 204 "No Content".toList sample_message).2.bytes
        = "HTTP/1.1 204 No Content\r\nx: y\r\n\r\n".toList
      ∧ (async_write_response { sample_http_1_1 with connect_request := true } 200
            "OK".toList sample_message).2.bytes
          = "HTTP/1.1 200 OK\r\nx: y\r\n\r\n".toList := by
  refine ⟨?_, ?_⟩
  · rw [(async_write_response_implicit_content_length sample_http_1_1 204
      "No Content".toList sample_message (by decide) (by decide)).1]
    decide
  · rw [(async_write_response_implicit_content_length
      { sample_http_1_1 with connect_request := true } 200 "OK".toList sample_message
      (by decide) (by decide)).1]
    decide

/-- C3: `has_connection_close` holds iff some entry of the message under the
(case-insensitive) name `connection` has a value whose comma-separated list
contains the token `close` (case-insensitive); in an accepted
`async_write_response` it clears KEEP_ALIVE when it holds and leaves the flags
alone otherwise; the synthetic line `connection: close` CRLF is written, right
after the status line, iff KEEP_ALIVE is unset and `has_connection_close` is
false. So it is written whenever KEEP_ALIVE is unset and the message has no
connection header, and never when the message itself says connection: close. -/
theorem async_write_response_connection_close (s : basic_socket) (status_code : Nat)
    (reason_phrase : Str) (message : Message)
    (haccept : (writer_helper.write_message s.writer_helper).isSome = true) :
    (detail.has_connection_close message.headers = true
        ↔ ∃ kv ∈ message.headers, iequals kv.1 "connection".toList = true
            ∧ ∃ e ∈ split_on_comma kv.2,
                iequals (trim_element e) "close".toList = true)
      ∧ (detail.has_connection_close message.headers = true →
          (async_write_response s status_code reason_phrase message).1.flags
            = { s.flags with KEEP_ALIVE := false })
      ∧ (detail.has_connection_close message.headers = false →
          (async_write_response s status_code reason_phrase message).1.flags = s.flags)
      ∧ (∃ tail : Str,
          (async_write_response s status_code reason_phrase message).2.bytes
            = (version_text s.flags.HTTP_1_1 ++ to_string status_code ++ " ".toList
                ++ reason_phrase ++ "\r\n".toList)
              ++ (if s.flags.KEEP_ALIVE = false
                      ∧ detail.has_connection_close message.headers = false
                    then "connection: close\r\n".toList else [])
              ++ (header_lines message.headers ++ tail))
      ∧ (s.flags.KEEP_ALIVE = false →
          message.headers.equal_range "connection".toList = [] →
          ∃ tail : Str,
            (async_write_response s status_code reason_phrase message).2.bytes
              = (version_text s.flags.HTTP_1_1 ++ to_string status_code ++ " ".toList
                  ++ reason_phrase ++ "\r\n".toList)
                ++ "connection: close\r\n".toList
                ++ (header_lines message.headers ++ tail))
      ∧ (detail.has_connection_close message.headers = true →
          ∃ tail : Str,
            (async_write_response s status_code reason_phrase message).2.bytes
              = (version_text s.flags.HTTP_1_1 ++ to_string status_code ++ " ".toList
                  ++ reason_phrase ++ "\r\n".toList)
                ++ (header_lines message.headers ++ tail)) := by
  obtain ⟨next, hnext⟩ := Option.isSome_iff_exists.mp haccept
  have hbytes := async_write_response_bytes_general s status_code reason_phrase message
    next hnext
  have hstate := async_write_response_state s status_code reason_phrase message next hnext
  have hshape : ∃ tail : Str,
      (async_write_response s status_code reason_phrase message).2.bytes
        = (version_text s.flags.HTTP_1_1 ++ to_string status_code ++ " ".toList
            ++ reason_phrase ++ "\r\n".toList)
          ++ (if s.flags.KEEP_ALIVE = false
                  ∧ detail.has_connection_close message.headers = false
                then "connection: close\r\n".toList else [])
          ++ (header_lines message.headers ++ tail) := by
    refine ⟨if ((message.headers.find "content-length".toList).isSome
                    || (status_code / 100 == 1) || (status_code == 204)
                    || (s.connect_request && (status_code / 100 == 2))) = true
                then crlf
                else "content-length: ".toList ++ to_string message.body.length ++ crlf
                  ++ crlf ++ message.body, ?_⟩
    rw [hbytes]
    simp only [crlf, List.append_assoc]
    rfl
  obtain ⟨tail, htail⟩ := hshape
  refine ⟨has_connection_close_iff message.headers, ?_, ?_, ⟨tail, htail⟩, ?_, ?_⟩
  · intro hc
    rw [hstate, hc]
    simp
  · intro hc
    rw [hstate, hc]
    simp
  · intro hk hrange
    have hc : detail.has_connection_close message.headers = false := by
      unfold detail.has_connection_close
      rw [hrange]
      rfl
    refine ⟨tail, ?_⟩
    rw [htail, if_pos ⟨hk, hc⟩]
  · intro hc
    refine ⟨tail, ?_⟩
    rw [htail, if_neg (by simp [hc])]
    simp only [List.append_nil]

/-- C3 at concrete inputs: on an HTTP/1.0 connection without keep-alive a
message without connection header leaves the flags alone, and a message whose
connection header lists `Close` among other tokens clears KEEP_ALIVE. -/
theorem async_write_response_connection_close_witness :
    (async_write_response sample_http_1_0 200 "OK".toList sample_message).1.flags
        = sample_http_1_0.flags
      ∧ (async_write_response sample_http_1_1 200 "OK".toList
            { sample_message with
              headers := [("Connection".toList, "foo , Close".toList)] }).1.flags
          = { sample_http_1_1.flags with KEEP_ALIVE := false } :=
  ⟨(async_write_response_connection_close sample_http_1_0 200 "OK".toList sample_message
      (by decide)).2.2.1 (by decide),
   (async_write_response_connection_close sample_http_1_1 200 "OK".toList
      { sample_message with headers := [("Connection".toList, "foo , Close".toList)] }
      (by decide)).2.1 (by decide)⟩

/-! ## Claims on the keep-alive lifecycle and on refused operations -/

/-- C4: an accepted `async_write_response`, `async_write_trailers` or
`async_write_end_of_message` passes the completion lambda that, in whatever
state `t` the connection is when the transport write completes, sets `is_open_`
to the KEEP_ALIVE flag of `t` and calls `close()` on the transport iff
KEEP_ALIVE is unset; `async_write_response_continue`,
`async_write_response_metadata` and `async_write` never pass that lambda,
their own lambda changes nothing, and the calls themselves leave `is_open_`
and the transport as they were. -/
theorem write_completion_keep_alive (s t : basic_socket) (status_code : Nat)
    (reason_phrase : Str) (message : Message) :
    ((writer_helper.write_message s.writer_helper).isSome = true →
        (async_write_response s status_code reason_phrase message).2.completion
          = some .keep_alive_then_handler)
      ∧ ((writer_helper.write_trailers s.writer_helper).isSome = true →
          (async_write_trailers s message).2.completion = some .keep_alive_then_handler)
      ∧ ((writer_helper.end_ s.writer_helper).isSome = true →
          (async_write_end_of_message s).2.completion = some .keep_alive_then_handler)
      ∧ (on_write_complete t .keep_alive_then_handler).is_open_ = t.flags.KEEP_ALIVE
      ∧ (t.flags.KEEP_ALIVE = false →
          (on_write_complete t .keep_alive_then_handler).channel = t.channel.close)
      ∧ (t.flags.KEEP_ALIVE = true →
          (on_write_complete t .keep_alive_then_handler).channel = t.channel)
      ∧ ((async_write_response_continue s).2.completion ≠ some .keep_alive_then_handler
          ∧ (async_write_response_continue s).1.is_open_ = s.is_open_
          ∧ (async_write_response_continue s).1.channel = s.channel)
      ∧ ((async_write_response_metadata s status_code reason_phrase message).2.completion
            ≠ some .keep_alive_then_handler
          ∧ (async_write_response_metadata s status_code reason_phrase message).1.is_open_
            = s.is_open_
          ∧ (async_write_response_metadata s status_code reason_phrase message).1.channel
            = s.channel)
      ∧ ((async_write s message).2.completion ≠ some .keep_alive_then_handler
          ∧ (async_write s message).1.is_open_ = s.is_open_
          ∧ (async_write s message).1.channel = s.channel)
      ∧ on_write_complete t .handler_only = t := by
  refine ⟨?_, ?_, ?_, ?_, ?_, ?_, ?_, ?_, ?_, rfl⟩
  · intro h
    obtain ⟨next, hnext⟩ := Option.isSome_iff_exists.mp h
    simp [async_write_response, hnext, started.completion]
  · intro h
    obtain ⟨next, hnext⟩ := Option.isSome_iff_exists.mp h
    simp [async_write_trailers, hnext, started.completion]
  · intro h
    obtain ⟨next, hnext⟩ := Option.isSome_iff_exists.mp h
    simp [async_write_end_of_message, hnext, started.completion]
  · cases hk : t.flags.KEEP_ALIVE <;> simp [on_write_complete, hk]
  · intro hk
    simp [on_write_complete, hk]
  · intro hk
    simp [on_write_complete, hk]
  · cases h : writer_helper.write_continue s.writer_helper <;>
      simp [async_write_response_continue, h, started.completion]
  · cases h : writer_helper.write_metadata s.writer_helper <;>
      cases h11 : s.flags.HTTP_1_1 <;>
      cases hc : detail.has_connection_close message.headers <;>
      simp [async_write_response_metadata, h, h11, hc, started.completion]
  · cases h : writer_helper.write s.writer_helper <;>
      cases hb : message.body <;>
      simp [async_write, h, hb, started.completion]

/-- C4 at a concrete input: the response to an HTTP/1.0 request without
keep-alive, run to the call of the user handler, leaves `is_open_` false and
the transport closed by one `close()` call. -/
theorem write_completion_keep_alive_witness :
    (run_to_completion
        (async_write_response sample_http_1_0 200 "OK".toList sample_message)).is_open_
        = false
      ∧ (run_to_completion
          (async_write_response sample_http_1_0 200 "OK".toList sample_message)).channel
          = { is_open := false, close_calls := 1,
              output := ("HTTP/1.0 200 OK\r\nconnection: close\r\nx: y\r\n"
                ++ "content-length: 5\r\n\r\nhello").toList }
      ∧ (async_write_response sample_http_1_0 200 "OK".toList sample_message).2.completion
          = some .keep_alive_then_handler :=
  ⟨by decide, by decide,
    (write_completion_keep_alive sample_http_1_0 sample_http_1_0 200 "OK".toList
      sample_message).1 (by decide)⟩

/-- C5: each of the six write operations, called in a write state in which the
table of section 4.1 refuses it, posts the handler with `out_of_order`, starts
no transport write and returns the connection exactly as it was (flags,
`is_open_`, scratch buffer and everything else). -/
theorem rejected_write_is_out_of_order (s : basic_socket) (status_code : Nat)
    (reason_phrase : Str) (message : Message) :
    (writer_helper.write_message s.writer_helper = none →
        async_write_response s status_code reason_phrase message
          = (s, .posted .out_of_order))
      ∧ (writer_helper.write_continue s.writer_helper = none →
          async_write_response_continue s = (s, .posted .out_of_order))
      ∧ (writer_helper.write_metadata s.writer_helper = none →
          async_write_response_metadata s status_code reason_phrase message
            = (s, .posted .out_of_order))
      ∧ (writer_helper.write s.writer_helper = none →
          async_write s message = (s, .posted .out_of_order))
      ∧ (writer_helper.write_trailers s.writer_helper = none →
          async_write_trailers s message = (s, .posted .out_of_order))
      ∧ (writer_helper.end_ s.writer_helper = none →
          async_write_end_of_message s = (s, .posted .out_of_order))
      ∧ (started.posted .out_of_order).bytes = []
      ∧ run_to_completion (s, .posted .out_of_order) = s := by
  refine ⟨?_, ?_, ?_, ?_, ?_, ?_, rfl, rfl⟩ <;> intro h
  · simp [async_write_response, h]
  · simp [async_write_response_continue, h]
  · simp [async_write_response_metadata, h]
  · simp [async_write, h]
  · simp [async_write_trailers, h]
  · simp [async_write_end_of_message, h]

/-- C5 at concrete inputs: with the write state `finished` a response and an
end-of-message are refused, and with the write state `empty` a chunk write is
refused; the connection is returned unchanged. -/
theorem rejected_write_is_out_of_order_witness :
    async_write_response { sample_http_1_1 with writer_helper := .finished } 200
        "OK".toList sample_message
        = ({ sample_http_1_1 with writer_helper := .finished }, .posted .out_of_order)
      ∧ async_write_end_of_message { sample_http_1_1 with writer_helper := .finished }
        = ({ sample_http_1_1 with writer_helper := .finished }, .posted .out_of_order)
      ∧ async_write sample_http_1_1 sample_message
        = (sample_http_1_1, .posted .out_of_order) :=
  ⟨(rejected_write_is_out_of_order { sample_http_1_1 with writer_helper := .finished } 200
      "OK".toList sample_message).1 (by decide),
   (rejected_write_is_out_of_order { sample_http_1_1 with writer_helper := .finished } 200
      "OK".toList sample_message).2.2.2.2.2.1 (by decide),
   (rejected_write_is_out_of_order sample_http_1_1 200 "OK".toList
      sample_message).2.2.2.1 (by decide)⟩

/-! ## Claims on `async_write_response_metadata` -/

/-- C6: `async_write_response_metadata` called in a write state that accepts
`write_metadata` while HTTP_1_1 is unset posts the handler with
`native_stream_unsupported`, starts no transport write and returns the
connection as it was, write state included, so that a following
`async_write_response` is not refused; called in a write state that does not
accept `write_metadata` it posts `out_of_order`, whatever HTTP_1_1 is. -/
theorem async_write_response_metadata_unsupported (s : basic_socket) (status_code : Nat)
    (reason_phrase : Str) (message : Message) :
    ((writer_helper.write_metadata s.writer_helper).isSome = true →
        s.flags.HTTP_1_1 = false →
        async_write_response_metadata s status_code reason_phrase message
            = (s, .posted .native_stream_unsupported)
          ∧ (started.posted .native_stream_unsupported).bytes = []
          ∧ (async_write_response_metadata s status_code reason_phrase message).1.writer_helper
              = s.writer_helper
          ∧ ∀ (status_code2 : Nat) (reason_phrase2 : Str) (message2 : Message),
              (async_write_response
                  (async_write_response_metadata s status_code reason_phrase message).1
                  status_code2 reason_phrase2 message2).2.out_of_order = false)
      ∧ (writer_helper.write_metadata s.writer_helper = none →
          async_write_response_metadata s status_code reason_phrase message
            = (s, .posted .out_of_order)) := by
  refine ⟨?_, ?_⟩
  · intro haccept h11
    obtain ⟨next, hnext⟩ := Option.isSome_iff_exists.mp haccept
    have hcall : async_write_response_metadata s status_code reason_phrase message
        = (s, .posted .native_stream_unsupported) := by
      simp [async_write_response_metadata, hnext, h11]
    refine ⟨hcall, rfl, by rw [hcall], ?_⟩
    intro status_code2 reason_phrase2 message2
    rw [hcall]
    have hmsg : ∃ n, writer_helper.write_message s.writer_helper = some n := by
      cases hs : s.writer_helper <;> simp [hs, writer_helper.write_metadata] at hnext <;>
        simp [writer_helper.write_message]
    obtain ⟨n, hn⟩ := hmsg
    simp [async_write_response, hn, started.out_of_order]
  · intro h
    simp [async_write_response_metadata, h]

/-- C6 at concrete inputs: on an HTTP/1.0 connection in write state `empty`
the call is answered with `native_stream_unsupported` and changes nothing; on
an HTTP/1.1 connection in write state `finished` it is answered with
`out_of_order`. -/
theorem async_write_response_metadata_unsupported_witness :
    async_write_response_metadata sample_http_1_0 200 "OK".toList sample_message
        = (sample_http_1_0, .posted .native_stream_unsupported)
      ∧ async_write_response_metadata { sample_http_1_1 with writer_helper := .finished }
          200 "OK".toList sample_message
        = ({ sample_http_1_1 with writer_helper := .finished }, .posted .out_of_order) :=
  ⟨((async_write_response_metadata_unsupported sample_http_1_0 200 "OK".toList
      sample_message).1 (by decide) (by decide)).1,
   (async_write_response_metadata_unsupported
      { sample_http_1_1 with writer_helper := .finished } 200 "OK".toList
      sample_message).2 (by decide)⟩

/-- C7: an accepted `async_write_response_metadata` (HTTP_1_1 set) writes the
status line `HTTP/1.1 `, decimal status code, space, reason phrase, CRLF, then
the synthetic connection-close line iff KEEP_ALIVE is unset and the message
has no connection: close header, then every message header as
`name ": " value CRLF` in container order, then
`transfer-encoding: chunked` CRLF CRLF; nothing follows, and the bytes are the
same whatever the body of the message is. -/
theorem async_write_response_metadata_bytes (s : basic_socket) (status_code : Nat)
    (reason_phrase : Str) (message : Message)
    (haccept : (writer_helper.write_metadata s.writer_helper).isSome = true)
    (h11 : s.flags.HTTP_1_1 = true) :
    (async_write_response_metadata s status_code reason_phrase message).2.bytes
        = "HTTP/1.1 ".toList ++ to_string status_code ++ " ".toList ++ reason_phrase
            ++ "\r\n".toList
            ++ (if s.flags.KEEP_ALIVE = false
                    ∧ detail.has_connection_close message.headers = false
                  then "connection: close\r\n".toList else [])
            ++ header_lines message.headers
            ++ "transfer-encoding: chunked\r\n\r\n".toList
      ∧ read_number 10 (to_string status_code) = status_code
      ∧ ∀ body : Str,
          (async_write_response_metadata s status_code reason_phrase
              { message with body := body }).2.bytes
            = (async_write_response_metadata s status_code reason_phrase message).2.bytes := by
  obtain ⟨next, hnext⟩ := Option.isSome_iff_exists.mp haccept
  have key : ∀ body : Str,
      (async_write_response_metadata s status_code reason_phrase
          { message with body := body }).2.bytes
        = "HTTP/1.1 ".toList ++ to_string status_code ++ " ".toList ++ reason_phrase
            ++ "\r\n".toList
            ++ (if s.flags.KEEP_ALIVE = false
                    ∧ detail.has_connection_close message.headers = false
                  then "connection: close\r\n".toList else [])
            ++ header_lines message.headers
            ++ "transfer-encoding: chunked\r\n\r\n".toList := by
    intro body
    simp only [async_write_response_metadata, hnext]
    cases hk : s.flags.KEEP_ALIVE <;> cases hc : detail.has_connection_close message.headers <;>
      simp [h11, hk, hc, started.bytes, flatten_push_back, flatten_push_headers, crlf,
        List.append_assoc]
  refine ⟨key message.body, read_number_to_string _, ?_⟩
  intro body
  rw [key body, key message.body]

/-- C7 at a concrete input: the metadata of a 200 response with one header on
an HTTP/1.1 keep-alive connection. -/
theorem async_write_response_metadata_bytes_witness :
    (async_write_response_metadata sample_http_1_1 200 "OK".toList sample_message).2.bytes
      = "HTTP/1.1 200 OK\r\nx: y\r\ntransfer-encoding: chunked\r\n\r\n".toList := by
  rw [(async_write_response_metadata_bytes sample_http_1_1 200 "OK".toList sample_message
    (by decide) (by decide)).1]
  decide

/-! ## Claims on the chunked stream and on `100 Continue` -/

/-- An accepted chunk write (`async_write`) under a global locale that groups
no digits, as the classic locale does: with a non-empty body of length `n` it
writes exactly `hex(n)` CRLF body CRLF, where `hex(n)` consists of digits and
lowercase letters `a`-`f` only, does not start with `0` and reads back in base
16 as `n`. With an empty body it posts the handler with success and writes no
bytes, whatever the locale. -/
theorem async_write_chunk_bytes_ungrouped (s : basic_socket) (message : Message)
    (haccept : (writer_helper.write s.writer_helper).isSome = true) :
    (s.global_locale.grouping = [] → message.body ≠ [] →
        (async_write s message).2.bytes
            = hex_digits message.body.length ++ "\r\n".toList ++ message.body
                ++ "\r\n".toList
          ∧ read_number 16 (hex_digits message.body.length) = message.body.length
          ∧ (∀ c ∈ hex_digits message.body.length, is_lower_hex_digit c = true)
          ∧ (∃ c rest, hex_digits message.body.length = c :: rest ∧ c ≠ '0'))
      ∧ (message.body = [] →
          (async_write s message).2 = .posted .success
            ∧ (async_write s message).2.bytes = []) := by
  obtain ⟨next, hnext⟩ := Option.isSome_iff_exists.mp haccept
  refine ⟨?_, ?_⟩
  · intro hlocale hbody
    have hlen : message.body.length ≠ 0 := by
      intro h0
      exact hbody (List.length_eq_zero.mp h0)
    refine ⟨?_, read_number_hex_digits _, hex_digits_all_lower_hex _,
      hex_digits_head_ne_zero _ (Nat.pos_of_ne_zero hlen)⟩
    simp [async_write, hnext, hlen, started.bytes, crlf, to_hex_ungrouped _ hlocale]
  · intro hbody
    simp [async_write, hnext, hbody, started.bytes]

/-- C8: the size line of a chunk is written through a `std::ostringstream`
that takes on the global locale. Under a global locale that groups digits in
threes, an accepted chunk write with a body of 4096 bytes writes the size line
`1,000`: these are not the bytes `hex(n)` CRLF body CRLF of the claim, whose
size line is `1000`, and the size line is not made of hexadecimal digits.
Under the classic locale the same write gives the size line `1000`. -/
theorem async_write_chunk_size_grouped :
    (async_write
        { sample_http_1_1 with
          writer_helper := .metadata_issued, global_locale := sample_grouping_locale }
        { sample_message with body := sample_large_body }).2.bytes
        = "1,000\r\n".toList ++ sample_large_body ++ "\r\n".toList
      ∧ (async_write
          { sample_http_1_1 with
            writer_helper := .metadata_issued, global_locale := sample_grouping_locale }
          { sample_message with body := sample_large_body }).2.bytes
        ≠ hex_digits sample_large_body.length ++ "\r\n".toList ++ sample_large_body
            ++ "\r\n".toList
      ∧ hex_digits sample_large_body.length = "1000".toList
      ∧ to_hex sample_grouping_locale sample_large_body.length = "1,000".toList
      ∧ is_lower_hex_digit ',' = false
      ∧ (async_write { sample_http_1_1 with writer_helper := .metadata_issued }
          { sample_message with body := sample_large_body }).2.bytes
        = "1000\r\n".toList ++ sample_large_body ++ "\r\n".toList := by
  have hlen : sample_large_body.length = 4096 := List.length_replicate _ _
  have hplain : hex_digits 4096 = "1000".toList := by decide
  have hgrouped : to_hex sample_grouping_locale 4096 = "1,000".toList := by decide
  have hclassic : to_hex {} 4096 = "1000".toList := by decide
  have hbytes : (async_write
      { sample_http_1_1 with
        writer_helper := .metadata_issued, global_locale := sample_grouping_locale }
      { sample_message with body := sample_large_body }).2.bytes
      = "1,000\r\n".toList ++ sample_large_body ++ "\r\n".toList := by
    simp [async_write, writer_helper.write, sample_http_1_1, started.bytes, crlf, hlen,
      hgrouped]
  refine ⟨hbytes, ?_, by rw [hlen, hplain], by rw [hlen, hgrouped], by decide, ?_⟩
  · rw [hbytes, hlen, hplain]
    intro h
    have h1 := congrArg (fun l => l.tail.head?) h
    simp at h1
  · simp [async_write, writer_helper.write, sample_http_1_1, started.bytes, crlf, hlen,
      hclassic]

/-- C9: an accepted `async_write_trailers` writes exactly `0` CRLF, then each
trailer of the message as `name ": " value CRLF` in container order, then a
final CRLF; the headers and the body of the message contribute no bytes. -/
theorem async_write_trailers_bytes (s : basic_socket) (message : Message)
    (haccept : (writer_helper.write_trailers s.writer_helper).isSome = true) :
    (async_write_trailers s message).2.bytes
        = "0\r\n".toList ++ header_lines message.trailers ++ "\r\n".toList
      ∧ ∀ (headers : Headers) (body : Str),
          (async_write_trailers s { message with headers := headers, body := body }).2.bytes
            = (async_write_trailers s message).2.bytes := by
  obtain ⟨next, hnext⟩ := Option.isSome_iff_exists.mp haccept
  have key : ∀ (headers : Headers) (body : Str),
      (async_write_trailers s { message with headers := headers, body := body }).2.bytes
        = "0\r\n".toList ++ header_lines message.trailers ++ "\r\n".toList := by
    intro headers body
    simp [async_write_trailers, hnext, started.bytes, flatten_push_back,
      flatten_push_headers, crlf]
  refine ⟨key message.headers message.body, ?_⟩
  intro headers body
  rw [key headers body, key message.headers message.body]

/-- C9 at a concrete input: the trailer `x-checksum: 42` after a chunked body. -/
theorem async_write_trailers_bytes_witness :
    (async_write_trailers { sample_http_1_1 with writer_helper := .chunked_body }
        sample_message).2.bytes
      = "0\r\nx-checksum: 42\r\n\r\n".toList := by
  rw [(async_write_trailers_bytes { sample_http_1_1 with writer_helper := .chunked_body }
    sample_message (by decide)).1]
  decide

/-- C10: an accepted `async_write_response_continue` writes exactly
`HTTP/1.1 100 Continue` CRLF CRLF, whatever the flags are, leaves the flags,
`is_open_` and the transport handle unchanged, passes a completion lambda that
changes nothing (so the transport is not closed), and leaves the write state
in `continue_issued`, which accepts `write_message` and `write_metadata` and
refuses `write_continue`: a following `async_write_response` is not refused, a
following `async_write_response_metadata` is not refused on account of the
write state, and a second `async_write_response_continue` is answered with
`out_of_order`. -/
theorem async_write_response_continue_accepted (s : basic_socket)
    (haccept : (writer_helper.write_continue s.writer_helper).isSome = true) :
    (async_write_response_continue s).2.bytes = "HTTP/1.1 100 Continue\r\n\r\n".toList
      ∧ (async_write_response_continue s).1.flags = s.flags
      ∧ (async_write_response_continue s).1.is_open_ = s.is_open_
      ∧ (async_write_response_continue s).1.channel = s.channel
      ∧ (async_write_response_continue s).2.completion = some .handler_only
      ∧ (∀ t : basic_socket, on_write_complete t .handler_only = t)
      ∧ (run_to_completion (async_write_response_continue s)).channel
          = { s.channel with
              output := s.channel.output ++ "HTTP/1.1 100 Continue\r\n\r\n".toList }
      ∧ (run_to_completion (async_write_response_continue s)).is_open = s.is_open
      ∧ (async_write_response_continue s).1.writer_helper = .continue_issued
      ∧ (writer_helper.write_message
            (async_write_response_continue s).1.writer_helper).isSome = true
      ∧ (writer_helper.write_metadata
            (async_write_response_continue s).1.writer_helper).isSome = true
      ∧ writer_helper.write_continue (async_write_response_continue s).1.writer_helper
          = none
      ∧ (∀ (status_code : Nat) (reason_phrase : Str) (message : Message),
          (async_write_response (async_write_response_continue s).1 status_code
              reason_phrase message).2.out_of_order = false
            ∧ (async_write_response_metadata (async_write_response_continue s).1
                status_code reason_phrase message).2.out_of_order = false)
      ∧ (async_write_response_continue (async_write_response_continue s).1).2
          = .posted .out_of_order := by
  have hs : s.writer_helper = .empty := by
    cases h : s.writer_helper <;> simp [h, writer_helper.write_continue] at haccept
    rfl
  have hcall : async_write_response_continue s
      = ({ s with writer_helper := .continue_issued },
          .async_write ["HTTP/1.1 100 Continue\r\n\r\n".toList] .handler_only) := by
    simp [async_write_response_continue, hs, writer_helper.write_continue]
  rw [hcall]
  refine ⟨by simp [started.bytes], rfl, rfl, rfl, rfl, fun _ => rfl, ?_, ?_, rfl, rfl, rfl,
    rfl, ?_, ?_⟩
  · simp [run_to_completion, on_write_complete, Channel.write]
  · simp [run_to_completion, on_write_complete, Channel.write, basic_socket.is_open]
  · intro status_code reason_phrase message
    refine ⟨?_, ?_⟩
    · simp [async_write_response, writer_helper.write_message, started.out_of_order]
    · cases h11 : s.flags.HTTP_1_1 <;>
        simp [async_write_response_metadata, writer_helper.write_metadata,
          started.out_of_order, h11]
  · simp [async_write_response_continue, writer_helper.write_continue]

/-- C10 at a concrete input: `100 Continue` on an HTTP/1.0 connection in write
state `empty`. -/
theorem async_write_response_continue_accepted_witness :
    (async_write_response_continue sample_http_1_0).2.bytes
        = "HTTP/1.1 100 Continue\r\n\r\n".toList
      ∧ (async_write_response_continue sample_http_1_0).1.flags = sample_http_1_0.flags :=
  ⟨(async_write_response_continue_accepted sample_http_1_0 (by decide)).1,
   (async_write_response_continue_accepted sample_http_1_0 (by decide)).2.1⟩

/-! ## Auxiliary facts: what the callbacks leave alone -/

theorem call_back_frame (c : connection) (p : http_parser_struct) (e : parser_event) :
    (call_back c p e).1.socket.channel = c.socket.channel
      ∧ (call_back c p e).1.socket.is_open_ = c.socket.is_open_
      ∧ (call_back c p e).1.socket.buffer = c.socket.buffer
      ∧ (call_back c p e).1.socket.used_size = c.socket.used_size
      ∧ (call_back c p e).1.socket.content_length_buffer = c.socket.content_length_buffer := by
  cases e <;>
    simp only [call_back, on_message_begin, on_url, on_header_field, on_header_value,
      on_headers_complete, on_body, on_message_complete] <;>
    (repeat' split) <;> simp

theorem run_callbacks_frame (steps : List callback_step) :
    ∀ (c : connection) (parser : http_parser_struct) (nparsed : Nat),
      (run_callbacks c steps parser nparsed).1.socket.channel = c.socket.channel
        ∧ (run_callbacks c steps parser nparsed).1.socket.is_open_ = c.socket.is_open_
        ∧ (run_callbacks c steps parser nparsed).1.socket.buffer = c.socket.buffer
        ∧ (run_callbacks c steps parser nparsed).1.socket.used_size = c.socket.used_size
        ∧ (run_callbacks c steps parser nparsed).1.socket.content_length_buffer
            = c.socket.content_length_buffer := by
  induction steps with
  | nil => intro c parser nparsed; simp [run_callbacks]
  | cons step rest ih =>
    intro c parser nparsed
    have hf := call_back_frame c step.parser step.event
    simp only [run_callbacks]
    split
    · exact hf
    · have h := ih (call_back c step.parser step.event).1 parser nparsed
      exact ⟨h.1.trans hf.1, h.2.1.trans hf.2.1, h.2.2.1.trans hf.2.2.1,
        h.2.2.2.1.trans hf.2.2.2.1, h.2.2.2.2.trans hf.2.2.2.2⟩

theorem execute_frame (P : parser_model) (c : connection) :
    (detail.execute P c).1.socket.channel = c.socket.channel
      ∧ (detail.execute P c).1.socket.is_open_ = c.socket.is_open_
      ∧ (detail.execute P c).1.socket.buffer = c.socket.buffer
      ∧ (detail.execute P c).1.socket.used_size = c.socket.used_size
      ∧ (detail.execute P c).1.socket.content_length_buffer
          = c.socket.content_length_buffer :=
  run_callbacks_frame _ c _ _

/-! ## Claims on refused reads and on transport errors -/

/-- C11: `async_read_request` with a read state other than `empty`,
`async_read_some` with a read state other than `message_ready` and
`async_read_trailers` with a read state other than `body_ready` post the
handler with `out_of_order` and return the connection exactly as it was: no
transport read is issued, the parser is not run (the result is the same for
every parser), and the caller's message, method and path as well as the write
state are untouched. -/
theorem rejected_read_is_out_of_order (P : parser_model) (c : connection) :
    (c.socket.istate ≠ .empty → async_read_request P c = (c, .posted .out_of_order))
      ∧ (c.socket.istate ≠ .message_ready →
          async_read_some P c = (c, .posted .out_of_order))
      ∧ (c.socket.istate ≠ .body_ready →
          async_read_trailers P c = (c, .posted .out_of_order)) := by
  refine ⟨?_, ?_, ?_⟩ <;> intro h
  · simp [async_read_request, h]
  · simp [async_read_some, h]
  · simp [async_read_trailers, h]

/-- C11 at concrete inputs: on a connection whose read state is
`message_ready`, with method and path set and bytes buffered, a read of a new
request is refused and nothing changes; on a fresh connection reads of body
and of trailers are refused. -/
theorem rejected_read_is_out_of_order_witness :
    async_read_request (sample_request_model 1 1)
        { sample_connection with
          method := "GET".toList, path := "/x".toList,
          socket := { sample_connection.socket with istate := .message_ready, used_size := 3 } }
        = ({ sample_connection with
              method := "GET".toList, path := "/x".toList,
              socket :=
                { sample_connection.socket with istate := .message_ready, used_size := 3 } },
            .posted .out_of_order)
      ∧ async_read_some (sample_request_model 1 1) sample_connection
          = (sample_connection, .posted .out_of_order)
      ∧ async_read_trailers (sample_request_model 1 1) sample_connection
          = (sample_connection, .posted .out_of_order) :=
  ⟨(rejected_read_is_out_of_order (sample_request_model 1 1) _).1 (by decide),
   (rejected_read_is_out_of_order (sample_request_model 1 1) sample_connection).2.1
     (by decide),
   (rejected_read_is_out_of_order (sample_request_model 1 1) sample_connection).2.2
     (by decide)⟩

/-- C20: when a transport read of the read driver completes with an error,
`on_async_read_message` runs no parser step (the result is the same for every
parser and the parser is the reinitialized one), resets the read state (read
state `empty`, write state `empty`, `used_size` zero), calls the handler with
that very error and leaves the caller's message, method and path as they were. -/
theorem transport_error_resets_read_state (P : parser_model) (t : target)
    (c : connection) (ec : error_code) (data : Str) (hec : ec ≠ .success) :
    on_read_complete P t c ec data = ({ c with socket := clear_buffer c.socket }, .handler ec)
      ∧ (on_read_complete P t c ec data).1.socket.istate = .empty
      ∧ (on_read_complete P t c ec data).1.socket.writer_helper = .empty
      ∧ (on_read_complete P t c ec data).1.socket.used_size = 0
      ∧ (on_read_complete P t c ec data).1.socket.parser = detail.init c.socket.parser
      ∧ (on_read_complete P t c ec data).1.message = c.message
      ∧ (on_read_complete P t c ec data).1.method = c.method
      ∧ (on_read_complete P t c ec data).1.path = c.path
      ∧ (∀ (P2 : parser_model) (n : Nat),
          on_async_read_message P2 t c ec n = on_read_complete P t c ec data) := by
  have h : on_read_complete P t c ec data
      = ({ c with socket := clear_buffer c.socket }, .handler ec) := by
    simp [on_read_complete, on_async_read_message, hec]
  rw [h]
  refine ⟨rfl, rfl, rfl, rfl, rfl, rfl, rfl, rfl, ?_⟩
  intro P2 n
  simp [on_async_read_message, hec]

/-- C20 at a concrete input: the first transport read of a request fails with
transport error 9. -/
theorem transport_error_resets_read_state_witness :
    (on_read_complete (sample_request_model 1 1) .READY
        (async_read_request (sample_request_model 1 1) sample_connection).1
        (.transport 9) []).2 = .handler (.transport 9)
      ∧ (on_read_complete (sample_request_model 1 1) .READY
          (async_read_request (sample_request_model 1 1) sample_connection).1
          (.transport 9) []).1.socket.writer_helper = .empty := by
  have h := transport_error_resets_read_state (sample_request_model 1 1) .READY
    (async_read_request (sample_request_model 1 1) sample_connection).1 (.transport 9) []
    (by decide)
  exact ⟨by rw [h.1], h.2.2.1⟩

/-! ## Auxiliary facts: the callback protocol -/

theorem call_back_continues (c : connection) (step : callback_step)
    (h : step.continues = true) : (call_back c step.parser step.event).2 = 0 := by
  obtain ⟨p, e, k⟩ := step
  cases e <;> simp [callback_step.continues] at h <;>
    simp [call_back, on_message_begin, on_url, on_header_field, on_header_value, on_body,
      on_headers_complete, h]
  split <;> rfl

theorem never_stops_continues (step : callback_step)
    (h : step.event.never_stops = true) : step.continues = true := by
  obtain ⟨p, e, k⟩ := step
  cases e <;> simp [parser_event.never_stops] at h <;> rfl

theorem run_callbacks_append (pre : List callback_step) :
    ∀ (c : connection) (rest : List callback_step) (parser : http_parser_struct) (nparsed : Nat),
      (∀ step ∈ pre, step.continues = true) →
      run_callbacks c (pre ++ rest) parser nparsed
        = run_callbacks (play c pre) rest parser nparsed := by
  induction pre with
  | nil => intro c rest parser nparsed _; rfl
  | cons step pre ih =>
    intro c rest parser nparsed h
    have h0 := call_back_continues c step (h step (by simp))
    have hrun : run_callbacks c (step :: (pre ++ rest)) parser nparsed
        = run_callbacks (call_back c step.parser step.event).1 (pre ++ rest) parser nparsed := by
      simp [run_callbacks, h0]
    rw [List.cons_append, hrun,
      ih _ rest parser nparsed (fun st hst => h st (by simp [hst]))]
    rfl

theorem milestone_check_not_reached (t : target) (c : connection)
    (h : milestone_reached t c.socket.flags = false) :
    milestone_check t c
      = if c.socket.used_size = c.socket.buffer.length then (c, .handler .buffer_exhausted)
        else (c, .async_read_some c.socket.used_size) := by
  cases t <;> simp [milestone_reached] at h <;> simp [milestone_check, h]

/-! ## Claims on parsing errors and on buffer exhaustion -/

/-- C16: when `detail::execute` leaves the error raised by the
headers-complete callback, `on_async_read_message` resets the connection
(read state `empty`, write state `empty`, `used_size` zero, parser
reinitialized), clears headers, body and trailers of the message, starts the
write of exactly the literal 505 response, and the completion of that write
calls the handler with `parsing_error` whatever the result of the write. The
error is raised exactly by a headers-complete event with a major version
other than 1, whose callback returns non-zero without touching the flags or
the read state. -/
theorem version_rejection (P : parser_model) (t : target) (c : connection) (n : Nat)
    (herr :
      (parse_step P c n).1.socket.parser.http_errno = .cb_headers_complete) :
    (on_async_read_message P t c .success n).2 = .async_write [error_message]
      ∧ error_message
          = ("HTTP/1.1 505 HTTP Version Not Supported\r\nContent-Length: 48\r\n"
              ++ "Connection: close\r\n\r\n"
              ++ "This server only supports HTTP/1.0 and HTTP/1.1\n").toList
      ∧ (on_async_read_message P t c .success n).1.socket.istate = .empty
      ∧ (on_async_read_message P t c .success n).1.socket.writer_helper = .empty
      ∧ (on_async_read_message P t c .success n).1.socket.used_size = 0
      ∧ (on_async_read_message P t c .success n).1.socket.parser = {}
      ∧ (on_async_read_message P t c .success n).1.message
          = { headers := [], body := [], trailers := [] }
      ∧ (∀ ec : error_code,
          on_error_message_written (on_async_read_message P t c .success n).1 ec
            = ((on_async_read_message P t c .success n).1, .parsing_error))
      ∧ (∀ (d : connection) (p : http_parser_struct), p.http_major ≠ 1 →
          (on_headers_complete d p).2 = -1
            ∧ (on_headers_complete d p).1.socket.flags = d.socket.flags
            ∧ (on_headers_complete d p).1.socket.istate = d.socket.istate)
      ∧ (∀ (d : connection) (p : http_parser_struct), p.http_major = 1 →
          (on_headers_complete d p).2 = 0)
      ∧ (∀ (d : connection) (pre rest : List callback_step) (p fin : http_parser_struct)
            (k m : Nat),
          (∀ step ∈ pre, step.event.never_stops = true) → p.http_major ≠ 1 →
          (run_callbacks d (pre ++ ⟨p, .headers_complete, k⟩ :: rest) fin m
            ).1.socket.parser.http_errno = .cb_headers_complete) := by
  simp only [parse_step] at herr
  refine ⟨?_, by decide, ?_, ?_, ?_, ?_, ?_, fun _ => rfl, ?_, ?_, ?_⟩
  · simp [on_async_read_message, herr]
  · simp [on_async_read_message, herr, clear_buffer]
  · simp [on_async_read_message, herr, clear_buffer]
  · simp [on_async_read_message, herr, clear_buffer]
  · simp [on_async_read_message, herr, clear_buffer, detail.init]
  · simp [on_async_read_message, herr, clear_message]
  · intro d p hp
    simp [on_headers_complete, hp]
  · intro d p hp
    simp [on_headers_complete, hp]
  · intro d pre rest p fin k m hpre hp
    rw [run_callbacks_append pre d _ fin m (fun st hst => never_stops_continues st (hpre st hst))]
    simp [run_callbacks, call_back, on_headers_complete, hp, callback_error]

/-- C16 at a concrete input: a request `GET /x HTTP/2.0` arrives in the first
transport read. -/
theorem version_rejection_witness :
    (on_async_read_message (sample_request_model 2 0) .READY
        { sample_connection with
          socket := deposit sample_connection.socket "GET /x HTTP/2.0\r\n\r\n".toList }
        .success 19).2 = .async_write [error_message]
      ∧ (on_async_read_message (sample_request_model 2 0) .READY
          { sample_connection with
            socket := deposit sample_connection.socket "GET /x HTTP/2.0\r\n\r\n".toList }
          .success 19).1.socket.used_size = 0 :=
  ⟨(version_rejection (sample_request_model 2 0) .READY
      { sample_connection with
        socket := deposit sample_connection.socket "GET /x HTTP/2.0\r\n\r\n".toList }
      19 (by decide)).1,
   (version_rejection (sample_request_model 2 0) .READY
      { sample_connection with
        socket := deposit sample_connection.socket "GET /x HTTP/2.0\r\n\r\n".toList }
      19 (by decide)).2.2.2.2.1⟩

/-- C17, as stated, fails: a read that ends with `parsing_error` on a grammar
error of the parser leaves the transport open. On a fresh, open connection the
first transport read delivers bytes the parser rejects; the handler is called
with `parsing_error`, `close()` was never called and `is_open()` is still
true. -/
theorem parsing_error_leaves_transport_open :
    sample_connection.socket.is_open = true
      ∧ (async_read_request sample_error_model sample_connection).2 = .async_read_some 0
      ∧ (on_read_complete sample_error_model .READY
          (async_read_request sample_error_model sample_connection).1 .success
          "\x01\x02\x03".toList).2 = .handler .parsing_error
      ∧ (on_read_complete sample_error_model .READY
          (async_read_request sample_error_model sample_connection).1 .success
          "\x01\x02\x03".toList).1.socket.channel.close_calls = 0
      ∧ (on_read_complete sample_error_model .READY
          (async_read_request sample_error_model sample_connection).1 .success
          "\x01\x02\x03".toList).1.socket.is_open = true := by
  decide

/-- C17, amended: when a read ends with a parser error other than the one of
the version rejection, `on_async_read_message` resets the read state (read
state `empty`, write state `empty`, `used_size` zero, parser reinitialized)
and calls the handler with `parsing_error`; it does not call `close()` on the
transport and does not change `is_open_`, so `is_open()` is what it was before
the read. -/
theorem parsing_error_keeps_transport (P : parser_model) (t : target) (c : connection)
    (n code : Nat)
    (herr :
      (parse_step P c n).1.socket.parser.http_errno = .other code) :
    (on_async_read_message P t c .success n).2 = .handler .parsing_error
      ∧ (on_async_read_message P t c .success n).1.socket.channel = c.socket.channel
      ∧ (on_async_read_message P t c .success n).1.socket.is_open_ = c.socket.is_open_
      ∧ (on_async_read_message P t c .success n).1.socket.is_open = c.socket.is_open
      ∧ (on_async_read_message P t c .success n).1.socket.istate = .empty
      ∧ (on_async_read_message P t c .success n).1.socket.writer_helper = .empty
      ∧ (on_async_read_message P t c .success n).1.socket.used_size = 0
      ∧ (on_async_read_message P t c .success n).1.socket.parser = {} := by
  have hf := execute_frame P
    { c with socket := { c.socket with used_size := c.socket.used_size + n } }
  have hcall : on_async_read_message P t c .success n
      = ({ (parse_step P c n).1 with socket := clear_buffer (parse_step P c n).1.socket },
          .handler .parsing_error) := by
    simp only [parse_step] at herr
    simp [on_async_read_message, parse_step, herr]
  rw [hcall]
  refine ⟨rfl, ?_, ?_, ?_, rfl, rfl, rfl, rfl⟩
  · simpa [clear_buffer, parse_step] using hf.1
  · simpa [clear_buffer, parse_step] using hf.2.1
  · simp only [basic_socket.is_open, clear_buffer, parse_step]
    rw [hf.1, hf.2.1]

/-- C17, amended, at a concrete input: bytes the parser rejects arrive on a
fresh, open connection. -/
theorem parsing_error_keeps_transport_witness :
    (on_async_read_message sample_error_model .READY sample_connection .success 3).2
        = .handler .parsing_error
      ∧ (on_async_read_message sample_error_model .READY sample_connection .success 3
          ).1.socket.is_open = true :=
  ⟨(parsing_error_keeps_transport sample_error_model .READY sample_connection 3 7
      (by decide)).1,
   (parsing_error_keeps_transport sample_error_model .READY sample_connection 3 7
      (by decide)).2.2.2.1⟩

/-- C19: after a parser step without fatal error (no error, or the stop of
the message-complete callback) and after the compaction, if the target
milestone is not reached and `used_size` equals the capacity of the input
buffer, `on_async_read_message` calls the handler with `buffer_exhausted`,
issues no transport read and returns the connection exactly as it is after
the compaction: `used_size`, the buffered bytes, read state, write state and
parser are not reset. -/
theorem buffer_exhausted_keeps_state (P : parser_model) (t : target) (c : connection)
    (n : Nat) :
    (∀ d : connection, milestone_reached t d.socket.flags = false →
        d.socket.used_size = d.socket.buffer.length →
        milestone_check t d = (d, .handler .buffer_exhausted))
      ∧ ((parse_step P c n).1.socket.parser.http_errno = .ok →
          milestone_reached t (parse_step P c n).1.socket.flags = false →
          (compacted (parse_step P c n).1 (parse_step P c n).2).socket.used_size
            = (compacted (parse_step P c n).1 (parse_step P c n).2).socket.buffer.length →
          on_async_read_message P t c .success n
            = (compacted (parse_step P c n).1 (parse_step P c n).2,
                .handler .buffer_exhausted))
      ∧ ((parse_step P c n).1.socket.parser.http_errno = .cb_message_complete →
          milestone_reached t (parse_step P c n).1.socket.flags = false →
          (compacted (parse_step P c n).1 (parse_step P c n).2).socket.used_size
            = (compacted (parse_step P c n).1 (parse_step P c n).2).socket.buffer.length →
          on_async_read_message P t c .success n
            = (compacted
                { (parse_step P c n).1 with
                  socket := { (parse_step P c n).1.socket with parser := {} } }
                (parse_step P c n).2,
                .handler .buffer_exhausted)) := by
  have hcheck : ∀ d : connection, milestone_reached t d.socket.flags = false →
      d.socket.used_size = d.socket.buffer.length →
      milestone_check t d = (d, .handler .buffer_exhausted) := by
    intro d hm hu
    rw [milestone_check_not_reached t d hm, if_pos hu]
  refine ⟨hcheck, ?_, ?_⟩
  · intro herr hm hu
    rw [← hcheck (compacted (parse_step P c n).1 (parse_step P c n).2) hm hu]
    simp only [parse_step] at herr
    simp [on_async_read_message, parse_step, compacted, herr]
  · intro herr hm hu
    rw [← hcheck (compacted
        { (parse_step P c n).1 with
          socket := { (parse_step P c n).1.socket with parser := {} } }
        (parse_step P c n).2) hm hu]
    simp only [parse_step] at herr
    simp [on_async_read_message, parse_step, compacted, herr, detail.init]

/-- C19 at a concrete input: an input buffer of four bytes is filled by the
first transport read while the parser has not reached the end of the headers;
the four bytes stay in the buffer. -/
theorem buffer_exhausted_keeps_state_witness :
    on_async_read_message sample_idle_model .READY
        { socket := { buffer := "GET ".toList } } .success 4
      = ({ socket := { buffer := "GET ".toList, used_size := 4 } },
          .handler .buffer_exhausted) :=
  (buffer_exhausted_keeps_state sample_idle_model .READY
      { socket := { buffer := "GET ".toList } } 4).2.1 (by decide) (by decide) (by decide)

/-! ## Auxiliary facts: the write state during a read -/

theorem ofNat_shift_not_upper :
    ∀ n, n < 91 → 65 ≤ n → is_upper (Char.ofNat (n + 32)) = false := by
  decide

theorem is_upper_toLower (c : Char) : is_upper c.toLower = false := by
  unfold Char.toLower
  by_cases h : c.toNat ≥ 65 ∧ c.toNat ≤ 90
  · simp only [h, and_self, if_true]
    exact ofNat_shift_not_upper c.toNat (by omega) h.1
  · simp only [h, if_false]
    simp only [is_upper, decide_eq_false_iff_not]
    exact h

theorem erase_repeated_expect_spec (H : Headers) :
    ((erase_repeated_expect H).equal_range "expect".toList).length ≤ 1
      ∧ (2 ≤ (H.equal_range "expect".toList).length →
          (erase_repeated_expect H).equal_range "expect".toList = [])
      ∧ ((H.equal_range "expect".toList).length ≤ 1 → erase_repeated_expect H = H)
      ∧ (erase_repeated_expect H).filter (fun kv => !iequals kv.1 "expect".toList)
          = H.filter (fun kv => !iequals kv.1 "expect".toList)
      ∧ List.Sublist (erase_repeated_expect H) H := by
  have herase : (H.erase_equal_range "expect".toList).equal_range "expect".toList = [] := by
    simp only [Headers.erase_equal_range, Headers.equal_range, List.filter_filter]
    rw [List.filter_eq_nil_iff]
    intro kv _
    cases iequals kv.1 "expect".toList <;> simp
  by_cases hmany : (H.equal_range "expect".toList).length > 1
  · have hdef : erase_repeated_expect H = H.erase_equal_range "expect".toList := by
      unfold erase_repeated_expect
      rw [if_pos hmany]
    rw [hdef]
    refine ⟨by rw [herase]; simp, fun _ => herase, fun h => by omega, ?_, ?_⟩
    · simp only [Headers.erase_equal_range, List.filter_filter]
      congr 1
      funext kv
      cases iequals kv.1 "expect".toList <;> rfl
    · exact List.filter_sublist H
  · have hdef : erase_repeated_expect H = H := by
      unfold erase_repeated_expect
      rw [if_neg hmany]
    rw [hdef]
    exact ⟨by omega, fun h => by omega, fun _ => rfl, rfl, List.Sublist.refl H⟩

/-! ## Claims on the headers stored by the parser callbacks -/

theorem play_append (c : connection) (xs ys : List callback_step) :
    play c (xs ++ ys) = play (play c xs) ys := by
  simp [play, List.foldl_append]

theorem header_block_cons (p : http_parser_struct) (kv : Str × Str) (rest : List (Str × Str)) :
    header_block p (kv :: rest)
      = [⟨p, .header_field kv.1, 0⟩, ⟨p, .header_value kv.2, 0⟩] ++ header_block p rest := by
  simp [header_block, List.flatMap_cons]

theorem header_block_continues (p : http_parser_struct) (hs : List (Str × Str)) :
    ∀ step ∈ header_block p hs, step.continues = true := by
  induction hs with
  | nil => intro step h; simp [header_block] at h
  | cons kv rest ih =>
    intro step h
    rw [header_block_cons] at h
    simp only [List.cons_append, List.nil_append, List.mem_cons] at h
    rcases h with h | h | h
    · subst h; rfl
    · subst h; rfl
    · exact ih step h

theorem play_first_pair (c : connection) (p : http_parser_struct) (kv : Str × Str)
    (hlast : c.socket.last_header = ([], [])) :
    play c [⟨p, .header_field kv.1, 0⟩, ⟨p, .header_value kv.2, 0⟩]
      = { c with
          socket := { c.socket with last_header := (kv.1.map Char.toLower, kv.2) } } := by
  simp [play, call_back, on_header_field, on_header_value, hlast]

theorem on_header_field_flush (c : connection) (p : http_parser_struct) (data : Str)
    (hmajor : p.http_major = 1) (htrailers : c.socket.use_trailers = false)
    (hvalue : c.socket.last_header.2 ≠ []) :
    (on_header_field c p data).1
      = { c with
          socket := { c.socket with last_header := (data.map Char.toLower, []) },
          message :=
            { c.message with
              headers :=
                c.message.headers
                  ++ [(c.socket.last_header.1, trim_right c.socket.last_header.2)].filter
                      (fun x => passes_suppression p x.1) } } := by
  have hlen : c.socket.last_header.2.length ≠ 0 := by
    intro h0
    exact hvalue (List.length_eq_zero.mp h0)
  have hcond : ((decide (p.http_minor ≠ 0) || decide (p.http_major > 1))
      || (decide (c.socket.last_header.1 ≠ "expect".toList)
          && decide (c.socket.last_header.1 ≠ "upgrade".toList)))
      = passes_suppression p c.socket.last_header.1 := by
    have h1 : decide (p.http_major > 1) = false := by simp [hmajor]
    rw [h1, Bool.or_false]
    rfl
  simp only [on_header_field]
  rw [if_pos hlen, hcond, htrailers]
  cases hpass : passes_suppression p c.socket.last_header.1 <;>
    simp [Headers.insert, List.filter_cons, hpass]

theorem play_next_pair (c : connection) (p : http_parser_struct) (kv : Str × Str)
    (hmajor : p.http_major = 1) (htrailers : c.socket.use_trailers = false)
    (hvalue : c.socket.last_header.2 ≠ []) :
    play c [⟨p, .header_field kv.1, 0⟩, ⟨p, .header_value kv.2, 0⟩]
      = { c with
          socket := { c.socket with last_header := (kv.1.map Char.toLower, kv.2) },
          message :=
            { c.message with
              headers :=
                c.message.headers
                  ++ [(c.socket.last_header.1, trim_right c.socket.last_header.2)].filter
                      (fun x => passes_suppression p x.1) } } := by
  simp only [play, List.foldl_cons, List.foldl_nil, call_back]
  rw [on_header_field_flush c p kv.1 hmajor htrailers hvalue]
  simp [on_header_value]

theorem on_headers_complete_headers (c : connection) (p : http_parser_struct)
    (hmajor : p.http_major = 1) (hflag : c.socket.flags.HTTP_1_1 = false)
    (hname : c.socket.last_header.1 ≠ []) :
    (on_headers_complete c p).1.message.headers
      = erase_repeated_expect
          (c.message.headers
            ++ [(c.socket.last_header.1, trim_right c.socket.last_header.2)].filter
                (fun x => passes_suppression p x.1)) := by
  have hlen : c.socket.last_header.1.length ≠ 0 := by
    intro h0
    exact hname (List.length_eq_zero.mp h0)
  have hlen2 : decide (c.socket.last_header.1.length ≠ 0) = true := by simp [hlen]
  by_cases hm : p.http_minor = 0
  · have hpass : passes_suppression p c.socket.last_header.1
        = (decide (c.socket.last_header.1 ≠ "expect".toList)
            && decide (c.socket.last_header.1 ≠ "upgrade".toList)) := by
      simp [passes_suppression, hm]
    simp only [on_headers_complete, hmajor, if_true, hm, ne_eq, not_true_eq_false, if_false,
      hflag, hlen2, Bool.true_and, Bool.false_or, List.filter_cons, List.filter_nil, hpass]
    split <;> simp [Headers.insert]
  · have hpass : passes_suppression p c.socket.last_header.1 = true := by
      simp [passes_suppression, hm]
    simp only [on_headers_complete, hmajor, if_true, hm, ne_eq, not_false_eq_true,
      hlen2, Bool.true_and, Bool.true_or, List.filter_cons, List.filter_nil, hpass]
    simp [Headers.insert]

theorem headers_after_block (p : http_parser_struct) (hmajor : p.http_major = 1)
    (hs : List (Str × Str)) :
    ∀ c : connection,
      c.socket.use_trailers = false → c.socket.flags.HTTP_1_1 = false →
      c.socket.last_header.1 ≠ [] → c.socket.last_header.2 ≠ [] →
      (∀ kv ∈ hs, kv.1 ≠ [] ∧ kv.2 ≠ []) →
      (on_headers_complete (play c (header_block p hs)) p).1.message.headers
        = erase_repeated_expect
            (c.message.headers
              ++ ((c.socket.last_header.1, trim_right c.socket.last_header.2)
                    :: hs.map stored_form).filter (fun x => passes_suppression p x.1)) := by
  induction hs with
  | nil =>
    intro c _ hflag hname _ _
    have hplay : play c (header_block p []) = c := rfl
    rw [hplay, on_headers_complete_headers c p hmajor hflag hname]
    rfl
  | cons kv rest ih =>
    intro c htrailers hflag hname hvalue hall
    have hkv := hall kv (by simp)
    rw [header_block_cons, play_append, play_next_pair c p kv hmajor htrailers hvalue]
    refine Eq.trans (ih _ ?_ ?_ ?_ ?_ ?_) ?_
    · exact htrailers
    · exact hflag
    · simpa using hkv.1
    · exact hkv.2
    · exact fun x hx => hall x (by simp [hx])
    · congr 1
      simp only [List.map_cons, stored_form, List.append_assoc]
      congr 1
      rw [← List.filter_append]
      rfl

theorem toLower_of_not_upper (c : Char) (h : is_upper c = false) : c.toLower = c := by
  unfold Char.toLower
  simp only [is_upper, decide_eq_false_iff_not] at h
  simp only [ge_iff_le]
  rw [if_neg h]

theorem map_toLower_idem (s : Str) :
    (s.map Char.toLower).map Char.toLower = s.map Char.toLower := by
  rw [List.map_map]
  apply List.map_congr_left
  intro c _
  exact toLower_of_not_upper _ (is_upper_toLower c)

theorem iequals_of_lower (name target : Str)
    (htarget : target.map Char.toLower = target)
    (h : iequals (name.map Char.toLower) target = true) :
    name.map Char.toLower = target := by
  unfold iequals at h
  rw [map_toLower_idem, htarget] at h
  exact eq_of_beq h

theorem erase_repeated_expect_of_none (H : Headers)
    (h : ∀ kv ∈ H, iequals kv.1 "expect".toList = false) : erase_repeated_expect H = H := by
  have hrange : H.equal_range "expect".toList = [] := by
    unfold Headers.equal_range
    rw [List.filter_eq_nil_iff]
    intro kv hkv
    rw [h kv hkv]
    simp
  unfold erase_repeated_expect
  rw [hrange]
  rfl

theorem headers_after_request_block (c : connection) (p : http_parser_struct)
    (hs : List (Str × Str))
    (hlast : c.socket.last_header = ([], [])) (hmajor : p.http_major = 1)
    (hall : ∀ kv ∈ hs, kv.1 ≠ [] ∧ kv.2 ≠ []) :
    (on_headers_complete (play (on_message_begin c p).1 (header_block p hs)) p).1.message.headers
      = erase_repeated_expect
          ((hs.map stored_form).filter (fun x => passes_suppression p x.1)) := by
  cases hs with
  | nil =>
    have h0 : play (on_message_begin c p).1 (header_block p []) = (on_message_begin c p).1 :=
      rfl
    rw [h0]
    simp [on_headers_complete, on_message_begin, hmajor, hlast, clear_message,
      erase_repeated_expect, Headers.equal_range]
  | cons kv rest =>
    have hkv := hall kv (by simp)
    rw [header_block_cons, play_append,
      play_first_pair (on_message_begin c p).1 p kv (by simpa [on_message_begin] using hlast)]
    refine Eq.trans (headers_after_block p hmajor rest _ ?_ ?_ ?_ ?_ ?_) ?_
    · rfl
    · rfl
    · simpa using hkv.1
    · exact hkv.2
    · exact fun x hx => hall x (by simp [hx])
    · simp [on_message_begin, clear_message, stored_form]

/-! ## Auxiliary facts: fragments of a header -/

theorem play_value_fragments (p : http_parser_struct) (vs : List Str) :
    ∀ c : connection,
      play c (vs.map (fun v => (⟨p, .header_value v, 0⟩ : callback_step)))
        = { c with
            socket :=
              { c.socket with
                last_header := (c.socket.last_header.1, c.socket.last_header.2 ++ vs.flatten) } } := by
  induction vs with
  | nil => intro c; simp [play]
  | cons v rest ih =>
    intro c
    have h := ih (call_back c p (.header_value v)).1
    simp only [play, List.map_cons, List.foldl_cons] at h ⊢
    rw [h]
    simp [call_back, on_header_value, List.append_assoc]

theorem play_name_fragments (p : http_parser_struct) (fs : List Str) :
    ∀ c : connection, c.socket.last_header.2 = [] →
      play c (fs.map (fun f => (⟨p, .header_field f, 0⟩ : callback_step)))
        = { c with
            socket :=
              { c.socket with
                last_header :=
                  (c.socket.last_header.1 ++ fs.flatten.map Char.toLower, []) } } := by
  induction fs with
  | nil =>
    intro c hv
    simp only [play, List.map_nil, List.foldl_nil, List.flatten_nil, List.append_nil]
    rw [← hv]
  | cons f rest ih =>
    intro c hv
    have hstep : (call_back c p (.header_field f)).1
        = { c with
            socket :=
              { c.socket with
                last_header := (c.socket.last_header.1 ++ f.map Char.toLower, []) } } := by
      simp [call_back, on_header_field, hv]
    have h := ih (call_back c p (.header_field f)).1 (by rw [hstep])
    simp only [play, List.map_cons, List.foldl_cons] at h ⊢
    rw [h, hstep]
    simp [List.append_assoc]

theorem on_header_field_value_empty (c : connection) (p : http_parser_struct) (f : Str) :
    (on_header_field c p f).1.socket.last_header.2 = [] := by
  simp only [on_header_field]
  split
  · rfl
  · rename_i h
    simp only [ne_eq, Decidable.not_not] at h
    exact List.length_eq_zero.mp h

theorem on_header_field_more_data (c : connection) (p : http_parser_struct) (f more : Str) :
    (on_header_field c p (f ++ more)).1
      = { (on_header_field c p f).1 with
          socket :=
            { (on_header_field c p f).1.socket with
              last_header :=
                ((on_header_field c p f).1.socket.last_header.1 ++ more.map Char.toLower,
                  []) } } := by
  have hv := on_header_field_value_empty c p (f ++ more)
  simp only [on_header_field] at hv ⊢
  split
  · split_ifs <;> simp
  · rename_i h
    simp only [ne_eq, Decidable.not_not] at h
    have h0 := List.length_eq_zero.mp h
    simp [h0, List.append_assoc]

theorem play_fragment_steps (c : connection) (p : http_parser_struct) (fs vs : List Str)
    (hfs : fs ≠ []) :
    play c (fragment_steps p fs vs)
      = play c [⟨p, .header_field fs.flatten, 0⟩, ⟨p, .header_value vs.flatten, 0⟩] := by
  obtain ⟨f, rest, rfl⟩ := List.exists_cons_of_ne_nil hfs
  have hv := on_header_field_value_empty c p f
  have hnames := play_name_fragments p rest (call_back c p (.header_field f)).1 hv
  have hvalues := play_value_fragments p vs
    (play (call_back c p (.header_field f)).1
      (rest.map (fun f => (⟨p, .header_field f, 0⟩ : callback_step))))
  have hleft : play c (fragment_steps p (f :: rest) vs)
      = play (play (call_back c p (.header_field f)).1
          (rest.map (fun f => (⟨p, .header_field f, 0⟩ : callback_step))))
          (vs.map (fun v => (⟨p, .header_value v, 0⟩ : callback_step))) := by
    simp [fragment_steps, play, List.foldl_append]
  rw [hleft, hvalues, hnames]
  simp only [play, List.foldl_cons, List.foldl_nil, call_back, List.flatten_cons]
  rw [on_header_field_more_data]
  simp [on_header_value]

theorem fragment_steps_continues (p : http_parser_struct) (fs vs : List Str) :
    ∀ step ∈ fragment_steps p fs vs, step.continues = true := by
  intro step h
  simp only [fragment_steps, List.mem_append, List.mem_map] at h
  rcases h with ⟨f, _, rfl⟩ | ⟨v, _, rfl⟩ <;> rfl

theorem fragmented_block_cons (p : http_parser_struct) (h : List Str × List Str)
    (rest : List (List Str × List Str)) :
    fragmented_block p (h :: rest) = fragment_steps p h.1 h.2 ++ fragmented_block p rest := by
  simp [fragmented_block, List.flatMap_cons]

theorem fragmented_block_continues (p : http_parser_struct)
    (hs : List (List Str × List Str)) :
    ∀ step ∈ fragmented_block p hs, step.continues = true := by
  induction hs with
  | nil => intro step h; simp [fragmented_block] at h
  | cons x rest ih =>
    intro step h
    rw [fragmented_block_cons, List.mem_append] at h
    rcases h with h | h
    · exact fragment_steps_continues p x.1 x.2 step h
    · exact ih step h

theorem play_fragmented_block (p : http_parser_struct) (hs : List (List Str × List Str)) :
    ∀ c : connection, (∀ h ∈ hs, h.1 ≠ []) →
      play c (fragmented_block p hs) = play c (header_block p (hs.map assembled)) := by
  induction hs with
  | nil => intro c _; rfl
  | cons x rest ih =>
    intro c hall
    rw [fragmented_block_cons, List.map_cons, header_block_cons, play_append, play_append,
      play_fragment_steps c p x.1 x.2 (hall x (by simp))]
    exact ih _ (fun h hh => hall h (by simp [hh]))

theorem headers_of_request (c : connection) (p : http_parser_struct)
    (hs : List (List Str × List Str)) (k : Nat) (fin : http_parser_struct) (n : Nat)
    (hlast : c.socket.last_header = ([], [])) (hmajor : p.http_major = 1)
    (hall : ∀ h ∈ hs, h.1.flatten ≠ [] ∧ h.2.flatten ≠ []) :
    (run_callbacks c
        (⟨p, .message_begin, 0⟩ :: (fragmented_block p hs ++ [⟨p, .headers_complete, k⟩]))
        fin n).1.message.headers
      = erase_repeated_expect
          (((hs.map assembled).map stored_form).filter
            (fun x => passes_suppression p x.1)) := by
  have hcont : ∀ step ∈
      (⟨p, .message_begin, 0⟩ :: (fragmented_block p hs ++ [⟨p, .headers_complete, k⟩])),
      step.continues = true := by
    intro step hstep
    simp only [List.mem_cons, List.mem_append, List.mem_singleton] at hstep
    rcases hstep with h | h | h
    · subst h; rfl
    · exact fragmented_block_continues p hs step h
    · rcases h with h | h
      · subst h
        simp [callback_step.continues, hmajor]
      · cases h
  have hrun := run_callbacks_append _ c [] fin n hcont
  rw [List.append_nil] at hrun
  rw [hrun]
  have hfrag : ∀ h ∈ hs, h.1 ≠ [] := by
    intro h hh hnil
    have := (hall h hh).1
    rw [hnil] at this
    exact this rfl
  have hplay : play c
      (⟨p, .message_begin, 0⟩ :: (fragmented_block p hs ++ [⟨p, .headers_complete, k⟩]))
      = (on_headers_complete
          (play (on_message_begin c p).1 (header_block p (hs.map assembled))) p).1 := by
    rw [← play_fragmented_block p hs _ hfrag]
    simp [play, List.foldl_append, call_back]
  simp only [run_callbacks]
  rw [hplay]
  exact headers_after_request_block c p (hs.map assembled) hlast hmajor
    (by
      intro kv hkv
      obtain ⟨h, hh, rfl⟩ := List.mem_map.mp hkv
      exact hall h hh)

/-- The headers stored on a connection with an empty header scratchpad, for
a request of major version 1 whose header block reaches the callbacks
header by header, each name and each value in any number of fragments, every
name and every value non-empty. After headers-complete, for minor version 0 the headers of the
message are the headers of the request in stored form (lowercase name, value
without trailing blanks), in order, without those named `expect` or `upgrade`,
wherever they stand in the block; no stored name equals `expect` or `upgrade`,
even up to case. For another minor version every header of the request is
stored, `expect` and `upgrade` included, before the `expect` block of
headers-complete runs; with at most one `expect` header the stored headers are
exactly those of the request. -/
theorem http_1_0_suppresses_expect_and_upgrade (c : connection) (p : http_parser_struct)
    (hs : List (List Str × List Str)) (k : Nat) (fin : http_parser_struct) (n : Nat)
    (hlast : c.socket.last_header = ([], [])) (hmajor : p.http_major = 1)
    (hall : ∀ h ∈ hs, h.1.flatten ≠ [] ∧ h.2.flatten ≠ []) :
    (p.http_minor = 0 →
        (run_callbacks c
            (⟨p, .message_begin, 0⟩
              :: (fragmented_block p hs ++ [⟨p, .headers_complete, k⟩]))
            fin n).1.message.headers
          = ((hs.map assembled).map stored_form).filter
              (fun x => decide (x.1 ≠ "expect".toList) && decide (x.1 ≠ "upgrade".toList))
        ∧ ∀ kv ∈ (run_callbacks c
            (⟨p, .message_begin, 0⟩
              :: (fragmented_block p hs ++ [⟨p, .headers_complete, k⟩]))
            fin n).1.message.headers,
            iequals kv.1 "expect".toList = false ∧ iequals kv.1 "upgrade".toList = false)
      ∧ (p.http_minor ≠ 0 →
          (run_callbacks c
              (⟨p, .message_begin, 0⟩
                :: (fragmented_block p hs ++ [⟨p, .headers_complete, k⟩]))
              fin n).1.message.headers
            = erase_repeated_expect ((hs.map assembled).map stored_form)
          ∧ ((Headers.equal_range ((hs.map assembled).map stored_form)
                "expect".toList).length ≤ 1 →
              (run_callbacks c
                  (⟨p, .message_begin, 0⟩
                    :: (fragmented_block p hs ++ [⟨p, .headers_complete, k⟩]))
                  fin n).1.message.headers
                = (hs.map assembled).map stored_form)) := by
  have hgen := headers_of_request c p hs k fin n hlast hmajor hall
  refine ⟨?_, ?_⟩
  · intro hminor
    have hfilter : ((hs.map assembled).map stored_form).filter
          (fun x => passes_suppression p x.1)
        = ((hs.map assembled).map stored_form).filter
            (fun x => decide (x.1 ≠ "expect".toList) && decide (x.1 ≠ "upgrade".toList)) := by
      congr 1
      funext x
      simp [passes_suppression, hminor]
    have hnone : ∀ kv ∈ ((hs.map assembled).map stored_form).filter
        (fun x => decide (x.1 ≠ "expect".toList) && decide (x.1 ≠ "upgrade".toList)),
        iequals kv.1 "expect".toList = false ∧ iequals kv.1 "upgrade".toList = false := by
      intro kv hkv
      rw [List.mem_filter] at hkv
      obtain ⟨hmem, hcond⟩ := hkv
      simp only [Bool.and_eq_true, decide_eq_true_eq] at hcond
      obtain ⟨x, _, rfl⟩ := List.mem_map.mp hmem
      refine ⟨?_, ?_⟩
      · cases hi : iequals (stored_form x).1 "expect".toList
        · rfl
        · exact absurd (iequals_of_lower x.1 _ (by decide) hi) hcond.1
      · cases hi : iequals (stored_form x).1 "upgrade".toList
        · rfl
        · exact absurd (iequals_of_lower x.1 _ (by decide) hi) hcond.2
    have hres : (run_callbacks c
        (⟨p, .message_begin, 0⟩ :: (fragmented_block p hs ++ [⟨p, .headers_complete, k⟩]))
        fin n).1.message.headers
        = ((hs.map assembled).map stored_form).filter
            (fun x => decide (x.1 ≠ "expect".toList) && decide (x.1 ≠ "upgrade".toList)) := by
      rw [hgen, hfilter]
      exact erase_repeated_expect_of_none _ (fun kv hkv => (hnone kv hkv).1)
    refine ⟨hres, ?_⟩
    rw [hres]
    exact hnone
  · intro hminor
    have hfilter : ((hs.map assembled).map stored_form).filter
          (fun x => passes_suppression p x.1)
        = (hs.map assembled).map stored_form := by
      rw [List.filter_eq_self]
      intro x _
      simp [passes_suppression, hminor]
    rw [hgen, hfilter]
    refine ⟨rfl, ?_⟩
    intro hone
    unfold erase_repeated_expect
    rw [if_neg (by omega)]

/-- On the sample connection, whose scratchpad is empty, the block `Host: h`,
`Expect: 100-continue` (name and value in two fragments each), `Upgrade: x`,
`Accept: a` of an HTTP/1.0 request stores `host` and `accept` only; of an
HTTP/1.1 request it stores all four. -/
theorem http_1_0_suppresses_expect_and_upgrade_witness :
    (run_callbacks sample_connection
        (⟨sample_parser_struct 1 0, .message_begin, 0⟩
          :: (fragmented_block (sample_parser_struct 1 0)
                [(["Host".toList], ["h".toList]),
                 (["Ex".toList, "pect".toList], ["100-".toList, "continue".toList]),
                 (["Upgrade".toList], ["x".toList]), (["Accept".toList], ["a".toList])]
              ++ [⟨sample_parser_struct 1 0, .headers_complete, 0⟩]))
        (sample_parser_struct 1 0) 0).1.message.headers
        = [("host".toList, "h".toList), ("accept".toList, "a".toList)]
      ∧ (run_callbacks sample_connection
          (⟨sample_parser_struct 1 1, .message_begin, 0⟩
            :: (fragmented_block (sample_parser_struct 1 1)
                  [(["Host".toList], ["h".toList]),
                   (["Ex".toList, "pect".toList], ["100-".toList, "continue".toList]),
                   (["Upgrade".toList], ["x".toList]), (["Accept".toList], ["a".toList])]
                ++ [⟨sample_parser_struct 1 1, .headers_complete, 0⟩]))
          (sample_parser_struct 1 1) 0).1.message.headers
          = [("host".toList, "h".toList), ("expect".toList, "100-continue".toList),
             ("upgrade".toList, "x".toList), ("accept".toList, "a".toList)] := by
  refine ⟨?_, ?_⟩
  · rw [((http_1_0_suppresses_expect_and_upgrade sample_connection
      (sample_parser_struct 1 0)
      [(["Host".toList], ["h".toList]),
       (["Ex".toList, "pect".toList], ["100-".toList, "continue".toList]),
       (["Upgrade".toList], ["x".toList]), (["Accept".toList], ["a".toList])]
      0 (sample_parser_struct 1 0) 0
      (by decide) (by decide) (by decide)).1 (by decide)).1]
    decide
  · rw [((http_1_0_suppresses_expect_and_upgrade sample_connection
      (sample_parser_struct 1 1)
      [(["Host".toList], ["h".toList]),
       (["Ex".toList, "pect".toList], ["100-".toList, "continue".toList]),
       (["Upgrade".toList], ["x".toList]), (["Accept".toList], ["a".toList])]
      0 (sample_parser_struct 1 1) 0
      (by decide) (by decide) (by decide)).2 (by decide)).1]
    decide

/-! ## Auxiliary facts: the stop at the end of a message -/

theorem milestone_check_frame (t : target) (c : connection) :
    (milestone_check t c).1.socket.buffer = c.socket.buffer
      ∧ (milestone_check t c).1.socket.used_size = c.socket.used_size
      ∧ (milestone_check t c).1.socket.parser = c.socket.parser
      ∧ (milestone_check t c).1.socket.istate = c.socket.istate := by
  simp only [milestone_check]
  split_ifs <;> exact ⟨rfl, rfl, rfl, rfl⟩

theorem milestone_check_outcome (t : target) (c : connection) :
    (milestone_check t c).2
      = if milestone_reached t c.socket.flags = true then .handler .success
        else if c.socket.used_size = c.socket.buffer.length then .handler .buffer_exhausted
        else .async_read_some c.socket.used_size := by
  cases hm : milestone_reached t c.socket.flags
  · rw [milestone_check_not_reached t c hm]
    simp only [Bool.false_eq_true, if_false]
    split <;> rfl
  · cases t <;> simp [milestone_reached] at hm <;> simp [milestone_check, hm]

theorem call_back_within_message (c : connection) (p : http_parser_struct) (e : parser_event)
    (h : e.within_message = true) :
    (call_back c p e).1.socket.flags.READY = c.socket.flags.READY := by
  cases e <;> simp [parser_event.within_message] at h <;>
    simp only [call_back, on_url, on_header_field, on_header_value, on_body] <;>
    split_ifs <;> rfl

theorem play_within_message (steps : List callback_step) :
    ∀ c : connection, (∀ step ∈ steps, step.event.within_message = true) →
      (play c steps).socket.flags.READY = c.socket.flags.READY := by
  induction steps with
  | nil => intro c _; rfl
  | cons step rest ih =>
    intro c h
    have h1 := call_back_within_message c step.parser step.event (h step (by simp))
    have h2 := ih (call_back c step.parser step.event).1 (fun st hst => h st (by simp [hst]))
    simp only [play, List.foldl_cons] at h2 ⊢
    rw [h2, h1]

theorem within_message_continues (step : callback_step)
    (h : step.event.within_message = true) : step.continues = true := by
  obtain ⟨p, e, k⟩ := step
  cases e <;> simp [parser_event.within_message] at h <;> rfl

theorem parse_step_message_complete (P : parser_model) (c : connection) (n : Nat)
    (pre rest : List callback_step) (p : http_parser_struct) (k : Nat)
    (hrun : (P c.socket.parser (c.socket.buffer.take (c.socket.used_size + n))).steps
      = pre ++ ⟨p, .message_complete, k⟩ :: rest)
    (hpre : ∀ step ∈ pre, step.continues = true) :
    parse_step P c n
      = ({ (on_message_complete
              (play { c with
                      socket := { c.socket with used_size := c.socket.used_size + n } } pre)
              p).1 with
            socket :=
              { (on_message_complete
                  (play { c with
                          socket := { c.socket with used_size := c.socket.used_size + n } }
                    pre) p).1.socket with
                parser := { p with http_errno := .cb_message_complete } } }, k) := by
  unfold parse_step detail.execute
  simp only []
  rw [hrun, run_callbacks_append pre _ _ _ _ hpre]
  simp [run_callbacks, call_back, on_message_complete, callback_error]

theorem on_async_read_message_of_stop (P : parser_model) (t : target) (c : connection)
    (n : Nat)
    (herr : (parse_step P c n).1.socket.parser.http_errno = .cb_message_complete) :
    on_async_read_message P t c .success n
      = milestone_check t
          (compacted
            { (parse_step P c n).1 with
              socket := { (parse_step P c n).1.socket with parser := {} } }
            (parse_step P c n).2) := by
  simp only [parse_step] at herr
  simp [on_async_read_message, parse_step, compacted, herr, detail.init]

theorem compact_take (s : basic_socket) (k U : Nat) (b : Str)
    (hu : s.used_size = U) (hb : s.buffer = b) (hcap : U ≤ b.length) :
    (compact s k).buffer.take (U - k) = (b.take U).drop k
      ∧ (k ≤ U → (compact s k).buffer.length = b.length)
      ∧ (compact s k).used_size = U - k := by
  subst hu hb
  have hlen : ((s.buffer.drop k).take (s.used_size - k)).length = s.used_size - k := by
    simp only [List.length_take, List.length_drop]
    omega
  refine ⟨?_, ?_, rfl⟩
  · simp only [compact]
    rw [List.take_append_of_le_length (by omega), List.take_take, Nat.min_self,
      List.drop_take]
  · intro hk
    simp only [compact, List.length_append, hlen, List.length_drop]
    omega

/-! ## Claim on pipelined bytes -/

/-- C18: when the message-complete callback stops the parser after `k` of the
buffered bytes, `detail::execute` leaves the error of that callback and
`on_async_read_message` does not treat it as an error: it reinitializes the
parser, moves the bytes from `k` up to `used_size` unchanged and in order to
the start of the input buffer, sets `used_size` to `used_size - k`, and ends
according to the milestone check. A following `async_read_request` with bytes
retained feeds exactly those bytes to the parser before any transport read;
if they hold a whole request (headers-complete with major version 1, then the
rest of the message up to message-complete) it calls the handler with success
without a transport read. -/
theorem message_complete_stop_retains_pipelined_bytes (P : parser_model) (t : target)
    (c : connection) (n : Nat) (pre rest : List callback_step) (p : http_parser_struct) (k : Nat)
    (hrun : (P c.socket.parser (c.socket.buffer.take (c.socket.used_size + n))).steps
      = pre ++ ⟨p, .message_complete, k⟩ :: rest)
    (hpre : ∀ step ∈ pre, step.continues = true)
    (hk : k ≤ c.socket.used_size + n)
    (hcap : c.socket.used_size + n ≤ c.socket.buffer.length) :
    (parse_step P c n).1.socket.parser.http_errno = .cb_message_complete
      ∧ (parse_step P c n).2 = k
      ∧ (on_async_read_message P t c .success n).1.socket.parser = {}
      ∧ (on_async_read_message P t c .success n).1.socket.used_size
          = c.socket.used_size + n - k
      ∧ (on_async_read_message P t c .success n).1.socket.buffer.take
            (c.socket.used_size + n - k)
          = (c.socket.buffer.take (c.socket.used_size + n)).drop k
      ∧ (on_async_read_message P t c .success n).1.socket.buffer.length
          = c.socket.buffer.length
      ∧ (on_async_read_message P t c .success n).1.socket.istate = .empty
      ∧ (on_async_read_message P t c .success n).2
          = (if milestone_reached t (parse_step P c n).1.socket.flags = true then
              .handler .success
            else if c.socket.used_size + n - k = c.socket.buffer.length then
              .handler .buffer_exhausted
            else .async_read_some (c.socket.used_size + n - k))
      ∧ (∀ d : connection, d.socket.istate = .empty → d.socket.used_size ≠ 0 →
          async_read_request P d
              = on_async_read_message P .READY
                  { d with
                    method := [],
                    path := [],
                    socket := { d.socket with writer_helper := .finished } }
                  .success 0
            ∧ parse_step P
                  { d with
                    method := [],
                    path := [],
                    socket := { d.socket with writer_helper := .finished } } 0
                = run_callbacks
                    { d with
                      method := [],
                      path := [],
                      socket := { d.socket with writer_helper := .finished } }
                    (P d.socket.parser (d.socket.buffer.take d.socket.used_size)).steps
                    (P d.socket.parser (d.socket.buffer.take d.socket.used_size)).parser
                    (P d.socket.parser (d.socket.buffer.take d.socket.used_size)).nparsed
            ∧ ∀ (pre2 mid rest2 : List callback_step) (p1 p2 : http_parser_struct) (k1 k2 : Nat),
                (P d.socket.parser (d.socket.buffer.take d.socket.used_size)).steps
                  = pre2 ++ ⟨p1, .headers_complete, k1⟩
                      :: (mid ++ ⟨p2, .message_complete, k2⟩ :: rest2) →
                (∀ step ∈ pre2, step.event.never_stops = true) →
                p1.http_major = 1 →
                (∀ step ∈ mid, step.event.within_message = true) →
                (async_read_request P d).2 = .handler .success) := by
  have hstep := parse_step_message_complete P c n pre rest p k hrun hpre
  have herr : (parse_step P c n).1.socket.parser.http_errno = .cb_message_complete := by
    rw [hstep]
  have hnp : (parse_step P c n).2 = k := by rw [hstep]
  have hcall := on_async_read_message_of_stop P t c n herr
  have hframe := execute_frame P
    { c with socket := { c.socket with used_size := c.socket.used_size + n } }
  have hbuf : (parse_step P c n).1.socket.buffer = c.socket.buffer := hframe.2.2.1
  have hused : (parse_step P c n).1.socket.used_size = c.socket.used_size + n :=
    hframe.2.2.2.1
  have hmc := milestone_check_frame t
    (compacted
      { (parse_step P c n).1 with
        socket := { (parse_step P c n).1.socket with parser := {} } }
      (parse_step P c n).2)
  have hct := compact_take
    { (parse_step P c n).1.socket with parser := {} } k (c.socket.used_size + n)
    c.socket.buffer hused hbuf hcap
  refine ⟨herr, hnp, ?_, ?_, ?_, ?_, ?_, ?_, ?_⟩
  · rw [hcall, hmc.2.2.1]
    rfl
  · rw [hcall, hmc.2.1, hnp]
    exact hct.2.2
  · rw [hcall, hmc.1, hnp]
    exact hct.1
  · rw [hcall, hmc.1, hnp]
    exact hct.2.1 hk
  · rw [hcall, hmc.2.2.2]
    show (parse_step P c n).1.socket.istate = .empty
    rw [hstep]
    rfl
  · rw [hcall, milestone_check_outcome, hnp]
    have hlen : (compacted
        { (parse_step P c n).1 with
          socket := { (parse_step P c n).1.socket with parser := {} } } k).socket.buffer.length
        = c.socket.buffer.length := hct.2.1 hk
    have hus : (compacted
        { (parse_step P c n).1 with
          socket := { (parse_step P c n).1.socket with parser := {} } } k).socket.used_size
        = c.socket.used_size + n - k := hct.2.2
    rw [hlen, hus]
    rfl
  · intro d hd hdu
    have hreq : async_read_request P d
        = on_async_read_message P .READY
            { d with
              method := [],
              path := [],
              socket := { d.socket with writer_helper := .finished } }
            .success 0 := by
      simp [async_read_request, schedule_on_async_read_message, hd, hdu]
    refine ⟨hreq, rfl, ?_⟩
    intro pre2 mid rest2 p1 p2 k1 k2 hrun2 hpre2 hp1 hmid
    have hrun3 : (P ({ d with
              method := [],
              path := [],
              socket := { d.socket with writer_helper := .finished } } : connection).socket.parser
          (({ d with
              method := [],
              path := [],
              socket := { d.socket with writer_helper := .finished } } : connection
            ).socket.buffer.take
            (({ d with
              method := [],
              path := [],
              socket := { d.socket with writer_helper := .finished } } : connection
            ).socket.used_size + 0))).steps
        = (pre2 ++ ⟨p1, .headers_complete, k1⟩ :: mid) ++ ⟨p2, .message_complete, k2⟩ :: rest2 := by
      rw [List.append_assoc]
      exact hrun2
    have hcont : ∀ step ∈ pre2 ++ ⟨p1, .headers_complete, k1⟩ :: mid,
        step.continues = true := by
      intro step hstep
      simp only [List.mem_append, List.mem_cons] at hstep
      rcases hstep with h | h | h
      · exact never_stops_continues step (hpre2 step h)
      · subst h
        simp [callback_step.continues, hp1]
      · exact within_message_continues step (hmid step h)
    have hstep2 := parse_step_message_complete P _ 0 _ rest2 p2 k2 hrun3 hcont
    have herr2 : (parse_step P
        { d with
          method := [],
          path := [],
          socket := { d.socket with writer_helper := .finished } } 0
        ).1.socket.parser.http_errno = .cb_message_complete := by
      rw [hstep2]
    rw [hreq, on_async_read_message_of_stop P .READY _ 0 herr2, milestone_check_outcome]
    have hready : milestone_reached .READY
        (compacted
          { (parse_step P
              { d with
                method := [],
                path := [],
                socket := { d.socket with writer_helper := .finished } } 0).1 with
            socket :=
              { (parse_step P
                  { d with
                    method := [],
                    path := [],
                    socket := { d.socket with writer_helper := .finished } } 0).1.socket with
                parser := {} } }
          (parse_step P
            { d with
              method := [],
              path := [],
              socket := { d.socket with writer_helper := .finished } } 0).2).socket.flags
        = true := by
      rw [hstep2]
      simp only [milestone_reached, compacted, compact, on_message_complete]
      have h1 := play_append
        { d with
          method := [],
          path := [],
          socket := { d.socket with writer_helper := .finished, used_size := d.socket.used_size + 0 } }
        (pre2 ++ [⟨p1, .headers_complete, k1⟩]) mid
      rw [List.append_assoc, List.singleton_append] at h1
      have h2 := play_within_message mid
        (play { d with
          method := [],
          path := [],
          socket := { d.socket with writer_helper := .finished, used_size := d.socket.used_size + 0 } }
          (pre2 ++ [⟨p1, .headers_complete, k1⟩])) hmid
      have h3 : (play { d with
          method := [],
          path := [],
          socket := { d.socket with writer_helper := .finished, used_size := d.socket.used_size + 0 } }
          (pre2 ++ [⟨p1, .headers_complete, k1⟩])).socket.flags.READY = true := by
        rw [play_append]
        simp [play, call_back, on_headers_complete, hp1]
        split_ifs <;> rfl
      rw [← h1, h3] at h2
      split_ifs <;> exact h2
    rw [if_pos hready]

/-- C18 at a concrete input: one transport read delivers two requests of 19
bytes; after the first read operation the second request is at the start of
the buffer, and the next `async_read_request` ends with success without a
transport read. -/
theorem message_complete_stop_retains_pipelined_bytes_witness :
    (on_async_read_message sample_pipeline_model .READY sample_pipelined_connection
        .success 38).1.socket.used_size = 19
      ∧ (on_async_read_message sample_pipeline_model .READY sample_pipelined_connection
          .success 38).1.socket.buffer.take 19 = "GET /b HTTP/1.1\r\n\r\n".toList
      ∧ (on_async_read_message sample_pipeline_model .READY sample_pipelined_connection
          .success 38).2 = .handler .success
      ∧ (async_read_request sample_pipeline_model
          (on_async_read_message sample_pipeline_model .READY sample_pipelined_connection
            .success 38).1).2 = .handler .success := by
  have h := message_complete_stop_retains_pipelined_bytes sample_pipeline_model .READY
    sample_pipelined_connection 38
    [⟨sample_parser_struct 1 1, .message_begin, 0⟩, ⟨sample_parser_struct 1 1, .headers_complete, 19⟩]
    [] (sample_parser_struct 1 1) 19 (by decide) (by decide) (by decide) (by decide)
  refine ⟨h.2.2.2.1.trans (by decide), h.2.2.2.2.1.trans (by decide),
    h.2.2.2.2.2.2.2.1.trans (by decide), ?_⟩
  exact (h.2.2.2.2.2.2.2.2 _ (by decide) (by decide)).2.2
    [⟨sample_parser_struct 1 1, .message_begin, 0⟩] [] [] (sample_parser_struct 1 1) (sample_parser_struct 1 1)
    19 19 (by decide) (by decide) (by decide) (by decide)

/-! ## Claims on the milestone check and on the version error -/

/-- C27: the literal written on version rejection is its header block, whose
Content-Length header reads 48, a blank line, and the body
`This server only supports HTTP/1.0 and HTTP/1.1` with a line feed, which is
exactly 48 bytes long. -/
theorem error_message_content_length :
    error_message
        = ("HTTP/1.1 505 HTTP Version Not Supported\r\n" ++ "Content-Length: ").toList
            ++ to_string error_message_body.length
            ++ ("\r\n" ++ "Connection: close\r\n" ++ "\r\n").toList
            ++ error_message_body
      ∧ error_message_body.length = 48
      ∧ to_string error_message_body.length = "48".toList
      ∧ read_number 10 "48".toList = 48 := by
  decide

/-- C24: the milestone check calls the handler with success exactly when the
target is READY and READY is set, or the target is DATA and DATA or END is
set, or the target is END and END is set. It then clears READY, or READY and
DATA, or READY, DATA and END, and otherwise leaves the flags as they are; the
bits HTTP_1_1, KEEP_ALIVE and UPGRADE are never changed, and nothing of the
connection but the flags is changed. -/
theorem milestone_check_flags (t : target) (c : connection) :
    ((milestone_check t c).2 = .handler .success
        ↔ (t = .READY ∧ c.socket.flags.READY = true)
          ∨ (t = .DATA ∧ (c.socket.flags.DATA = true ∨ c.socket.flags.END = true))
          ∨ (t = .END ∧ c.socket.flags.END = true))
      ∧ (t = .READY → c.socket.flags.READY = true →
          (milestone_check t c).1.socket.flags = { c.socket.flags with READY := false })
      ∧ (t = .DATA → (c.socket.flags.DATA = true ∨ c.socket.flags.END = true) →
          (milestone_check t c).1.socket.flags
            = { c.socket.flags with READY := false, DATA := false })
      ∧ (t = .END → c.socket.flags.END = true →
          (milestone_check t c).1.socket.flags
            = { c.socket.flags with READY := false, DATA := false, END := false })
      ∧ ((milestone_check t c).2 ≠ .handler .success →
          (milestone_check t c).1 = c)
      ∧ (milestone_check t c).1.socket.flags.HTTP_1_1 = c.socket.flags.HTTP_1_1
      ∧ (milestone_check t c).1.socket.flags.KEEP_ALIVE = c.socket.flags.KEEP_ALIVE
      ∧ (milestone_check t c).1.socket.flags.UPGRADE = c.socket.flags.UPGRADE
      ∧ (milestone_check t c).1
          = { c with
              socket := { c.socket with flags := (milestone_check t c).1.socket.flags } } := by
  cases t <;> cases hr : c.socket.flags.READY <;> cases hd : c.socket.flags.DATA <;>
    cases he : c.socket.flags.END <;>
    simp [milestone_check, hr, hd, he] <;>
    (try split_ifs) <;> simp

/-- C24 at concrete inputs: with HTTP_1_1, KEEP_ALIVE, READY and END set a
read with target READY clears READY only. -/
theorem milestone_check_flags_witness :
    (milestone_check .READY
        { socket :=
            { flags := { HTTP_1_1 := true, READY := true, END := true, KEEP_ALIVE := true } } }
      ).1.socket.flags
      = { HTTP_1_1 := true, END := true, KEEP_ALIVE := true } :=
  (milestone_check_flags .READY
    { socket :=
        { flags := { HTTP_1_1 := true, READY := true, END := true, KEEP_ALIVE := true } } }).2.1
    rfl rfl

/-! ## Claims on headers-complete -/

theorem call_back_method (c : connection) (p : http_parser_struct) (e : parser_event)
    (h : e ≠ .headers_complete) : (call_back c p e).1.method = c.method := by
  cases e <;> first
    | exact absurd rfl h
    | (simp only [call_back, on_message_begin, on_url, on_header_field, on_header_value,
        on_body, on_message_complete] <;> (try split_ifs) <;> rfl)

theorem play_method (steps : List callback_step) :
    ∀ c : connection, (∀ step ∈ steps, step.event ≠ .headers_complete) →
      (play c steps).method = c.method := by
  induction steps with
  | nil => intro c _; rfl
  | cons step rest ih =>
    intro c h
    have h1 := call_back_method c step.parser step.event (h step (by simp))
    have h2 := ih (call_back c step.parser step.event).1 (fun st hst => h st (by simp [hst]))
    simp only [play, List.foldl_cons] at h2 ⊢
    rw [h2, h1]

theorem run_callbacks_method (steps : List callback_step) :
    ∀ (c : connection) (fin : http_parser_struct) (n : Nat),
      (∀ step ∈ steps, step.event ≠ .headers_complete) →
      (run_callbacks c steps fin n).1.method = c.method := by
  induction steps with
  | nil => intro c fin n _; rfl
  | cons step rest ih =>
    intro c fin n h
    have h1 := call_back_method c step.parser step.event (h step (by simp))
    simp only [run_callbacks]
    split
    · exact h1
    · exact (ih _ fin n (fun st hst => h st (by simp [hst]))).trans h1

theorem on_headers_complete_method (c : connection) (p : http_parser_struct) :
    (on_headers_complete c p).1.method = c.method ++ methods.getD p.method []
      ∧ (on_headers_complete c p).1.socket.connect_request = (p.method == 5) := by
  simp only [on_headers_complete]
  split_ifs <;> exact ⟨rfl, rfl⟩

theorem methods_lookup :
    ∀ i, i < 33 → ∃ token, methods[i]? = some token ∧ methods.getD i [] = token
      ∧ token ≠ [] ∧ (token = "CONNECT".toList ↔ i = 5) := by
  decide

/-- C23: the table of headers-complete has the 33 names from DELETE to UNLINK
in the stated order. For a method index below 33 the lookup is inside the
table, headers-complete appends exactly the name at that index to the
caller's method, and `connect_request` is set iff that name is `CONNECT`,
which is the case for index 5 only. `async_read_request` hands the driver a
connection with an empty method, and in a parser run that reaches
headers-complete once the method then is that single name. -/
theorem method_token_appended (c : connection) (p : http_parser_struct)
    (hmethod : p.method < 33) :
    methods.map String.mk
        = ["DELETE", "GET", "HEAD", "POST", "PUT", "CONNECT", "OPTIONS", "TRACE", "COPY",
           "LOCK", "MKCOL", "MOVE", "PROPFIND", "PROPPATCH", "SEARCH", "UNLOCK", "BIND",
           "REBIND", "UNBIND", "ACL", "REPORT", "MKACTIVITY", "CHECKOUT", "MERGE",
           "M-SEARCH", "NOTIFY", "SUBSCRIBE", "UNSUBSCRIBE", "PATCH", "PURGE", "MKCALENDAR",
           "LINK", "UNLINK"]
      ∧ methods.length = 33
      ∧ (∃ token : Str,
          methods[p.method]? = some token
            ∧ (on_headers_complete c p).1.method = c.method ++ token
            ∧ ((on_headers_complete c p).1.socket.connect_request = true
                ↔ token = "CONNECT".toList)
            ∧ (token = "CONNECT".toList ↔ p.method = 5)
            ∧ (∀ (P : parser_model) (d : connection), d.socket.istate = .empty →
                ∃ d2 : connection,
                  async_read_request P d = schedule_on_async_read_message P .READY d2
                    ∧ d2.method = []
                    ∧ ∀ (pre rest : List callback_step) (k : Nat)
                        (fin : http_parser_struct) (n : Nat),
                        (∀ step ∈ pre, step.event.never_stops = true) →
                        (∀ step ∈ rest, step.event ≠ .headers_complete) →
                        (run_callbacks d2 (pre ++ ⟨p, .headers_complete, k⟩ :: rest) fin n
                          ).1.method = token)) := by
  obtain ⟨token, hget, hgetD, _, hconnect⟩ := methods_lookup p.method hmethod
  have hm := on_headers_complete_method
  refine ⟨by decide, by decide, token, hget, ?_, ?_, hconnect, ?_⟩
  · rw [(hm c p).1, hgetD]
  · rw [(hm c p).2, hconnect]
    simp
  · intro P d hd
    refine ⟨{ d with
              method := [],
              path := [],
              socket := { d.socket with writer_helper := .finished } }, ?_, rfl, ?_⟩
    · simp [async_read_request, hd]
    · intro pre rest k fin n hpre hrest
      rw [run_callbacks_append pre _ _ fin n
        (fun st hst => never_stops_continues st (hpre st hst))]
      have hplay : (play
          ({ d with
              method := [],
              path := [],
              socket := { d.socket with writer_helper := .finished } } : connection)
          pre).method = [] := by
        rw [play_method pre _ (fun st hst heq => by
          have := hpre st hst
          rw [heq] at this
          exact absurd this (by decide))]
      simp only [run_callbacks, call_back]
      split
      · simp only []
        rw [(hm _ p).1, hplay, hgetD]
        rfl
      · rw [run_callbacks_method rest _ fin n hrest, (hm _ p).1, hplay, hgetD]
        rfl

/-- C23 at a concrete input: the method index 5 on a connection with an empty
method gives the method `CONNECT` and sets `connect_request`. -/
theorem method_token_appended_witness :
    (on_headers_complete sample_connection
        { sample_parser_struct 1 1 with method := 5 }).1.method = "CONNECT".toList
      ∧ (on_headers_complete sample_connection
          { sample_parser_struct 1 1 with method := 5 }).1.socket.connect_request = true := by
  obtain ⟨token, hget, happ, hconn, hidx, _⟩ :=
    (method_token_appended sample_connection { sample_parser_struct 1 1 with method := 5 }
      (by decide)).2.2
  have htoken : token = "CONNECT".toList := hidx.mpr rfl
  exact ⟨by rw [happ, htoken]; rfl, hconn.mpr htoken⟩

theorem call_back_in_preamble (c : connection) (p : http_parser_struct) (e : parser_event)
    (h : e.in_preamble = true) :
    (call_back c p e).1.socket.flags = c.socket.flags := by
  cases e <;> simp [parser_event.in_preamble] at h
  · rfl
  · simp only [call_back, on_header_field]
    split_ifs <;> rfl
  · rfl

theorem play_in_preamble (steps : List callback_step) :
    ∀ c : connection, (∀ step ∈ steps, step.event.in_preamble = true) →
      (play c steps).socket.flags = c.socket.flags := by
  induction steps with
  | nil => intro c _; rfl
  | cons step rest ih =>
    intro c h
    have h1 := call_back_in_preamble c step.parser step.event (h step (by simp))
    have h2 := ih (call_back c step.parser step.event).1 (fun st hst => h st (by simp [hst]))
    simp only [play, List.foldl_cons] at h2 ⊢
    rw [h2, h1]

theorem in_preamble_continues (step : callback_step)
    (h : step.event.in_preamble = true) : step.continues = true := by
  obtain ⟨p, e, k⟩ := step
  cases e <;> simp [parser_event.in_preamble] at h <;> rfl

theorem on_headers_complete_state (c : connection) (p : http_parser_struct)
    (hmajor : p.http_major = 1) :
    (on_headers_complete c p).2 = 0
      ∧ (on_headers_complete c p).1.socket.istate = .message_ready
      ∧ (on_headers_complete c p).1.socket.writer_helper = .empty
      ∧ (on_headers_complete c p).1.socket.use_trailers = true
      ∧ (on_headers_complete c p).1.socket.last_header = ([], [])
      ∧ (on_headers_complete c p).1.socket.flags
          = { c.socket.flags with
              HTTP_1_1 := c.socket.flags.HTTP_1_1 || decide (p.http_minor ≠ 0),
              READY := true,
              KEEP_ALIVE := c.socket.flags.KEEP_ALIVE || p.should_keep_alive } := by
  by_cases hm : p.http_minor = 0 <;> cases hk : p.should_keep_alive <;>
    simp [on_headers_complete, hmajor, hm, hk]

/-- C22: in a parser run of a request with major version 1 in which
headers-complete follows message-begin, with only URL, header-name and
header-value fragments between them, headers-complete leaves the read state
`message_ready`, READY set, the write state `empty`, `use_trailers` true and
the header scratchpad empty; HTTP_1_1 is set iff the minor version is not 0,
so `write_response_native_stream()` is true exactly then; KEEP_ALIVE is set
iff the parser reports that keep-alive is permitted; DATA, END and UPGRADE are
unset. -/
theorem headers_complete_state (c : connection) (p0 p fin : http_parser_struct)
    (mid : List callback_step) (k0 k n : Nat)
    (hmajor : p.http_major = 1)
    (hmid : ∀ step ∈ mid, step.event.in_preamble = true) :
    (run_callbacks c (⟨p0, .message_begin, k0⟩ :: (mid ++ [⟨p, .headers_complete, k⟩])) fin n
        ).1.socket.istate = .message_ready
      ∧ (run_callbacks c (⟨p0, .message_begin, k0⟩ :: (mid ++ [⟨p, .headers_complete, k⟩]))
          fin n).1.socket.flags
          = { HTTP_1_1 := decide (p.http_minor ≠ 0), READY := true, DATA := false,
              END := false, KEEP_ALIVE := p.should_keep_alive, UPGRADE := false }
      ∧ (run_callbacks c (⟨p0, .message_begin, k0⟩ :: (mid ++ [⟨p, .headers_complete, k⟩]))
          fin n).1.socket.writer_helper = .empty
      ∧ (run_callbacks c (⟨p0, .message_begin, k0⟩ :: (mid ++ [⟨p, .headers_complete, k⟩]))
          fin n).1.socket.use_trailers = true
      ∧ (run_callbacks c (⟨p0, .message_begin, k0⟩ :: (mid ++ [⟨p, .headers_complete, k⟩]))
          fin n).1.socket.last_header = ([], [])
      ∧ ((run_callbacks c (⟨p0, .message_begin, k0⟩ :: (mid ++ [⟨p, .headers_complete, k⟩]))
            fin n).1.socket.write_response_native_stream = true
          ↔ p.http_minor ≠ 0)
      ∧ ((run_callbacks c (⟨p0, .message_begin, k0⟩ :: (mid ++ [⟨p, .headers_complete, k⟩]))
            fin n).1.socket.flags.KEEP_ALIVE = true
          ↔ p.should_keep_alive = true) := by
  have hcont : ∀ step ∈ (⟨p0, .message_begin, k0⟩ :: (mid ++ [⟨p, .headers_complete, k⟩])),
      step.continues = true := by
    intro step hstep
    simp only [List.mem_cons, List.mem_append, List.mem_singleton] at hstep
    rcases hstep with h | h | h
    · subst h; rfl
    · exact in_preamble_continues step (hmid step h)
    · rcases h with h | h
      · subst h
        simp [callback_step.continues, hmajor]
      · cases h
  have hrun := run_callbacks_append _ c [] fin n hcont
  rw [List.append_nil] at hrun
  have hplay : play c (⟨p0, .message_begin, k0⟩ :: (mid ++ [⟨p, .headers_complete, k⟩]))
      = (on_headers_complete (play (on_message_begin c p0).1 mid) p).1 := by
    simp [play, List.foldl_append, call_back]
  have hflags : (play (on_message_begin c p0).1 mid).socket.flags = {} := by
    rw [play_in_preamble mid _ hmid]
    rfl
  have hstate := on_headers_complete_state (play (on_message_begin c p0).1 mid) p hmajor
  rw [hrun]
  simp only [run_callbacks, hplay]
  have hf : (on_headers_complete (play (on_message_begin c p0).1 mid) p).1.socket.flags
      = { HTTP_1_1 := decide (p.http_minor ≠ 0), READY := true, DATA := false,
          END := false, KEEP_ALIVE := p.should_keep_alive, UPGRADE := false } := by
    rw [hstate.2.2.2.2.2, hflags]
    simp
  refine ⟨hstate.2.1, hf, hstate.2.2.1, hstate.2.2.2.1, hstate.2.2.2.2.1, ?_, ?_⟩
  · simp only [basic_socket.write_response_native_stream]
    rw [hf]
    simp
  · rw [hf]

/-- C22 at a concrete input: the sample request of version 1.0 with
keep-alive permitted. -/
theorem headers_complete_state_witness :
    (run_callbacks sample_connection
        (⟨sample_parser_struct 1 0, .message_begin, 0⟩
          :: ([⟨sample_parser_struct 1 0, .url "/x".toList, 0⟩]
              ++ [⟨sample_parser_struct 1 0, .headers_complete, 0⟩]))
        (sample_parser_struct 1 0) 0).1.socket.flags
      = { READY := true, KEEP_ALIVE := true } :=
  (headers_complete_state sample_connection (sample_parser_struct 1 0)
    (sample_parser_struct 1 0) (sample_parser_struct 1 0)
    [⟨sample_parser_struct 1 0, .url "/x".toList, 0⟩] 0 0 0 (by decide) (by decide)).2.1

/-- A header-field event whose scratchpad holds an empty value appends
its fragment, in lowercase, to the pending name and starts no new header; only
with a non-empty pending value does it start a new header with the fragment
as name. So on a connection with an empty scratchpad the events message-begin,
field `A`, field `B`, value `x`, headers-complete of a request with major
version 1 leave the single header `ab: x`, and no header named `a` or `b`. -/
theorem header_field_after_empty_value (c : connection) (p fin : http_parser_struct)
    (k n : Nat)
    (hlast : c.socket.last_header = ([], [])) (hmajor : p.http_major = 1) :
    (∀ (d : connection) (q : http_parser_struct) (data : Str),
        d.socket.last_header.2 = [] →
        (on_header_field d q data).1
          = { d with
              socket :=
                { d.socket with
                  last_header := (d.socket.last_header.1 ++ data.map Char.toLower, []) } })
      ∧ (∀ (d : connection) (q : http_parser_struct) (data : Str),
          d.socket.last_header.2 ≠ [] →
          (on_header_field d q data).1.socket.last_header = (data.map Char.toLower, []))
      ∧ (run_callbacks c
          [⟨p, .message_begin, 0⟩, ⟨p, .header_field "A".toList, 0⟩,
           ⟨p, .header_field "B".toList, 0⟩, ⟨p, .header_value "x".toList, 0⟩,
           ⟨p, .headers_complete, k⟩] fin n).1.message.headers
          = [("ab".toList, "x".toList)]
      ∧ (∀ kv ∈ (run_callbacks c
          [⟨p, .message_begin, 0⟩, ⟨p, .header_field "A".toList, 0⟩,
           ⟨p, .header_field "B".toList, 0⟩, ⟨p, .header_value "x".toList, 0⟩,
           ⟨p, .headers_complete, k⟩] fin n).1.message.headers,
          kv.1 ≠ "a".toList ∧ kv.1 ≠ "b".toList) := by
  have hrun : (run_callbacks c
      [⟨p, .message_begin, 0⟩, ⟨p, .header_field "A".toList, 0⟩,
       ⟨p, .header_field "B".toList, 0⟩, ⟨p, .header_value "x".toList, 0⟩,
       ⟨p, .headers_complete, k⟩] fin n).1.message.headers
      = [("ab".toList, "x".toList)] := by
    have h := headers_of_request c p [(["A".toList, "B".toList], ["x".toList])] k fin n hlast
      hmajor (by decide)
    have hform : ((([(["A".toList, "B".toList], ["x".toList])] :
        List (List Str × List Str)).map assembled).map stored_form)
        = [("ab".toList, "x".toList)] := by decide
    have hpass : passes_suppression p "ab".toList = true := by
      have h2 : (decide ("ab".toList ≠ "expect".toList)
          && decide ("ab".toList ≠ "upgrade".toList)) = true := by decide
      unfold passes_suppression
      rw [h2, Bool.or_true]
    rw [hform, List.filter_cons, List.filter_nil] at h
    simp only [hpass, if_true] at h
    have herase : erase_repeated_expect [("ab".toList, "x".toList)]
        = [("ab".toList, "x".toList)] := by decide
    rw [herase] at h
    exact h
  refine ⟨?_, ?_, hrun, ?_⟩
  · intro d q data hv
    simp [on_header_field, hv]
  · intro d q data hv
    have hlen : d.socket.last_header.2.length ≠ 0 := by
      intro h0
      exact hv (List.length_eq_zero.mp h0)
    simp only [on_header_field]
    rw [if_pos hlen]
  · rw [hrun]
    decide

/-- On the sample connection, whose scratchpad is empty, the events
message-begin, field `A`, field `B`, value `x`, headers-complete of an
HTTP/1.1 request leave the single header `ab: x`. -/
theorem header_field_after_empty_value_witness :
    (run_callbacks sample_connection
        [⟨sample_parser_struct 1 1, .message_begin, 0⟩,
         ⟨sample_parser_struct 1 1, .header_field "A".toList, 0⟩,
         ⟨sample_parser_struct 1 1, .header_field "B".toList, 0⟩,
         ⟨sample_parser_struct 1 1, .header_value "x".toList, 0⟩,
         ⟨sample_parser_struct 1 1, .headers_complete, 0⟩]
        (sample_parser_struct 1 1) 0).1.message.headers
      = [("ab".toList, "x".toList)] :=
  (header_field_after_empty_value sample_connection (sample_parser_struct 1 1)
    (sample_parser_struct 1 1) 0 0 (by decide) (by decide)).2.2.1

/-! ## Claims on the fragmentation of the parser events -/

theorem play_url_steps (p : http_parser_struct) (fragments : List Str) :
    ∀ c : connection,
      play c (url_steps p fragments) = { c with path := c.path ++ fragments.flatten } := by
  induction fragments with
  | nil => intro c; simp [play, url_steps]
  | cons f rest ih =>
    intro c
    have h := ih (call_back c p (.url f)).1
    simp only [play, url_steps, List.map_cons, List.foldl_cons] at h ⊢
    rw [h]
    simp [call_back, on_url]

theorem url_steps_continues (p : http_parser_struct) (fragments : List Str) :
    ∀ step ∈ url_steps p fragments, step.continues = true := by
  intro step h
  simp only [url_steps, List.mem_map] at h
  obtain ⟨f, _, rfl⟩ := h
  rfl

theorem body_steps_continues (p : http_parser_struct) (pieces : List (Str × Bool)) :
    ∀ step ∈ body_steps p pieces, step.continues = true := by
  intro step h
  simp only [body_steps, List.mem_map] at h
  obtain ⟨f, _, rfl⟩ := h
  rfl

theorem run_callbacks_same_play (c : connection) (pre1 pre2 rest : List callback_step)
    (fin : http_parser_struct) (n : Nat)
    (h1 : ∀ step ∈ pre1, step.continues = true) (h2 : ∀ step ∈ pre2, step.continues = true)
    (hplay : play c pre1 = play c pre2) :
    run_callbacks c (pre1 ++ rest) fin n = run_callbacks c (pre2 ++ rest) fin n := by
  rw [run_callbacks_append pre1 c rest fin n h1, run_callbacks_append pre2 c rest fin n h2,
    hplay]

theorem run_callbacks_same_step (c : connection) (step : callback_step)
    (rest1 rest2 : List callback_step) (fin : http_parser_struct) (n : Nat)
    (h : ∀ d : connection, run_callbacks d rest1 fin n = run_callbacks d rest2 fin n) :
    run_callbacks c (step :: rest1) fin n = run_callbacks c (step :: rest2) fin n := by
  simp only [run_callbacks]
  rw [h]

/-- C28: the callbacks give the same result whatever the fragmentation of the
parser events. For a whole request (message-begin, URL events, header block,
headers-complete, body events, trailer block, message-complete) in which the
URL, the name and the value of each header and of each trailer arrive in any
number of consecutive fragments, with at least one event for each name, the
run of the callbacks ends in the same connection, so with the same path, the
same `message.headers` and the same `message.trailers`, and with the same
number of consumed bytes, as the run in which the URL and each name and each
value arrive whole, in a single event. -/
theorem fragmentation_independent (c : connection) (p fin : http_parser_struct)
    (url : List Str) (headers trailers : List (List Str × List Str))
    (body : List (Str × Bool)) (k n : Nat)
    (hheaders : ∀ h ∈ headers, h.1 ≠ []) (htrailers : ∀ h ∈ trailers, h.1 ≠ []) :
    run_callbacks c
        (request_steps p (url_steps p url) (fragmented_block p headers) body
          (fragmented_block p trailers) k) fin n
      = run_callbacks c
          (request_steps p (url_steps p [url.flatten])
            (header_block p (headers.map assembled)) body
            (header_block p (trailers.map assembled)) k) fin n := by
  unfold request_steps
  have hcont1 : ∀ step ∈ (⟨p, .message_begin, 0⟩ ::
      (url_steps p url ++ fragmented_block p headers) : List callback_step),
      step.continues = true := by
    intro step h
    simp only [List.mem_cons, List.mem_append] at h
    rcases h with h | h | h
    · subst h; rfl
    · exact url_steps_continues p url step h
    · exact fragmented_block_continues p headers step h
  have hcont2 : ∀ step ∈ (⟨p, .message_begin, 0⟩ ::
      (url_steps p [url.flatten] ++ header_block p (headers.map assembled)) :
        List callback_step),
      step.continues = true := by
    intro step h
    simp only [List.mem_cons, List.mem_append] at h
    rcases h with h | h | h
    · subst h; rfl
    · exact url_steps_continues p _ step h
    · exact header_block_continues p _ step h
  have hplay : play c (⟨p, .message_begin, 0⟩ ::
      (url_steps p url ++ fragmented_block p headers))
      = play c (⟨p, .message_begin, 0⟩ ::
          (url_steps p [url.flatten] ++ header_block p (headers.map assembled))) := by
    have hcons : ∀ (x : callback_step) (xs : List callback_step),
        play c (x :: xs) = play (play c [x]) xs := fun x xs => play_append c [x] xs
    rw [hcons _ (url_steps p url ++ _), hcons _ (url_steps p [url.flatten] ++ _),
      play_append, play_append, play_url_steps, play_url_steps,
      play_fragmented_block p headers _ hheaders]
    simp
  refine Eq.trans (run_callbacks_same_play c _ _ _ fin n hcont1 hcont2 hplay) ?_
  rw [run_callbacks_append _ c _ fin n hcont2, run_callbacks_append _ c _ fin n hcont2]
  refine run_callbacks_same_step _ _ _ _ fin n ?_
  intro d
  have hb1 : ∀ step ∈ body_steps p body ++ fragmented_block p trailers,
      step.continues = true := by
    intro step h
    rcases List.mem_append.mp h with h | h
    · exact body_steps_continues p body step h
    · exact fragmented_block_continues p trailers step h
  have hb2 : ∀ step ∈ body_steps p body ++ header_block p (trailers.map assembled),
      step.continues = true := by
    intro step h
    rcases List.mem_append.mp h with h | h
    · exact body_steps_continues p body step h
    · exact header_block_continues p _ step h
  refine run_callbacks_same_play d _ _ _ fin n hb1 hb2 ?_
  rw [play_append, play_append, play_fragmented_block p trailers _ htrailers]

/-- C28 at a concrete input: a request whose URL, header and trailer arrive in
two fragments each gives the path `/ab`, the header `host: h1` and the trailer
`x-t: 42`, as when they arrive whole. -/
theorem fragmentation_independent_witness :
    run_callbacks sample_connection
        (request_steps (sample_parser_struct 1 1)
          (url_steps (sample_parser_struct 1 1) ["/a".toList, "b".toList])
          (fragmented_block (sample_parser_struct 1 1)
            [(["Ho".toList, "st".toList], ["h".toList, "1".toList])])
          [("body".toList, true)]
          (fragmented_block (sample_parser_struct 1 1)
            [(["X-".toList, "T".toList], ["4".toList, "2".toList])]) 7)
        (sample_parser_struct 1 1) 7
      = run_callbacks sample_connection
          (request_steps (sample_parser_struct 1 1)
            (url_steps (sample_parser_struct 1 1)
              [["/a".toList, "b".toList].flatten])
            (header_block (sample_parser_struct 1 1)
              ([(["Ho".toList, "st".toList], ["h".toList, "1".toList])].map assembled))
            [("body".toList, true)]
            (header_block (sample_parser_struct 1 1)
              ([(["X-".toList, "T".toList], ["4".toList, "2".toList])].map assembled)) 7)
          (sample_parser_struct 1 1) 7
      ∧ (run_callbacks sample_connection
          (request_steps (sample_parser_struct 1 1)
            (url_steps (sample_parser_struct 1 1) ["/a".toList, "b".toList])
            (fragmented_block (sample_parser_struct 1 1)
              [(["Ho".toList, "st".toList], ["h".toList, "1".toList])])
            [("body".toList, true)]
            (fragmented_block (sample_parser_struct 1 1)
              [(["X-".toList, "T".toList], ["4".toList, "2".toList])]) 7)
          (sample_parser_struct 1 1) 7).1.path = "/ab".toList
      ∧ (run_callbacks sample_connection
          (request_steps (sample_parser_struct 1 1)
            (url_steps (sample_parser_struct 1 1) ["/a".toList, "b".toList])
            (fragmented_block (sample_parser_struct 1 1)
              [(["Ho".toList, "st".toList], ["h".toList, "1".toList])])
            [("body".toList, true)]
            (fragmented_block (sample_parser_struct 1 1)
              [(["X-".toList, "T".toList], ["4".toList, "2".toList])]) 7)
          (sample_parser_struct 1 1) 7).1.message
        = { headers := [("host".toList, "h1".toList)], body := "body".toList,
            trailers := [("x-t".toList, "42".toList)] } :=
  ⟨fragmentation_independent sample_connection (sample_parser_struct 1 1)
      (sample_parser_struct 1 1) ["/a".toList, "b".toList]
      [(["Ho".toList, "st".toList], ["h".toList, "1".toList])]
      [(["X-".toList, "T".toList], ["4".toList, "2".toList])]
      [("body".toList, true)] 7 7 (by decide) (by decide),
    by decide, by decide⟩

/-! ## Claim on the chunked stream as a whole -/

theorem strip_crlf_crlf (rest : Str) : strip_crlf (crlf ++ rest) = some rest := by
  simp [strip_crlf, crlf]

theorem take_while_hex_crlf (rest : Str) :
    (crlf ++ rest).takeWhile is_lower_hex_digit = []
      ∧ (crlf ++ rest).dropWhile is_lower_hex_digit = crlf ++ rest := by
  have h : is_lower_hex_digit '\r' = false := by decide
  constructor
  · show List.takeWhile is_lower_hex_digit ('\r' :: '\n' :: rest) = []
    rw [List.takeWhile_cons, h]
    rfl
  · show List.dropWhile is_lower_hex_digit ('\r' :: '\n' :: rest) = '\r' :: '\n' :: rest
    rw [List.dropWhile_cons, h]
    rfl

theorem decode_chunked_last (fuel : Nat) :
    decode_chunked (fuel + 1) "0\r\n\r\n".toList = some [] := by
  rfl

theorem decode_chunked_frame (fuel : Nat) (b tail : Str) (hb : b ≠ []) :
    decode_chunked (fuel + 1) (chunk_frame b ++ tail)
      = (decode_chunked fuel tail).map (fun data => b ++ data) := by
  have hlen : 0 < b.length := List.length_pos.mpr hb
  obtain ⟨d, ds, hhex, _⟩ := hex_digits_head_ne_zero b.length hlen
  have hne : hex_digits b.length ≠ [] := by rw [hhex]; simp
  have hshape : chunk_frame b ++ tail
      = hex_digits b.length ++ (crlf ++ (b ++ (crlf ++ tail))) := by
    simp [chunk_frame, List.append_assoc]
  have htake : (chunk_frame b ++ tail).takeWhile is_lower_hex_digit = hex_digits b.length := by
    rw [hshape, List.takeWhile_append_of_pos (hex_digits_all_lower_hex _),
      (take_while_hex_crlf _).1, List.append_nil]
  have hdrop : (chunk_frame b ++ tail).dropWhile is_lower_hex_digit
      = crlf ++ (b ++ (crlf ++ tail)) := by
    rw [hshape, List.dropWhile_append_of_pos (hex_digits_all_lower_hex _),
      (take_while_hex_crlf _).2]
  have hsize : ¬ (b ++ (crlf ++ tail)).length < b.length := by
    simp
  have hdata : (b ++ (crlf ++ tail)).take b.length = b := scratch_front b _
  have hrest : (b ++ (crlf ++ tail)).drop b.length = crlf ++ tail :=
    List.drop_left b _
  simp only [decode_chunked]
  rw [htake, hdrop, strip_crlf_crlf, read_number_hex_digits]
  simp only [hne, if_false, Nat.pos_iff_ne_zero.mp hlen, hsize, hdata, hrest, strip_crlf_crlf]

theorem chunked_stream_cons (b : Str) (bodies : List Str) :
    chunked_stream (b :: bodies) = chunk_frame b ++ chunked_stream bodies := by
  simp [chunked_stream]

theorem decode_chunked_frames (bodies : List Str) (hne : ∀ b ∈ bodies, b ≠ []) :
    ∀ fuel, bodies.length < fuel →
      decode_chunked fuel (chunked_stream bodies) = some bodies.flatten := by
  induction bodies with
  | nil =>
    intro fuel hfuel
    obtain ⟨f, rfl⟩ : ∃ f, fuel = f + 1 := ⟨fuel - 1, by omega⟩
    exact decode_chunked_last f
  | cons b rest ih =>
    intro fuel hfuel
    obtain ⟨f, rfl⟩ : ∃ f, fuel = f + 1 := ⟨fuel - 1, by omega⟩
    rw [chunked_stream_cons, decode_chunked_frame f b _ (hne b (by simp)),
      ih (fun x hx => hne x (by simp [hx])) f (by simpa using hfuel)]
    simp

theorem chunked_stream_length (bodies : List Str) :
    bodies.length < (chunked_stream bodies).length := by
  induction bodies with
  | nil => decide
  | cons b rest ih =>
    rw [chunked_stream_cons, List.length_append, List.length_cons]
    have h : 0 < (chunk_frame b).length := by
      simp [chunk_frame, crlf]
    omega

theorem nonempty_bodies_spec (messages : List Message) :
    (∀ b ∈ nonempty_bodies messages, b ≠ [])
      ∧ (nonempty_bodies messages).flatten = (messages.map Message.body).flatten
      ∧ (nonempty_bodies messages).length ≤ messages.length := by
  refine ⟨?_, ?_, ?_⟩
  · intro b hb
    simp only [nonempty_bodies, List.mem_filter] at hb
    intro h0
    rw [h0] at hb
    simp at hb
  · induction messages with
    | nil => rfl
    | cons m rest ih =>
      simp only [nonempty_bodies, List.map_cons, List.filter_cons] at ih ⊢
      cases hm : m.body with
      | nil => simpa using ih
      | cons x xs => simpa using ih
  · simp only [nonempty_bodies]
    exact (List.length_filter_le _ _).trans (by simp)

theorem async_write_streams (s : basic_socket) (m : Message)
    (hw : s.writer_helper = .metadata_issued ∨ s.writer_helper = .chunked_body)
    (hlocale : s.global_locale.grouping = []) :
    (run_to_completion (async_write s m)).writer_helper = .chunked_body
      ∧ (run_to_completion (async_write s m)).global_locale = s.global_locale
      ∧ (run_to_completion (async_write s m)).channel.output
          = s.channel.output ++ (async_write s m).2.bytes
      ∧ (async_write s m).2.bytes = (if m.body = [] then [] else chunk_frame m.body)
      ∧ (async_write s m).2.out_of_order = false := by
  have hnext : writer_helper.write s.writer_helper = some .chunked_body := by
    rcases hw with h | h <;> rw [h] <;> rfl
  by_cases hb : m.body = []
  · simp [async_write, hnext, hb, run_to_completion, started.bytes, started.out_of_order]
  · have hlen : m.body.length ≠ 0 := fun h0 => hb (List.length_eq_zero.mp h0)
    simp [async_write, hnext, hb, hlen, run_to_completion, on_write_complete, Channel.write,
      started.bytes, started.out_of_order, chunk_frame, to_hex_ungrouped _ hlocale]

theorem write_chunks_stream (messages : List Message) :
    ∀ s : basic_socket,
      (s.writer_helper = .metadata_issued ∨ s.writer_helper = .chunked_body) →
      s.global_locale.grouping = [] →
      ((write_chunks s messages).1.writer_helper = .metadata_issued
          ∨ (write_chunks s messages).1.writer_helper = .chunked_body)
        ∧ (write_chunks s messages).1.channel.output
            = s.channel.output ++ written (write_chunks s messages).2
        ∧ written (write_chunks s messages).2
            = ((nonempty_bodies messages).map chunk_frame).flatten
        ∧ ∀ x ∈ (write_chunks s messages).2, x.out_of_order = false := by
  induction messages with
  | nil =>
    intro s hw _
    simp [write_chunks, written, nonempty_bodies, hw]
  | cons m rest ih =>
    intro s hw hlocale
    obtain ⟨h1, hl, h2, h3, h4⟩ := async_write_streams s m hw hlocale
    obtain ⟨i1, i2, i3, i4⟩ := ih (run_to_completion (async_write s m)) (Or.inr h1)
      (by rw [hl]; exact hlocale)
    refine ⟨i1, ?_, ?_, ?_⟩
    · simp only [write_chunks, written, List.map_cons, List.flatten_cons] at i2 ⊢
      rw [i2, h2, List.append_assoc]
    · simp only [write_chunks, written, List.map_cons, List.flatten_cons] at i3 ⊢
      rw [i3, h3]
      cases hm : m.body with
      | nil => simp [nonempty_bodies, hm]
      | cons x xs => simp [nonempty_bodies, hm]
    · intro x hx
      simp only [write_chunks, List.mem_cons] at hx
      rcases hx with hx | hx
      · rw [hx]; exact h4
      · exact i4 x hx

theorem write_chunked_body_stream (s : basic_socket) (messages : List Message)
    (hw : s.writer_helper = .metadata_issued ∨ s.writer_helper = .chunked_body)
    (hlocale : s.global_locale.grouping = []) :
    (∀ x ∈ (write_chunked_body s messages).2, x.out_of_order = false)
      ∧ written (write_chunked_body s messages).2
          = chunked_stream (nonempty_bodies messages)
      ∧ (write_chunked_body s messages).1.channel.output
          = s.channel.output ++ written (write_chunked_body s messages).2 := by
  obtain ⟨i1, i2, i3, i4⟩ := write_chunks_stream messages s hw hlocale
  have hend : async_write_end_of_message (write_chunks s messages).1
      = ({ (write_chunks s messages).1 with writer_helper := .finished },
          .async_write ["0\r\n\r\n".toList] .keep_alive_then_handler) := by
    rcases i1 with h | h <;> simp [async_write_end_of_message, h, writer_helper.end_]
  refine ⟨?_, ?_, ?_⟩
  · intro x hx
    simp only [write_chunked_body, List.mem_append, List.mem_singleton] at hx
    rcases hx with hx | hx
    · exact i4 x hx
    · rw [hx, hend]; rfl
  · simp only [write_chunked_body, hend, written, List.map_append, List.flatten_append] at i3 ⊢
    rw [i3]
    simp [chunked_stream, started.bytes]
  · simp only [write_chunked_body, hend, written, List.map_append, List.flatten_append] at i2 ⊢
    simp only [run_to_completion, on_write_complete]
    split_ifs <;> simp [Channel.write, Channel.close, i2, started.bytes, written]

theorem metadata_accepted_state (s0 : basic_socket) (status_code : Nat) (reason_phrase : Str)
    (m0 : Message) (buffers : List Str) (k : completion)
    (haccept : (async_write_response_metadata s0 status_code reason_phrase m0).2
      = .async_write buffers k) :
    (run_to_completion (async_write_response_metadata s0 status_code reason_phrase m0)
      ).writer_helper = .metadata_issued
      ∧ (run_to_completion (async_write_response_metadata s0 status_code reason_phrase m0)
          ).global_locale = s0.global_locale := by
  cases hnext : writer_helper.write_metadata s0.writer_helper with
  | none => simp [async_write_response_metadata, hnext] at haccept
  | some next =>
    have hn : next = .metadata_issued := by
      cases hs : s0.writer_helper <;> rw [hs] at hnext <;>
        simp [writer_helper.write_metadata] at hnext <;> exact hnext.symm
    subst hn
    cases hf : s0.flags.HTTP_1_1
    · simp [async_write_response_metadata, hnext, hf] at haccept
    · simp [async_write_response_metadata, hnext, hf, run_to_completion, on_write_complete]
      split_ifs <;> exact ⟨rfl, rfl⟩

/-- The chunked stream under a global locale that groups no digits, as the
classic locale does. After an accepted `async_write_response_metadata`, a
sequence of chunk writes (`async_write`) ended by `async_write_end_of_message`
is accepted operation by operation, and the bytes these operations write, in
order, are the frames `hex(n)` CRLF body CRLF of the non-empty bodies followed
by the zero-size chunk `0` CRLF CRLF; they go to the transport behind what was
written before. Every size line consists of lowercase hexadecimal digits and
reads back in base 16 as the length of its body. A decoder of the chunked
transfer coding returns on these bytes exactly the concatenation of the
bodies. Chunk writes with an empty body add no byte: the bytes are those of
the same sequence without them. -/
theorem chunked_stream_decodes_ungrouped (s0 s : basic_socket) (status_code : Nat)
    (reason_phrase : Str) (m0 : Message) (messages : List Message)
    (buffers : List Str) (k : completion)
    (hlocale : s0.global_locale.grouping = [])
    (haccept : (async_write_response_metadata s0 status_code reason_phrase m0).2
      = .async_write buffers k)
    (hs : s = run_to_completion
      (async_write_response_metadata s0 status_code reason_phrase m0)) :
    (∀ x ∈ (write_chunked_body s messages).2, x.out_of_order = false)
      ∧ written (write_chunked_body s messages).2
          = ((nonempty_bodies messages).map chunk_frame).flatten ++ "0\r\n\r\n".toList
      ∧ (write_chunked_body s messages).1.channel.output
          = s.channel.output ++ written (write_chunked_body s messages).2
      ∧ (∀ b ∈ nonempty_bodies messages,
          b ≠ []
            ∧ chunk_frame b = hex_digits b.length ++ "\r\n".toList ++ b ++ "\r\n".toList
            ∧ read_number 16 (hex_digits b.length) = b.length
            ∧ ∀ c ∈ hex_digits b.length, is_lower_hex_digit c = true)
      ∧ (∀ fuel, messages.length < fuel →
          decode_chunked fuel (written (write_chunked_body s messages).2)
            = some (messages.map Message.body).flatten)
      ∧ decode_chunked_stream (written (write_chunked_body s messages).2)
          = some (messages.map Message.body).flatten
      ∧ written (write_chunked_body s messages).2
          = written (write_chunked_body s
              (messages.filter (fun m => !m.body.isEmpty))).2 := by
  have hmeta := metadata_accepted_state s0 status_code reason_phrase m0 buffers k haccept
  have hw : s.writer_helper = .metadata_issued ∨ s.writer_helper = .chunked_body := by
    rw [hs]
    exact Or.inl hmeta.1
  have hl : s.global_locale.grouping = [] := by
    rw [hs, hmeta.2]
    exact hlocale
  obtain ⟨h1, h2, h3⟩ := write_chunked_body_stream s messages hw hl
  obtain ⟨n1, n2, n3⟩ := nonempty_bodies_spec messages
  have hdecode : ∀ fuel, (nonempty_bodies messages).length < fuel →
      decode_chunked fuel (written (write_chunked_body s messages).2)
        = some (messages.map Message.body).flatten := by
    intro fuel hfuel
    rw [h2, decode_chunked_frames _ n1 fuel hfuel, n2]
  refine ⟨h1, h2, h3, ?_, ?_, ?_, ?_⟩
  · intro b hb
    exact ⟨n1 b hb, rfl, read_number_hex_digits _, hex_digits_all_lower_hex _⟩
  · intro fuel hfuel
    exact hdecode fuel (by omega)
  · refine hdecode _ ?_
    rw [h2]
    exact Nat.lt_succ_of_lt (chunked_stream_length _)
  · rw [h2, (write_chunked_body_stream s _ hw hl).2.1]
    have hsame : nonempty_bodies (messages.filter (fun m => !m.body.isEmpty))
        = nonempty_bodies messages := by
      simp only [nonempty_bodies, List.filter_map, List.filter_filter]
      congr 1
      apply List.filter_congr
      intro m _
      simp [Function.comp]
    rw [hsame]

theorem decode_chunked_grouped_size (fuel : Nat) (rest : Str) :
    decode_chunked fuel ('1' :: ',' :: rest) = none := by
  cases fuel with
  | zero => rfl
  | succ f =>
    have h1 : is_lower_hex_digit '1' = true := by decide
    have h2 : is_lower_hex_digit ',' = false := by decide
    have htake : List.takeWhile is_lower_hex_digit ('1' :: ',' :: rest) = ['1'] := by
      rw [List.takeWhile_cons, h1, List.takeWhile_cons, h2]
      rfl
    have hdrop : List.dropWhile is_lower_hex_digit ('1' :: ',' :: rest) = ',' :: rest := by
      rw [List.dropWhile_cons, h1, List.dropWhile_cons, h2]
      rfl
    have hstrip : strip_crlf (',' :: rest) = none := by
      cases rest <;> simp [strip_crlf, crlf]
    simp only [decode_chunked]
    rw [htake, hdrop, hstrip]
    simp

/-- C21: the size line of every chunk is written through a
`std::ostringstream` that takes on the global locale. Under a global locale
that groups digits in threes, the metadata of a `200` response, one chunk
write with a body of 4096 bytes and the end of the message are all accepted,
and the bytes of the chunk write and of the end of the message are `1,000`
CRLF body CRLF `0` CRLF CRLF. The size line `1,000` is not a hexadecimal
number, so these bytes are not a chunked body: the decoder returns nothing on
them, whatever the fuel, where the claim has the body as result. -/
theorem chunked_stream_size_line_grouped :
    (∀ x ∈ (write_chunked_body
        (run_to_completion
          (async_write_response_metadata
            { sample_http_1_1 with global_locale := sample_grouping_locale }
            200 "OK".toList sample_message))
        [{ sample_message with body := sample_large_body }]).2, x.out_of_order = false)
      ∧ written (write_chunked_body
          (run_to_completion
            (async_write_response_metadata
              { sample_http_1_1 with global_locale := sample_grouping_locale }
              200 "OK".toList sample_message))
          [{ sample_message with body := sample_large_body }]).2
        = "1,000\r\n".toList ++ sample_large_body ++ "\r\n0\r\n\r\n".toList
      ∧ (∀ fuel, decode_chunked fuel
          (written (write_chunked_body
            (run_to_completion
              (async_write_response_metadata
                { sample_http_1_1 with global_locale := sample_grouping_locale }
                200 "OK".toList sample_message))
            [{ sample_message with body := sample_large_body }]).2) = none)
      ∧ decode_chunked_stream
          (written (write_chunked_body
            (run_to_completion
              (async_write_response_metadata
                { sample_http_1_1 with global_locale := sample_grouping_locale }
                200 "OK".toList sample_message))
            [{ sample_message with body := sample_large_body }]).2) = none
      ∧ sample_large_body ≠ []
      ∧ chunked_stream [sample_large_body]
        = "1000\r\n".toList ++ sample_large_body ++ "\r\n0\r\n\r\n".toList
      ∧ decode_chunked_stream (chunked_stream [sample_large_body])
        = some sample_large_body := by
  have hlen : sample_large_body.length = 4096 := List.length_replicate _ _
  have hne : sample_large_body ≠ [] := by
    intro h
    rw [h] at hlen
    cases hlen
  have hgrouped : to_hex sample_grouping_locale 4096 = "1,000".toList := by decide
  have hplain : hex_digits 4096 = "1000".toList := by decide
  have hstate : run_to_completion
      (async_write_response_metadata
        { sample_http_1_1 with global_locale := sample_grouping_locale }
        200 "OK".toList sample_message)
      = { sample_http_1_1 with
          global_locale := sample_grouping_locale,
          writer_helper := .metadata_issued,
          content_length_buffer := "200 ".toList,
          channel :=
            { output := ("HTTP/1.1 200 OK\r\nx: y\r\n"
                ++ "transfer-encoding: chunked\r\n\r\n").toList } } := by
    decide
  have hops : (write_chunked_body
      (run_to_completion
        (async_write_response_metadata
          { sample_http_1_1 with global_locale := sample_grouping_locale }
          200 "OK".toList sample_message))
      [{ sample_message with body := sample_large_body }]).2
      = [.async_write ["1,000".toList, crlf, sample_large_body, crlf] .handler_only,
         .async_write ["0\r\n\r\n".toList] .keep_alive_then_handler] := by
    rw [hstate]
    simp [write_chunked_body, write_chunks, async_write, async_write_end_of_message,
      writer_helper.write, writer_helper.end_, run_to_completion, on_write_complete,
      sample_http_1_1, hlen, hgrouped]
  have hbytes : written (write_chunked_body
      (run_to_completion
        (async_write_response_metadata
          { sample_http_1_1 with global_locale := sample_grouping_locale }
          200 "OK".toList sample_message))
      [{ sample_message with body := sample_large_body }]).2
      = "1,000\r\n".toList ++ sample_large_body ++ "\r\n0\r\n\r\n".toList := by
    rw [hops]
    simp [written, started.bytes, crlf]
  have hstream : chunked_stream [sample_large_body]
      = "1000\r\n".toList ++ sample_large_body ++ "\r\n0\r\n\r\n".toList := by
    simp [chunked_stream, chunk_frame, hlen, hplain, crlf]
  have hnone : ∀ fuel, decode_chunked fuel
      ("1,000\r\n".toList ++ sample_large_body ++ "\r\n0\r\n\r\n".toList) = none :=
    fun fuel => decode_chunked_grouped_size fuel _
  refine ⟨?_, hbytes, ?_, ?_, hne, hstream, ?_⟩
  · intro x hx
    rw [hops] at hx
    simp only [List.mem_cons, List.mem_singleton, List.not_mem_nil, or_false] at hx
    rcases hx with hx | hx <;> rw [hx] <;> rfl
  · intro fuel
    rw [hbytes]
    exact hnone fuel
  · rw [hbytes]
    exact hnone _
  · have hfuel : [sample_large_body].length
        < (chunked_stream [sample_large_body]).length + 1 :=
      Nat.lt_add_right 1 (chunked_stream_length [sample_large_body])
    have h := decode_chunked_frames [sample_large_body]
      (fun b hb => by rw [List.mem_singleton.mp hb]; exact hne)
      ((chunked_stream [sample_large_body]).length + 1) hfuel
    rw [List.flatten_cons, List.flatten_nil, List.append_nil] at h
    unfold decode_chunked_stream
    exact h

/-! ## Claim on the bounds of the input buffer -/

theorem run_callbacks_nparsed_le (steps : List callback_step) :
    ∀ (c : connection) (parser : http_parser_struct) (nparsed bound : Nat),
      nparsed ≤ bound → (∀ step ∈ steps, step.nparsed ≤ bound) →
      (run_callbacks c steps parser nparsed).2 ≤ bound := by
  induction steps with
  | nil => intro c parser nparsed bound h _; simpa [run_callbacks] using h
  | cons step rest ih =>
    intro c parser nparsed bound h hall
    simp only [run_callbacks]
    split
    · exact hall step (by simp)
    · exact ih _ parser nparsed bound h (fun st hst => hall st (by simp [hst]))

theorem parse_step_bounds (P : parser_model) (hP : parser_bounded P) (c : connection)
    (n : Nat) :
    (parse_step P c n).1.socket.buffer = c.socket.buffer
      ∧ (parse_step P c n).1.socket.used_size = c.socket.used_size + n
      ∧ (parse_step P c n).2 ≤ c.socket.used_size + n := by
  have hf := execute_frame P
    { c with socket := { c.socket with used_size := c.socket.used_size + n } }
  refine ⟨hf.2.2.1, hf.2.2.2.1, ?_⟩
  have hb := hP c.socket.parser (c.socket.buffer.take (c.socket.used_size + n))
  have hlen : (c.socket.buffer.take (c.socket.used_size + n)).length
      ≤ c.socket.used_size + n := by
    rw [List.length_take]
    exact Nat.min_le_left _ _
  unfold parse_step detail.execute
  exact run_callbacks_nparsed_le _ _ _ _ _ (hb.1.trans hlen)
    (fun st hst => (hb.2 st hst).trans hlen)

theorem compacted_bounds (c : connection) (k capacity : Nat)
    (hlen : c.socket.buffer.length = capacity) (hused : c.socket.used_size ≤ capacity)
    (hk : k ≤ c.socket.used_size) :
    (compacted c k).socket.buffer.length = capacity
      ∧ (compacted c k).socket.used_size ≤ capacity := by
  have h := compact_take c.socket k c.socket.used_size c.socket.buffer rfl rfl
    (by rw [hlen]; exact hused)
  refine ⟨?_, ?_⟩
  · show (compact c.socket k).buffer.length = capacity
    rw [h.2.1 hk, hlen]
  · show (compact c.socket k).used_size ≤ capacity
    rw [h.2.2]
    omega

theorem milestone_check_invariant (t : target) (c : connection) (capacity : Nat)
    (hlen : c.socket.buffer.length = capacity) (hused : c.socket.used_size ≤ capacity) :
    read_invariant capacity (milestone_check t c) := by
  have hf := milestone_check_frame t c
  refine ⟨by rw [hf.1]; exact hlen, by rw [hf.2.1]; exact hused, ?_⟩
  intro offset hoff
  rw [milestone_check_outcome] at hoff
  split_ifs at hoff with h1 h2
  cases hoff
  rw [hf.2.1]
  refine ⟨rfl, ?_⟩
  rw [hlen] at h2
  omega

theorem on_async_read_message_invariant (P : parser_model) (hP : parser_bounded P)
    (t : target) (c : connection) (ec : error_code) (n capacity : Nat)
    (hlen : c.socket.buffer.length = capacity)
    (hfit : ec ≠ .success ∨ c.socket.used_size + n ≤ capacity) :
    read_invariant capacity (on_async_read_message P t c ec n) := by
  by_cases hec : ec = .success
  · subst hec
    have hroom : c.socket.used_size + n ≤ capacity := by
      rcases hfit with h | h
      · exact absurd rfl h
      · exact h
    obtain ⟨hb, hu, hk⟩ := parse_step_bounds P hP c n
    have hlen1 : (parse_step P c n).1.socket.buffer.length = capacity := by rw [hb, hlen]
    have hused1 : (parse_step P c n).1.socket.used_size ≤ capacity := by rw [hu]; exact hroom
    have hk1 : (parse_step P c n).2 ≤ (parse_step P c n).1.socket.used_size := by
      rw [hu]; exact hk
    cases herr : (parse_step P c n).1.socket.parser.http_errno with
    | ok =>
      have hcall : on_async_read_message P t c .success n
          = milestone_check t (compacted (parse_step P c n).1 (parse_step P c n).2) := by
        simp only [parse_step] at herr
        simp [on_async_read_message, parse_step, compacted, herr]
      rw [hcall]
      have h := compacted_bounds (parse_step P c n).1 (parse_step P c n).2 capacity hlen1
        hused1 hk1
      exact milestone_check_invariant t _ capacity h.1 h.2
    | cb_headers_complete =>
      simp only [parse_step] at herr hlen1
      simp [on_async_read_message, herr, clear_buffer, read_invariant, hlen1]
    | cb_message_complete =>
      rw [on_async_read_message_of_stop P t c n herr]
      have h := compacted_bounds
        { (parse_step P c n).1 with
          socket := { (parse_step P c n).1.socket with parser := {} } }
        (parse_step P c n).2 capacity hlen1 hused1 hk1
      exact milestone_check_invariant t _ capacity h.1 h.2
    | other code =>
      simp only [parse_step] at herr hlen1
      simp [on_async_read_message, herr, clear_buffer, read_invariant, hlen1]
  · simp [on_async_read_message, hec, clear_buffer, read_invariant, hlen]

theorem deposit_bounds (s : basic_socket) (data : Str) (capacity : Nat)
    (hlen : s.buffer.length = capacity)
    (hfit : s.used_size + data.length ≤ capacity) :
    (deposit s data).buffer.length = capacity
      ∧ (deposit s data).used_size = s.used_size := by
  refine ⟨?_, rfl⟩
  simp only [deposit, List.length_append, List.length_take, List.length_drop]
  omega

theorem on_read_complete_invariant (P : parser_model) (hP : parser_bounded P)
    (t : target) (r : connection × read_started) (capacity : Nat)
    (hr : read_invariant capacity r) :
    (∀ (offset : Nat) (data : Str), r.2 = .async_read_some offset →
        data.length ≤ r.1.socket.buffer.length - offset →
        read_invariant capacity (on_read_complete P t r.1 .success data))
      ∧ ∀ code : Nat,
          read_invariant capacity (on_read_complete P t r.1 (.transport code) []) := by
  obtain ⟨hlen, hused, hread⟩ := hr
  refine ⟨?_, ?_⟩
  · intro offset data hoff hdata
    obtain ⟨ho, hlt⟩ := hread offset hoff
    have hfit : r.1.socket.used_size + data.length ≤ capacity := by
      rw [hlen] at hdata
      omega
    have hd := deposit_bounds r.1.socket data capacity hlen hfit
    simp only [on_read_complete, ne_eq, not_true_eq_false, if_false]
    refine on_async_read_message_invariant P hP t _ _ _ capacity hd.1 (Or.inr ?_)
    show (deposit r.1.socket data).used_size + data.length ≤ capacity
    rw [hd.2]
    exact hfit
  · intro code
    have hne : error_code.transport code ≠ .success := by intro h; cases h
    simp only [on_read_complete, hne, ne_eq, not_false_eq_true, if_true]
    exact on_async_read_message_invariant P hP t _ _ _ capacity hlen (Or.inl hne)

theorem drive_invariant (P : parser_model) (hP : parser_bounded P) (t : target)
    (capacity : Nat) (results : List transport_result) :
    ∀ r : connection × read_started, read_invariant capacity r →
      fits P t r results = true → read_invariant capacity (drive P t r results) := by
  induction results with
  | nil => intro r hr _; exact hr
  | cons x rest ih =>
    intro r hr hfits
    have hstep := on_read_complete_invariant P hP t r capacity hr
    obtain ⟨c, st⟩ := r
    cases st with
    | posted ec => exact hr
    | handler ec => exact hr
    | async_write buffers => exact hr
    | async_read_some offset =>
      cases x with
      | received data =>
        simp only [fits, Bool.and_eq_true, decide_eq_true_eq] at hfits
        simp only [drive]
        exact ih _ (hstep.1 offset data rfl hfits.1) hfits.2
      | error code =>
        simp only [fits] at hfits
        simp only [drive]
        exact ih _ (hstep.2 code) hfits

theorem schedule_invariant (P : parser_model) (hP : parser_bounded P) (t : target)
    (c : connection) (capacity : Nat) (hcap : 0 < capacity)
    (hlen : c.socket.buffer.length = capacity) (hused : c.socket.used_size ≤ capacity) :
    read_invariant capacity (schedule_on_async_read_message P t c) := by
  by_cases h0 : c.socket.used_size = 0
  · simp only [schedule_on_async_read_message, h0, ne_eq, not_true_eq_false, if_false]
    refine ⟨hlen, hused, ?_⟩
    intro offset hoff
    cases hoff
    exact ⟨h0.symm, hcap⟩
  · simp only [schedule_on_async_read_message, h0, ne_eq, not_false_eq_true, if_true]
    exact on_async_read_message_invariant P hP t c .success 0 capacity hlen (Or.inr hused)

/-- C25: `used_size ≤ capacity` is an invariant of the read driver. For a
parser that consumes no more bytes than it is fed and an input buffer of
capacity at least 1 with `used_size` within it, every entry point of the read
driver (`schedule_on_async_read_message`, `async_read_request`,
`async_read_some`, `async_read_trailers`) leaves the capacity unchanged and
`used_size` within it, and when it issues a transport read, the read is on the
region that starts at `used_size`, which is not empty. Every completion of a
transport read that returns at most as many bytes as that region holds, or an
error, leads to such a state again, and so does every sequence of such
completions. -/
theorem used_size_within_capacity (P : parser_model) (hP : parser_bounded P) (t : target)
    (c : connection) (hcap : 0 < c.socket.buffer.length)
    (hused : c.socket.used_size ≤ c.socket.buffer.length) :
    read_invariant c.socket.buffer.length (schedule_on_async_read_message P t c)
      ∧ read_invariant c.socket.buffer.length (async_read_request P c)
      ∧ read_invariant c.socket.buffer.length (async_read_some P c)
      ∧ read_invariant c.socket.buffer.length (async_read_trailers P c)
      ∧ (∀ (r : connection × read_started) (offset : Nat) (data : Str),
          read_invariant c.socket.buffer.length r → r.2 = .async_read_some offset →
          data.length ≤ r.1.socket.buffer.length - offset →
          read_invariant c.socket.buffer.length (on_read_complete P t r.1 .success data))
      ∧ (∀ (r : connection × read_started) (code : Nat),
          read_invariant c.socket.buffer.length r →
          read_invariant c.socket.buffer.length
            (on_read_complete P t r.1 (.transport code) []))
      ∧ (∀ (r : connection × read_started) (results : List transport_result),
          read_invariant c.socket.buffer.length r → fits P t r results = true →
          read_invariant c.socket.buffer.length (drive P t r results)) := by
  have hposted : ∀ ec : error_code,
      read_invariant c.socket.buffer.length (c, .posted ec) := by
    intro ec
    refine ⟨rfl, hused, ?_⟩
    intro offset hoff
    cases hoff
  refine ⟨schedule_invariant P hP t c _ hcap rfl hused, ?_, ?_, ?_, ?_, ?_, ?_⟩
  · simp only [async_read_request]
    split_ifs
    · exact hposted _
    · exact schedule_invariant P hP .READY _ _ hcap rfl hused
  · simp only [async_read_some]
    split_ifs
    · exact hposted _
    · exact schedule_invariant P hP .DATA c _ hcap rfl hused
  · simp only [async_read_trailers]
    split_ifs
    · exact hposted _
    · exact schedule_invariant P hP .END c _ hcap rfl hused
  · intro r offset data hr hoff hdata
    exact (on_read_complete_invariant P hP t r _ hr).1 offset data hoff hdata
  · intro r code hr
    exact (on_read_complete_invariant P hP t r _ hr).2 code
  · intro r results hr hfits
    exact drive_invariant P hP t _ results r hr hfits

/-- C25 at a concrete input: on the sample connection with its buffer of 64
bytes, a request read whose transport reads deliver 4 and then 2 bytes, with a
parser that consumes nothing yet, ends with 6 bytes in use and a transport
read on the region from offset 6. -/
theorem used_size_within_capacity_witness :
    read_invariant 64
        (drive sample_idle_model .READY (async_read_request sample_idle_model sample_connection)
          [.received "GET ".toList, .received "/x".toList])
      ∧ (drive sample_idle_model .READY (async_read_request sample_idle_model sample_connection)
          [.received "GET ".toList, .received "/x".toList]).2 = .async_read_some 6
      ∧ (drive sample_idle_model .READY (async_read_request sample_idle_model sample_connection)
          [.received "GET ".toList, .received "/x".toList]).1.socket.used_size = 6 :=
  ⟨(used_size_within_capacity sample_idle_model
      (fun _ _ => ⟨Nat.zero_le _, fun _ h => nomatch h⟩) .READY sample_connection
      (by decide) (by decide)).2.2.2.2.2.2 _ _
      (used_size_within_capacity sample_idle_model
        (fun _ _ => ⟨Nat.zero_le _, fun _ h => nomatch h⟩) .READY sample_connection
        (by decide) (by decide)).2.1
      (by decide),
    by decide, by decide⟩

/-! ## Claims on the header scratchpad across reads -/

theorem equal_range_stored_form (L : List (Str × Str)) (name : Str) :
    Headers.equal_range (L.map stored_form) name
      = (Headers.equal_range L name).map stored_form := by
  induction L with
  | nil => rfl
  | cons kv rest ih =>
    have hkey : iequals (stored_form kv).1 name = iequals kv.1 name := by
      simp only [stored_form, iequals]
      rw [map_toLower_idem]
    simp only [Headers.equal_range, List.map_cons, List.filter_cons, hkey] at ih ⊢
    split_ifs
    · rw [List.map_cons, ih]
    · exact ih

/-- C14: `last_header`, the scratchpad of the header callbacks, is cleared by
headers-complete and message-complete only, not by `clear_buffer` and not by
message-begin. A request read that a transport error ends inside the header
name `X-Pad` leaves the name `x-pad` pending, with the read state `empty` and
the socket open; the next read is accepted, and the HTTP/1.0 request with the
header `Host: h` that it receives completes with success and the headers
`x-padhost: h`: the header `Host` of the request is not stored, where on a
new connection the same request stores `host: h`. In the same way, after a
read that an error ends behind `Expect: 100-continue`, an HTTP/1.1 request
whose only header is `Expect: 100-continue` completes with no header stored,
where on a new connection it stores its `expect` header. -/
theorem stale_scratchpad_breaks_header_storage :
    (interrupted_read sample_stale_name_model "GET / HTTP/1.0\r\nX-Pad".toList
        ).socket.last_header = ("x-pad".toList, [])
      ∧ (interrupted_read sample_stale_name_model "GET / HTTP/1.0\r\nX-Pad".toList
          ).socket.istate = .empty
      ∧ (interrupted_read sample_stale_name_model "GET / HTTP/1.0\r\nX-Pad".toList
          ).socket.is_open = true
      ∧ (drive sample_stale_name_model .READY
          (async_read_request sample_stale_name_model sample_connection)
          [.received "GET / HTTP/1.0\r\nX-Pad".toList, .error 125]).2
        = .handler (.transport 125)
      ∧ (reread sample_stale_name_model "GET / HTTP/1.0\r\nX-Pad".toList
          "GET / HTTP/1.0\r\nHost: h\r\n\r\n".toList).2 = .handler .success
      ∧ (reread sample_stale_name_model "GET / HTTP/1.0\r\nX-Pad".toList
          "GET / HTTP/1.0\r\nHost: h\r\n\r\n".toList).1.message.headers
        = [("x-padhost".toList, "h".toList)]
      ∧ (reread sample_stale_name_model "GET / HTTP/1.0\r\nX-Pad".toList
          "GET / HTTP/1.0\r\nHost: h\r\n\r\n".toList).1.message.headers.find "host".toList
        = none
      ∧ (drive sample_stale_name_model .READY
          (async_read_request sample_stale_name_model sample_connection)
          [.received "GET / HTTP/1.0\r\nHost: h\r\n\r\n".toList]).1.message.headers
        = [("host".toList, "h".toList)]
      ∧ (interrupted_read sample_stale_expect_model
          "GET / HTTP/1.1\r\nExpect: 100-continue".toList).socket.last_header
        = ("expect".toList, "100-continue".toList)
      ∧ (reread sample_stale_expect_model "GET / HTTP/1.1\r\nExpect: 100-continue".toList
          "GET / HTTP/1.1\r\nExpect: 100-continue\r\n\r\n".toList).2 = .handler .success
      ∧ (reread sample_stale_expect_model "GET / HTTP/1.1\r\nExpect: 100-continue".toList
          "GET / HTTP/1.1\r\nExpect: 100-continue\r\n\r\n".toList).1.message.headers = []
      ∧ (drive sample_stale_expect_model .READY
          (async_read_request sample_stale_expect_model sample_connection)
          [.received "GET / HTTP/1.1\r\nExpect: 100-continue\r\n\r\n".toList]
          ).1.message.headers
        = [("expect".toList, "100-continue".toList)] := by
  refine ⟨?_, ?_, ?_, ?_, ?_, ?_, ?_, ?_, ?_, ?_, ?_, ?_⟩ <;> decide

/-- C26: `last_header` is cleared by headers-complete and message-complete
only, not by `clear_buffer` and not by message-begin. A request read that a
transport error ends behind `Cookie: secret` leaves this header pending, with
the read state `empty` and the socket open, and the next read is accepted. On
this connection the events message-begin, field `A`, field `B`, value `x`,
headers-complete leave two headers, `cookie: secret` and `ab: x`, not the
single entry `ab: x` of the claim; so does the next read as a whole, which
completes with success. On a new connection the same events leave the single
entry. -/
theorem stale_scratchpad_adds_header :
    (interrupted_read sample_stale_value_model "GET / HTTP/1.1\r\nCookie: secret".toList
        ).socket.last_header = ("cookie".toList, "secret".toList)
      ∧ (interrupted_read sample_stale_value_model "GET / HTTP/1.1\r\nCookie: secret".toList
          ).socket.istate = .empty
      ∧ (interrupted_read sample_stale_value_model "GET / HTTP/1.1\r\nCookie: secret".toList
          ).socket.is_open = true
      ∧ (async_read_request sample_stale_value_model
          (interrupted_read sample_stale_value_model
            "GET / HTTP/1.1\r\nCookie: secret".toList)).2 = .async_read_some 0
      ∧ (run_callbacks
          (interrupted_read sample_stale_value_model
            "GET / HTTP/1.1\r\nCookie: secret".toList)
          [⟨sample_parser_struct 1 1, .message_begin, 0⟩,
           ⟨sample_parser_struct 1 1, .header_field "A".toList, 0⟩,
           ⟨sample_parser_struct 1 1, .header_field "B".toList, 0⟩,
           ⟨sample_parser_struct 1 1, .header_value "x".toList, 0⟩,
           ⟨sample_parser_struct 1 1, .headers_complete, 0⟩]
          (sample_parser_struct 1 1) 0).1.message.headers
        = [("cookie".toList, "secret".toList), ("ab".toList, "x".toList)]
      ∧ (reread sample_stale_value_model "GET / HTTP/1.1\r\nCookie: secret".toList
          "GET / HTTP/1.1\r\nA:\r\nB: x\r\n\r\n".toList).2 = .handler .success
      ∧ (reread sample_stale_value_model "GET / HTTP/1.1\r\nCookie: secret".toList
          "GET / HTTP/1.1\r\nA:\r\nB: x\r\n\r\n".toList).1.message.headers
        = [("cookie".toList, "secret".toList), ("ab".toList, "x".toList)]
      ∧ (run_callbacks sample_connection
          [⟨sample_parser_struct 1 1, .message_begin, 0⟩,
           ⟨sample_parser_struct 1 1, .header_field "A".toList, 0⟩,
           ⟨sample_parser_struct 1 1, .header_field "B".toList, 0⟩,
           ⟨sample_parser_struct 1 1, .header_value "x".toList, 0⟩,
           ⟨sample_parser_struct 1 1, .headers_complete, 0⟩]
          (sample_parser_struct 1 1) 0).1.message.headers
        = [("ab".toList, "x".toList)] := by
  refine ⟨?_, ?_, ?_, ?_, ?_, ?_, ?_, ?_⟩ <;> decide

/-- C15, the claim as stated fails: on a new connection an HTTP/1.0 request
that carries exactly one `Expect` header has no `expect` header after
headers-complete, because the suppression rule for HTTP/1.0 drops it; and an
HTTP/1.1 request whose one `Expect` header has an empty value and is followed
by `Host: h` has none either, because the name of the next header is appended
to a name whose value is empty. -/
theorem single_expect_not_kept :
    (run_callbacks sample_connection
        [⟨sample_parser_struct 1 0, .message_begin, 0⟩,
         ⟨sample_parser_struct 1 0, .header_field "Expect".toList, 0⟩,
         ⟨sample_parser_struct 1 0, .header_value "100-continue".toList, 0⟩,
         ⟨sample_parser_struct 1 0, .headers_complete, 0⟩]
        (sample_parser_struct 1 0) 0).1.message.headers = []
      ∧ (run_callbacks sample_connection
          [⟨sample_parser_struct 1 0, .message_begin, 0⟩,
           ⟨sample_parser_struct 1 0, .header_field "Expect".toList, 0⟩,
           ⟨sample_parser_struct 1 0, .header_value "100-continue".toList, 0⟩,
           ⟨sample_parser_struct 1 0, .headers_complete, 0⟩]
          (sample_parser_struct 1 0) 0).1.socket.istate = .message_ready
      ∧ (run_callbacks sample_connection
          [⟨sample_parser_struct 1 1, .message_begin, 0⟩,
           ⟨sample_parser_struct 1 1, .header_field "Expect".toList, 0⟩,
           ⟨sample_parser_struct 1 1, .header_value [], 0⟩,
           ⟨sample_parser_struct 1 1, .header_field "Host".toList, 0⟩,
           ⟨sample_parser_struct 1 1, .header_value "h".toList, 0⟩,
           ⟨sample_parser_struct 1 1, .headers_complete, 0⟩]
          (sample_parser_struct 1 1) 0).1.message.headers
        = [("expecthost".toList, "h".toList)]
      ∧ Headers.equal_range
          (run_callbacks sample_connection
            [⟨sample_parser_struct 1 1, .message_begin, 0⟩,
             ⟨sample_parser_struct 1 1, .header_field "Expect".toList, 0⟩,
             ⟨sample_parser_struct 1 1, .header_value [], 0⟩,
             ⟨sample_parser_struct 1 1, .header_field "Host".toList, 0⟩,
             ⟨sample_parser_struct 1 1, .header_value "h".toList, 0⟩,
             ⟨sample_parser_struct 1 1, .headers_complete, 0⟩]
            (sample_parser_struct 1 1) 0).1.message.headers "expect".toList = [] := by
  refine ⟨?_, ?_, ?_, ?_⟩ <;> decide

/-- C15 as amended: a request of major version 1, read on a connection whose
header scratchpad is empty at message-begin, whose headers all have a
non-empty name and a non-empty value, delivered in any fragments. After
headers-complete `message.headers` contains at most one `expect` header. If
the request carried two or more `Expect` headers, none is in
`message.headers`; if it carried exactly one and the minor version is not 0,
that header is kept, in stored form; if the minor version is 0, no `expect`
header is stored at all. The headers with another name are the headers of the
request with another name that pass the suppression rule for HTTP/1.0, in
stored form and in order: the `expect` step adds, removes and changes none of
them. -/
theorem expect_headers_of_request (c : connection) (p : http_parser_struct)
    (hs : List (List Str × List Str)) (k : Nat) (fin : http_parser_struct) (n : Nat)
    (hlast : c.socket.last_header = ([], [])) (hmajor : p.http_major = 1)
    (hall : ∀ h ∈ hs, h.1.flatten ≠ [] ∧ h.2.flatten ≠ []) :
    (Headers.equal_range (run_callbacks c
          (⟨p, .message_begin, 0⟩ :: (fragmented_block p hs ++ [⟨p, .headers_complete, k⟩]))
          fin n).1.message.headers "expect".toList).length ≤ 1
      ∧ (2 ≤ (Headers.equal_range (hs.map assembled) "expect".toList).length →
          Headers.equal_range (run_callbacks c
          (⟨p, .message_begin, 0⟩ :: (fragmented_block p hs ++ [⟨p, .headers_complete, k⟩]))
          fin n).1.message.headers "expect".toList = [])
      ∧ ((Headers.equal_range (hs.map assembled) "expect".toList).length = 1 →
          p.http_minor ≠ 0 →
          Headers.equal_range (run_callbacks c
          (⟨p, .message_begin, 0⟩ :: (fragmented_block p hs ++ [⟨p, .headers_complete, k⟩]))
          fin n).1.message.headers "expect".toList
            = (Headers.equal_range (hs.map assembled) "expect".toList).map stored_form)
      ∧ (p.http_minor = 0 → Headers.equal_range (run_callbacks c
          (⟨p, .message_begin, 0⟩ :: (fragmented_block p hs ++ [⟨p, .headers_complete, k⟩]))
          fin n).1.message.headers "expect".toList = [])
      ∧ List.filter (fun kv => !iequals kv.1 "expect".toList) (run_callbacks c
          (⟨p, .message_begin, 0⟩ :: (fragmented_block p hs ++ [⟨p, .headers_complete, k⟩]))
          fin n).1.message.headers
          = List.filter (fun kv => !iequals kv.1 "expect".toList)
              (((hs.map assembled).map stored_form).filter
                (fun x => passes_suppression p x.1))
      ∧ (p.http_minor ≠ 0 →
          List.filter (fun kv => !iequals kv.1 "expect".toList) (run_callbacks c
          (⟨p, .message_begin, 0⟩ :: (fragmented_block p hs ++ [⟨p, .headers_complete, k⟩]))
          fin n).1.message.headers
            = List.filter (fun kv => !iequals kv.1 "expect".toList)
                ((hs.map assembled).map stored_form)) := by
  have hgen := headers_of_request c p hs k fin n hlast hmajor hall
  have haux := http_1_0_suppresses_expect_and_upgrade c p hs k fin n hlast hmajor hall
  have hcount := equal_range_stored_form (hs.map assembled) "expect".toList
  have hspec := erase_repeated_expect_spec
    (((hs.map assembled).map stored_form).filter (fun x => passes_suppression p x.1))
  have hQspec := erase_repeated_expect_spec ((hs.map assembled).map stored_form)
  generalize (run_callbacks c
          (⟨p, .message_begin, 0⟩ :: (fragmented_block p hs ++ [⟨p, .headers_complete, k⟩]))
          fin n).1.message.headers = R at hgen haux ⊢
  refine ⟨by rw [hgen]; exact hspec.1, ?_, ?_, ?_, by rw [hgen]; exact hspec.2.2.2.1, ?_⟩
  · intro hmany
    by_cases hminor : p.http_minor = 0
    · obtain ⟨_, hnone⟩ := haux.1 hminor
      unfold Headers.equal_range
      rw [List.filter_eq_nil_iff]
      intro kv hkv
      rw [(hnone kv hkv).1]
      simp
    · obtain ⟨hres, _⟩ := haux.2 hminor
      rw [hres]
      apply hQspec.2.1
      rw [hcount, List.length_map]
      exact hmany
  · intro hone hminor
    obtain ⟨hres, _⟩ := haux.2 hminor
    rw [hres, hQspec.2.2.1 (by rw [hcount, List.length_map]; omega), hcount]
  · intro hminor
    obtain ⟨_, hnone⟩ := haux.1 hminor
    unfold Headers.equal_range
    rw [List.filter_eq_nil_iff]
    intro kv hkv
    rw [(hnone kv hkv).1]
    simp
  · intro hminor
    obtain ⟨hres, _⟩ := haux.2 hminor
    rw [hres]
    exact hQspec.2.2.2.1

/-- C15 as amended, at concrete inputs: on the sample connection, whose
scratchpad is empty, an HTTP/1.1 request with the headers `Host: h`,
`Expect: a` and `Expect: b` stores `host: h` only, and one with `Host: h` and
a single `Expect: a` keeps that header. -/
theorem expect_headers_of_request_witness :
    Headers.equal_range
        (run_callbacks sample_connection
          (⟨sample_parser_struct 1 1, .message_begin, 0⟩
            :: (fragmented_block (sample_parser_struct 1 1)
                  [(["Host".toList], ["h".toList]), (["Expect".toList], ["a".toList]),
                   (["Ex".toList, "pect".toList], ["b".toList])]
                ++ [⟨sample_parser_struct 1 1, .headers_complete, 0⟩]))
          (sample_parser_struct 1 1) 0).1.message.headers "expect".toList = []
      ∧ (run_callbacks sample_connection
          (⟨sample_parser_struct 1 1, .message_begin, 0⟩
            :: (fragmented_block (sample_parser_struct 1 1)
                  [(["Host".toList], ["h".toList]), (["Expect".toList], ["a".toList]),
                   (["Ex".toList, "pect".toList], ["b".toList])]
                ++ [⟨sample_parser_struct 1 1, .headers_complete, 0⟩]))
          (sample_parser_struct 1 1) 0).1.message.headers = [("host".toList, "h".toList)]
      ∧ Headers.equal_range
          (run_callbacks sample_connection
            (⟨sample_parser_struct 1 1, .message_begin, 0⟩
              :: (fragmented_block (sample_parser_struct 1 1)
                    [(["Host".toList], ["h".toList]), (["Expect".toList], ["a".toList])]
                  ++ [⟨sample_parser_struct 1 1, .headers_complete, 0⟩]))
            (sample_parser_struct 1 1) 0).1.message.headers "expect".toList
        = [("expect".toList, "a".toList)] :=
  ⟨(expect_headers_of_request sample_connection (sample_parser_struct 1 1)
      [(["Host".toList], ["h".toList]), (["Expect".toList], ["a".toList]),
       (["Ex".toList, "pect".toList], ["b".toList])]
      0 (sample_parser_struct 1 1) 0 (by decide) (by decide) (by decide)).2.1 (by decide),
    by decide,
    (expect_headers_of_request sample_connection (sample_parser_struct 1 1)
      [(["Host".toList], ["h".toList]), (["Expect".toList], ["a".toList])]
      0 (sample_parser_struct 1 1) 0 (by decide) (by decide) (by decide)).2.2.1
      (by decide) (by decide)⟩

end BoostHttp
